import Mathlib

/-! # bequest: an auditable key → value store

A shallow embedding of the Go packages `datastore`, `util`, `services`,
`datastore/mongo` and `app`.

* Go `error` values are the inductive type `GoError`.
* Method receivers that own mutable state are passed and returned explicitly.
* `uuid.NewString`, `primitive.NewObjectID` and `time.Now` read an `Oracle`
  at the current tick; every reading advances the tick.
* The goroutine started by `go a.broadcastEvent(..)` is run to completion at
  the point where it is started.
* Repository implementations are assumed not to write through the pointers
  they receive, so an `*Answer` is passed by value.
-/

set_option autoImplicit false
set_option linter.dupNamespace false

/-! ## Go errors -/

/-- Values of the Go interface type `error` that occur in the program. -/
inductive GoError where
  /-- The sentinel `datastore.ErrAnswerNotFound`. -/
  | ErrAnswerNotFound : GoError
  /-- The sentinel `datastore.ErrDuplicateKey`. -/
  | ErrDuplicateKey : GoError
  /-- The driver sentinel `mongo.ErrNoDocuments`. -/
  | ErrNoDocuments : GoError
  /-- A driver `mongo.WriteException` carrying one write error. -/
  | WriteException : (code : Int) → (message : String) → GoError
  /-- Any other error value, as made by `errors.New`. -/
  | New : (msg : String) → GoError
  /-- An error with message `msg` whose `Unwrap` returns `err`. -/
  | Wrap : (msg : String) → (err : GoError) → GoError
  /-- The value `&util.ServiceError{errCode, errMsg}`. -/
  | ServiceError : (errCode : Int) → (errMsg : GoError) → GoError
  deriving DecidableEq, Repr

namespace GoError

/-- The method `Error() string`. For `*ServiceError` it is `s.errMsg.Error()`. -/
def Error : GoError → String
  | ErrAnswerNotFound => "answer not found"
  | ErrDuplicateKey => "an answer with this key already exists"
  | ErrNoDocuments => "mongo: no documents in result"
  | WriteException _ message => message
  | New msg => msg
  | Wrap msg _ => msg
  | ServiceError _ errMsg => errMsg.Error

/-- The method `(*ServiceError).ErrCode`; `none` on every other error value,
where the type assertion `err.(*util.ServiceError)` fails. -/
def ErrCode : GoError → Option Int
  | ServiceError errCode _ => some errCode
  | _ => none

end GoError

/-- The function `errors.Is(err, target)`: `err` or an error in its `Unwrap`
chain equals `target`. -/
def errorsIs : GoError → GoError → Bool
  | .Wrap msg err, target => decide (GoError.Wrap msg err = target) || errorsIs err target
  | err, target => decide (err = target)

namespace http

def StatusOK : Int := 200
def StatusCreated : Int := 201
def StatusBadRequest : Int := 400
def StatusForbidden : Int := 403
def StatusNotFound : Int := 404
def StatusInternalServerError : Int := 500

end http

namespace util

/-- The constructor `NewServiceError(errCode, errMsg)`. -/
def NewServiceError (errCode : Int) (errMsg : GoError) : GoError :=
  GoError.ServiceError errCode errMsg

/-- The function `NewServiceErrResponse`, a type switch on the error. -/
def NewServiceErrResponse (err : GoError) : Int × String :=
  match err with
  | .ServiceError errCode errMsg => (errCode, errMsg.Error)
  | v => (http.StatusBadRequest, v.Error)

end util

/-! ## Package `datastore`: the data model -/

namespace datastore

abbrev DocumentStatus := String
abbrev EventType := String

def ActiveDocumentStatus : DocumentStatus := "Active"
def DeletedDocumentStatus : DocumentStatus := "Deleted"

def CreateEvent : EventType := "create"
def UpdateEvent : EventType := "update"
def DeleteEvent : EventType := "delete"

structure Value where
  Value : String
  deriving DecidableEq, Repr

/-- The struct `Answer`. `primitive.ObjectID` is a number, `primitive.DateTime`
is milliseconds since the epoch; `DeletedAt = 0` is the unset zero value. -/
structure Answer where
  ID : Nat
  UID : String
  Key : String
  Values : List Value
  CreatedAt : Int
  UpdatedAt : Int
  DeletedAt : Int
  DocumentStatus : DocumentStatus
  deriving DecidableEq, Repr

structure EventData where
  Key : String
  Value : String
  deriving DecidableEq, Repr

structure Event where
  ID : Nat
  UID : String
  Type_ : EventType
  Data : EventData
  CreatedAt : Int
  UpdatedAt : Int
  DeletedAt : Int
  DocumentStatus : DocumentStatus
  deriving DecidableEq, Repr

structure AnswerEvent where
  Answer : Answer
  Type_ : EventType
  deriving DecidableEq, Repr

structure Pageable where
  Page : Int
  PerPage : Int
  Sort_ : Int
  deriving DecidableEq, Repr

structure PaginationData where
  Total : Int
  Page : Int
  PerPage : Int
  Prev : Int
  Next : Int
  TotalPage : Int
  deriving DecidableEq, Repr

/-- The request body `datastore.CreateAnswer`. -/
structure CreateAnswer where
  Key : String
  Value : String
  deriving DecidableEq, Repr

/-- The request body `datastore.UpdateAnswer`. -/
structure UpdateAnswer where
  Value : String
  deriving DecidableEq, Repr

/-- The struct `AnswerResponse`, the projection of an answer that the handlers
send. -/
structure AnswerResponse where
  UID : String
  Key : String
  Value : String
  CreatedAt : Int
  UpdatedAt : Int
  deriving DecidableEq, Repr

/-- The struct `PagedResponse`; its `Content` is always a slice of events. -/
structure PagedResponse where
  Content : List Event
  Pagination : PaginationData
  deriving DecidableEq, Repr

/-- The interface `AnswerRepository` over a store whose state has type `σ`.
A method takes the state before the call and returns the state after it. -/
structure AnswerRepository (σ : Type) where
  Create : Answer → σ → Option GoError × σ
  FindByKey : String → σ → Except GoError Answer × σ
  Update : Answer → Value → σ → Except GoError Answer × σ
  Delete : Answer → σ → Option GoError × σ

/-- The interface `EventRepository` over a store whose state has type `τ`.
`FindManyByKey` returns the three results of the Go method; a `nil` slice is
the empty list. -/
structure EventRepository (τ : Type) where
  Create : Event → τ → Option GoError × τ
  FindManyByKey : String → Pageable → τ → (List Event × PaginationData × Option GoError) × τ

end datastore

open datastore

/-! ## Package `services` -/

/-- Sources of fresh values: the `n`-th reading of each generator. -/
structure Oracle where
  NewObjectID : Nat → Nat
  NewString : Nat → String
  Now : Nat → Int

/-- A call that crossed a repository interface, or a log / crash record. -/
inductive Call where
  | answerCreate : Answer → Call
  | answerFindByKey : String → Call
  | answerUpdate : Answer → Value → Call
  | answerDelete : Answer → Call
  | eventCreate : Event → Call
  | eventFindManyByKey : String → Pageable → Call
  | logError : String → GoError → Call
  | goroutinePanic : String → Call
  deriving DecidableEq, Repr

/-- Everything a service call can read or change: the two stores, the number
of oracle readings made so far, and the record of calls made so far. -/
structure World (σ τ : Type) where
  answers : σ
  events : τ
  tick : Nat
  trace : List Call

/-- The result of running Go code that may panic. -/
inductive Go (α : Type) where
  | ret : α → Go α
  | panic : String → Go α

namespace services

structure EventService (σ τ : Type) where
  answerRepo : AnswerRepository σ
  eventRepo : EventRepository τ

structure AnswerService (σ τ : Type) where
  answerRepo : AnswerRepository σ
  eventService : EventService σ τ

def NewEventService {σ τ : Type} (answerRepo : AnswerRepository σ)
    (eventRepo : EventRepository τ) : EventService σ τ :=
  { answerRepo := answerRepo, eventRepo := eventRepo }

def NewAnswerService {σ τ : Type} (answerRepo : AnswerRepository σ)
    (eventService : EventService σ τ) : AnswerService σ τ :=
  { answerRepo := answerRepo, eventService := eventService }

variable {σ τ : Type}

/-- The method `EventService.CreateEvent`. The element read
`answer.Values[len(answer.Values)-1]` panics on an empty slice. -/
def EventService.CreateEvent (e : EventService σ τ) (o : Oracle)
    (answerEvent : AnswerEvent) (w : World σ τ) :
    Go (Except GoError Event) × World σ τ :=
  let answer := answerEvent.Answer
  match answer.Values.getLast? with
  | none => (Go.panic "index out of range [-1]", { w with tick := w.tick + 2 })
  | some last =>
    let event : Event :=
      { ID := o.NewObjectID w.tick
        UID := o.NewString (w.tick + 1)
        Type_ := answerEvent.Type_
        Data := { Key := answer.Key, Value := last.Value }
        CreatedAt := o.Now (w.tick + 2)
        UpdatedAt := o.Now (w.tick + 3)
        DeletedAt := 0
        DocumentStatus := ActiveDocumentStatus }
    let r := e.eventRepo.Create event w.events
    let w1 : World σ τ :=
      { w with events := r.2, tick := w.tick + 4, trace := w.trace ++ [Call.eventCreate event] }
    match r.1 with
    | some err => (Go.ret (.error (util.NewServiceError http.StatusInternalServerError err)), w1)
    | none => (Go.ret (.ok event), w1)

/-- The method `EventService.FindHistoryByKey`, with its three results: the
events, the pagination data and the error (`none` is `nil`). -/
def EventService.FindHistoryByKey (e : EventService σ τ) (key : String)
    (pageable : Pageable) (w : World σ τ) :
    (List Event × PaginationData × Option GoError) × World σ τ :=
  let r := e.answerRepo.FindByKey key w.answers
  let w1 : World σ τ := { w with answers := r.2, trace := w.trace ++ [Call.answerFindByKey key] }
  match r.1 with
  | .error err =>
    let statusCode :=
      if errorsIs err GoError.ErrAnswerNotFound then http.StatusNotFound
      else http.StatusInternalServerError
    (([], ⟨0, 0, 0, 0, 0, 0⟩, some (util.NewServiceError statusCode err)), w1)
  | .ok answer =>
    let q := e.eventRepo.FindManyByKey answer.Key pageable w1.events
    let w2 : World σ τ :=
      { w1 with events := q.2, trace := w1.trace ++ [Call.eventFindManyByKey answer.Key pageable] }
    match q.1 with
    | (_, _, some err) => (([], ⟨0, 0, 0, 0, 0, 0⟩, some err), w2)
    | (events, pagination, none) => ((events, pagination, none), w2)

/-- The method `AnswerService.broadcastEvent`: a failed event write is logged
and dropped. A panic ends the goroutine and is recorded. -/
def AnswerService.broadcastEvent (a : AnswerService σ τ) (o : Oracle) (answer : Answer)
    (eventType : EventType) (w : World σ τ) : World σ τ :=
  let ev : AnswerEvent := { Answer := answer, Type_ := eventType }
  match a.eventService.CreateEvent o ev w with
  | (Go.ret (.ok _), w1) => w1
  | (Go.ret (.error err), w1) =>
    { w1 with trace := w1.trace ++ [Call.logError "failed to create event" err] }
  | (Go.panic msg, w1) => { w1 with trace := w1.trace ++ [Call.goroutinePanic msg] }

/-- The method `AnswerService.CreateAnswer`. -/
def AnswerService.CreateAnswer (a : AnswerService σ τ) (o : Oracle)
    (req : datastore.CreateAnswer) (w : World σ τ) : Except GoError Answer × World σ τ :=
  let answer : Answer :=
    { ID := o.NewObjectID w.tick
      UID := o.NewString (w.tick + 1)
      Key := req.Key
      Values := [{ Value := req.Value }]
      CreatedAt := o.Now (w.tick + 2)
      UpdatedAt := o.Now (w.tick + 3)
      DeletedAt := 0
      DocumentStatus := ActiveDocumentStatus }
  let r := a.answerRepo.Create answer w.answers
  let w1 : World σ τ :=
    { w with answers := r.2, tick := w.tick + 4, trace := w.trace ++ [Call.answerCreate answer] }
  match r.1 with
  | some err =>
    let statusCode :=
      if errorsIs err GoError.ErrDuplicateKey then http.StatusForbidden
      else http.StatusInternalServerError
    (.error (util.NewServiceError statusCode err), w1)
  | none => (.ok answer, a.broadcastEvent o answer datastore.CreateEvent w1)

/-- The method `AnswerService.FindAnswerByKey`. -/
def AnswerService.FindAnswerByKey (a : AnswerService σ τ) (key : String) (w : World σ τ) :
    Except GoError Answer × World σ τ :=
  let r := a.answerRepo.FindByKey key w.answers
  let w1 : World σ τ := { w with answers := r.2, trace := w.trace ++ [Call.answerFindByKey key] }
  match r.1 with
  | .error err =>
    let statusCode :=
      if errorsIs err GoError.ErrAnswerNotFound then http.StatusNotFound
      else http.StatusInternalServerError
    (.error (util.NewServiceError statusCode err), w1)
  | .ok answer => (.ok answer, w1)

/-- The method `AnswerService.UpdateAnswer`. -/
def AnswerService.UpdateAnswer (a : AnswerService σ τ) (o : Oracle) (key : String)
    (req : datastore.UpdateAnswer) (w : World σ τ) : Except GoError Answer × World σ τ :=
  let value : Value := { Value := req.Value }
  match a.FindAnswerByKey key w with
  | (.error err, w1) => (.error err, w1)
  | (.ok answer, w1) =>
    let r := a.answerRepo.Update answer value w1.answers
    let w2 : World σ τ :=
      { w1 with answers := r.2, trace := w1.trace ++ [Call.answerUpdate answer value] }
    match r.1 with
    | .error err => (.error (util.NewServiceError http.StatusInternalServerError err), w2)
    | .ok answer1 => (.ok answer1, a.broadcastEvent o answer1 datastore.UpdateEvent w2)

/-- The method `AnswerService.DeleteAnswer`; `none` is the `nil` error. -/
def AnswerService.DeleteAnswer (a : AnswerService σ τ) (o : Oracle) (key : String)
    (w : World σ τ) : Option GoError × World σ τ :=
  match a.FindAnswerByKey key w with
  | (.error err, w1) => (some err, w1)
  | (.ok answer, w1) =>
    let r := a.answerRepo.Delete answer w1.answers
    let w2 : World σ τ :=
      { w1 with answers := r.2, trace := w1.trace ++ [Call.answerDelete answer] }
    match r.1 with
    | some err => (some (util.NewServiceError http.StatusInternalServerError err), w2)
    | none => (none, a.broadcastEvent o answer datastore.DeleteEvent w2)

end services

/-! ## Package `datastore/mongo`: the driver and the repositories

The driver is modelled on a database without infrastructure failures: a
command fails only for the reason the server gives (a unique index violation,
no matching document). Documents are kept in insertion order, which is the
order in which `FindOne` and `UpdateOne` look for the first match.
ObjectIDs made by `primitive.NewObjectID` are taken to be unique, so the
implicit index on `_id` never rejects a write and is not part of the model. -/

namespace mongo

/-- The BSON values that document fields of this program hold. -/
inductive BsonValue where
  | null : BsonValue
  | str : String → BsonValue
  | int : Int → BsonValue
  | oid : Nat → BsonValue
  | arr : List String → BsonValue
  deriving DecidableEq, Repr

/-- A type of documents: the BSON value stored under a field name, as the
struct tags `bson:".."` give it; an absent field reads as `null`. -/
class Document (α : Type) where
  field : α → String → BsonValue

instance : Document Answer where
  field a name :=
    if name = "_id" then BsonValue.oid a.ID
    else if name = "uid" then BsonValue.str a.UID
    else if name = "key" then BsonValue.str a.Key
    else if name = "values" then BsonValue.arr (a.Values.map (fun v => v.Value))
    else if name = "created_at" then BsonValue.int a.CreatedAt
    else if name = "updated_at" then BsonValue.int a.UpdatedAt
    else if name = "deleted_at" then
      (if a.DeletedAt = 0 then BsonValue.null else BsonValue.int a.DeletedAt)
    else if name = "document_status" then BsonValue.str a.DocumentStatus
    else BsonValue.null

instance : Document Event where
  field e name :=
    if name = "_id" then BsonValue.oid e.ID
    else if name = "uid" then BsonValue.str e.UID
    else if name = "event" then BsonValue.str e.Type_
    else if name = "data.key" then BsonValue.str e.Data.Key
    else if name = "data.value" then BsonValue.str e.Data.Value
    else if name = "created_at" then BsonValue.int e.CreatedAt
    else if name = "updated_at" then BsonValue.int e.UpdatedAt
    else if name = "deleted_at" then
      (if e.DeletedAt = 0 then BsonValue.null else BsonValue.int e.DeletedAt)
    else if name = "document_status" then BsonValue.str e.DocumentStatus
    else BsonValue.null

/-- The driver type `mongo.IndexModel`: the indexed fields, and the `Unique`
option. -/
structure IndexModel where
  Keys : List String
  Unique : Bool
  deriving DecidableEq, Repr

/-- A collection: its documents in insertion order and its indexes. -/
structure Collection (α : Type) where
  docs : List α
  indexes : List IndexModel

/-- A query filter `bson.M{field: value, ..}`: every listed field equals the
listed value. -/
abbrev Filter := List (String × BsonValue)

variable {α : Type} [Document α]

/-- Whether a document satisfies a filter. -/
def Filter.holds (filter : Filter) (d : α) : Bool :=
  filter.all (fun p => decide (Document.field d p.1 = p.2))

/-- The key of a document in an index. -/
def IndexModel.keyOf (m : IndexModel) (d : α) : List BsonValue :=
  m.Keys.map (Document.field d)

/-- Whether storing `d` next to the documents `others` breaks a unique index. -/
def violatesUnique (indexes : List IndexModel) (others : List α) (d : α) : Bool :=
  indexes.any (fun m => m.Unique && others.any (fun x => decide (m.keyOf x = m.keyOf d)))

/-- The write error of the server for a unique index violation. -/
def duplicateKeyError : GoError :=
  GoError.WriteException 11000 "E11000 duplicate key error collection"

/-- Splits a list at the first element that satisfies `p`. -/
def splitAtFirst (p : α → Bool) : List α → Option (List α × α × List α)
  | [] => none
  | x :: xs =>
    if p x then some ([], x, xs)
    else
      match splitAtFirst p xs with
      | none => none
      | some (pre, d, post) => some (x :: pre, d, post)

/-- The driver method `Collection.InsertOne`. -/
def Collection.InsertOne (c : Collection α) (d : α) : Option GoError × Collection α :=
  if violatesUnique c.indexes c.docs d then (some duplicateKeyError, c)
  else (none, { c with docs := c.docs ++ [d] })

/-- The driver call `Collection.FindOne(ctx, filter).Decode(..)`. -/
def Collection.FindOne (c : Collection α) (filter : Filter) : Except GoError α :=
  match c.docs.find? (fun d => filter.holds d) with
  | some d => .ok d
  | none => .error GoError.ErrNoDocuments

/-- The driver method `Collection.UpdateOne`: the first document that
satisfies the filter is replaced by its update, unless the updated document
breaks a unique index. No match is not an error. -/
def Collection.UpdateOne (c : Collection α) (filter : Filter) (update : α → α) :
    Option GoError × Collection α :=
  match splitAtFirst (fun d => filter.holds d) c.docs with
  | none => (none, c)
  | some (pre, d, post) =>
    if violatesUnique c.indexes (pre ++ post) (update d) then (some duplicateKeyError, c)
    else (none, { c with docs := pre ++ update d :: post })

/-- The driver call `Collection.Indexes().CreateOne`: an index that exists
already is kept; a unique index over documents that share a key is refused. -/
def Collection.CreateOne (c : Collection α) (m : IndexModel) : Option GoError × Collection α :=
  if m ∈ c.indexes then (none, c)
  else if m.Unique && !(c.docs.map (fun d => m.keyOf d)).Nodup then (some duplicateKeyError, c)
  else (none, { c with indexes := c.indexes ++ [m] })

/-- Whether a server error with a duplicate key code is found in the `Unwrap`
chain of an error, as `errors.As` looks for it. -/
def hasDuplicateKeyCode : GoError → Bool
  | GoError.WriteException code _ => code = 11000 || code = 11001 || code = 12582
  | GoError.Wrap _ err => hasDuplicateKeyCode err
  | _ => false

/-- The driver function `mongo.IsDuplicateKeyError`; the argument `none` is a
`nil` error. -/
def IsDuplicateKeyError : Option GoError → Bool
  | some err => hasDuplicateKeyCode err
  | none => false

def AnswerCollection : String := "answers"
def EventCollection : String := "events"

/-- The struct `AnswerRepo`: its collection, and the number of readings of
`time.Now` it has made. -/
structure AnswerRepo where
  client : Collection Answer
  clock : Nat

/-- The struct `EventRepo`. -/
structure EventRepo where
  client : Collection Event

/-- The filter `bson.M{"key": key, "document_status": ActiveDocumentStatus}`. -/
def activeKeyFilter (key : String) : Filter :=
  [("key", BsonValue.str key), ("document_status", BsonValue.str ActiveDocumentStatus)]

/-- The method `AnswerRepo.Create`. -/
def AnswerRepo.Create (a : AnswerRepo) (answer : Answer) : Option GoError × AnswerRepo :=
  let r := a.client.InsertOne answer
  if IsDuplicateKeyError r.1 then (some GoError.ErrDuplicateKey, { a with client := r.2 })
  else (r.1, { a with client := r.2 })

/-- The method `AnswerRepo.FindByKey`. -/
def AnswerRepo.FindByKey (a : AnswerRepo) (key : String) : Except GoError Answer × AnswerRepo :=
  let filter := activeKeyFilter key
  match a.client.FindOne filter with
  | .error err =>
    if errorsIs err GoError.ErrNoDocuments then (.error GoError.ErrAnswerNotFound, a)
    else (.error err, a)
  | .ok answer => (.ok answer, a)

/-- The method `AnswerRepo.Update`: `$push` of the value to `values` and `$set`
of `updated_at`, then a fresh lookup by key. -/
def AnswerRepo.Update (o : Oracle) (a : AnswerRepo) (answer : Answer) (value : Value) :
    Except GoError Answer × AnswerRepo :=
  let filter := activeKeyFilter answer.Key
  let update := fun (d : Answer) =>
    { d with Values := d.Values ++ [value], UpdatedAt := o.Now a.clock }
  let r := a.client.UpdateOne filter update
  let a1 : AnswerRepo := { client := r.2, clock := a.clock + 1 }
  match r.1 with
  | some err => (.error err, a1)
  | none =>
    match a1.FindByKey answer.Key with
    | (.error err, a2) => (.error err, a2)
    | (.ok answer1, a2) => (.ok answer1, a2)

/-- The method `AnswerRepo.Delete`: `$set` of `document_status` and
`deleted_at` on the active document of the key. -/
def AnswerRepo.Delete (o : Oracle) (a : AnswerRepo) (answer : Answer) :
    Option GoError × AnswerRepo :=
  let filter := activeKeyFilter answer.Key
  let update := fun (d : Answer) =>
    { d with DocumentStatus := DeletedDocumentStatus, DeletedAt := o.Now a.clock }
  let r := a.client.UpdateOne filter update
  (r.1, { client := r.2, clock := a.clock + 1 })

/-- The method `EventRepo.Create`. -/
def EventRepo.Create (e : EventRepo) (event : Event) : Option GoError × EventRepo :=
  let r := e.client.InsertOne event
  (r.1, { client := r.2 })

/-- The repository `*AnswerRepo` as a value of the interface `AnswerRepository`. -/
def AnswerRepo.repository (o : Oracle) : AnswerRepository AnswerRepo where
  Create := fun answer a => a.Create answer
  FindByKey := fun key a => a.FindByKey key
  Update := fun answer value a => AnswerRepo.Update o a answer value
  Delete := fun answer a => AnswerRepo.Delete o a answer

/-- The struct `Client`; the collections of `DB` are held by the repositories. -/
structure Client where
  AnswerRepo : AnswerRepo
  EventRepo : EventRepo

/-- The method `Client.createUniqueIndex`: a unique index on the pair
(`fieldName`, `document_status`). The error is logged and `false` is
returned when the index cannot be made. A collection other than the two of
the program is outside the model and left alone. -/
def Client.createUniqueIndex (c : Client) (collectionName fieldName : String) : Bool × Client :=
  let unique := true
  let mod : IndexModel := { Keys := [fieldName, "document_status"], Unique := unique }
  if collectionName = AnswerCollection then
    let r := c.AnswerRepo.client.CreateOne mod
    match r.1 with
    | some _ => (false, c)
    | none => (true, { c with AnswerRepo := { c.AnswerRepo with client := r.2 } })
  else if collectionName = EventCollection then
    let r := c.EventRepo.client.CreateOne mod
    match r.1 with
    | some _ => (false, c)
    | none => (true, { c with EventRepo := { client := r.2 } })
  else (true, c)

/-- The function `NewMongoRepository` on a reachable server that holds the
collections of `db`: the repositories, and the unique index on the key of
the answers. -/
def NewMongoRepository (db : Client) : Client :=
  let c : Client := { AnswerRepo := db.AnswerRepo, EventRepo := db.EventRepo }
  (c.createUniqueIndex AnswerCollection "key").2

end mongo

/-! ## The pagination library and the history query of the Mongo event repository -/

namespace pager

open mongo

/-- The query that the builder calls `New(..).Limit(..).Page(..).Sort(..).Filter(..)`
put together. -/
structure PagingQuery where
  Collection : Collection Event
  LimitCount : Int
  PageCount : Int
  SortField : String
  SortValue : Int
  FilterQuery : Filter

/-- The result of `Find`: the decoded documents and the pagination data. -/
structure PaginatedData where
  Data : List Event
  Pagination : PaginationData

/-- The constructor `pager.New(collection)`. -/
def New (collection : Collection Event) : PagingQuery :=
  { Collection := collection, LimitCount := 0, PageCount := 0, SortField := "", SortValue := 0,
    FilterQuery := [] }

/-- Modelled from the spec: the library `github.com/gobeam/mongo-go-pagination`
is not among the sources. The spec takes `perPage` to be a positive integer
and is silent on other values; the model follows the library, which replaces
a limit below 1 by its default 10. -/
def PagingQuery.Limit (q : PagingQuery) (limit : Int) : PagingQuery :=
  if limit < 1 then { q with LimitCount := 10 } else { q with LimitCount := limit }

/-- Modelled from the spec: the library is not among the sources. The spec
takes `page` to be a positive integer and is silent on other values; the model
follows the library, which replaces a page below 1 by its default 1. -/
def PagingQuery.Page (q : PagingQuery) (page : Int) : PagingQuery :=
  if page < 1 then { q with PageCount := 1 } else { q with PageCount := page }

/-- The builder call `Sort(sortField, sortValue)`. -/
def PagingQuery.Sort (q : PagingQuery) (sortField : String) (sortValue : Int) : PagingQuery :=
  { q with SortField := sortField, SortValue := sortValue }

/-- The builder call `Filter(filter)`. -/
def PagingQuery.Filter (q : PagingQuery) (filter : Filter) : PagingQuery :=
  { q with FilterQuery := filter }

/-- The number a document is sorted by: the value of a date or integer field. -/
def sortKey (field : String) (e : Event) : Int :=
  match Document.field e field with
  | BsonValue.int i => i
  | _ => 0

/-- The documents of a query in the order asked for: ascending for the sort
value 1, descending for -1; the server refuses every other sort value. -/
def sorted (field : String) (sortValue : Int) (l : List Event) : Except GoError (List Event) :=
  if sortValue = 1 then .ok (l.insertionSort (fun a b => sortKey field a ≤ sortKey field b))
  else if sortValue = -1 then
    .ok (l.insertionSort (fun a b => sortKey field b ≤ sortKey field a))
  else .error (GoError.New "$sort key ordering must be 1 (for ascending) or -1 (for descending)")

/-- Modelled from the spec: the pagination data of §4.2 of the spec for
`total` matching documents, on page `page` with `perPage` documents a page.
`totalPage = ceil(total / perPage)`; `prev` and `next` are the neighbouring
page numbers, and 0 when there is no such page among `1 .. totalPage`. -/
def paginationData (total page perPage : Int) : PaginationData :=
  let totalPage := (total + perPage - 1) / perPage
  { Total := total
    Page := page
    PerPage := perPage
    Prev := if 1 ≤ page - 1 ∧ page - 1 ≤ totalPage then page - 1 else 0
    Next := if page + 1 ≤ totalPage then page + 1 else 0
    TotalPage := totalPage }

/-- Modelled from the spec: the method `Find` of the pagination library, which
is not among the sources. Following §4.2 of the spec it returns one page of the
documents that satisfy the filter, in the order asked for, with the pagination
data: page `p` of `l` documents a page skips `(p - 1) * l` documents and holds
at most `l`. -/
def PagingQuery.Find (q : PagingQuery) : Except GoError PaginatedData :=
  let matching := q.Collection.docs.filter (fun d => q.FilterQuery.holds d)
  match sorted q.SortField q.SortValue matching with
  | .error err => .error err
  | .ok ordered =>
    let skip := ((q.PageCount - 1) * q.LimitCount).toNat
    .ok { Data := (ordered.drop skip).take q.LimitCount.toNat
          Pagination := paginationData matching.length q.PageCount q.LimitCount }

end pager

namespace mongo

/-- The method `EventRepo.FindManyByKey`. -/
def EventRepo.FindManyByKey (e : EventRepo) (key : String) (pageable : Pageable) :
    (List Event × PaginationData × Option GoError) × EventRepo :=
  let filter : Filter :=
    [("document_status", BsonValue.str ActiveDocumentStatus), ("data.key", BsonValue.str key)]
  match (((((pager.New e.client).Limit pageable.PerPage).Page pageable.Page).Sort
      "created_at" pageable.Sort_).Filter filter).Find with
  | .error err => (([], ⟨0, 0, 0, 0, 0, 0⟩, some err), e)
  | .ok paginatedData => ((paginatedData.Data, paginatedData.Pagination, none), e)

/-- The repository `*EventRepo` as a value of the interface `EventRepository`. -/
def EventRepo.repository : EventRepository EventRepo where
  Create := fun event e => e.Create event
  FindManyByKey := fun key pageable e => e.FindManyByKey key pageable

end mongo

/-! ## Package `app`: the handlers and the pagination of the history handler -/

namespace strconv

/-- The value of a byte that is an ASCII decimal digit. -/
def digit (c : Char) : Option Nat :=
  if '0' ≤ c ∧ c ≤ '9' then some (c.toNat - 48) else none

/-- The number that a run of decimal digits writes, after the digits `n`. -/
def digits : List Char → Nat → Option Nat
  | [], n => some n
  | c :: cs, n =>
    match digit c with
    | none => none
    | some d => digits cs (n * 10 + d)

/-- The function `strconv.Atoi` on a 64-bit platform; `none` is a non-nil
error (bad syntax or a value out of the range of `int`). -/
def Atoi (s : String) : Option Int :=
  match s.data with
  | [] => none
  | '-' :: cs =>
    if cs = [] then none
    else
      match digits cs 0 with
      | none => none
      | some n => if n ≤ 9223372036854775808 then some (-(n : Int)) else none
  | '+' :: cs =>
    if cs = [] then none
    else
      match digits cs 0 with
      | none => none
      | some n => if n ≤ 9223372036854775807 then some (n : Int) else none
  | cs =>
    match digits cs 0 with
    | none => none
    | some n => if n ≤ 9223372036854775807 then some (n : Int) else none

end strconv

namespace url

/-- The type `url.Values` of a parsed query string: the pairs of name and
value in the order of the query. -/
abbrev Values := List (String × String)

/-- The method `Values.Get`: the first value of the name, or the empty string. -/
def Values.Get (v : Values) (key : String) : String :=
  match v.find? (fun p => p.1 = key) with
  | some p => p.2
  | none => ""

end url

namespace gin

/-- What a handler reads from a `*gin.Context`: the path parameters and the
query of the request URL. -/
structure Context where
  Params : List (String × String)
  Query : url.Values

/-- The method `Context.Param`: the value of the path parameter, or the empty
string. -/
def Context.Param (c : Context) (key : String) : String :=
  match c.Params.find? (fun p => p.1 = key) with
  | some p => p.2
  | none => ""

end gin

namespace app

/-- The struct `Application`. -/
structure Application (σ τ : Type) where
  answerService : services.AnswerService σ τ
  eventService : services.EventService σ τ

/-- The method `Application.pagination`. -/
def Application.pagination {σ τ : Type} (_a : Application σ τ) (c : gin.Context) : Pageable :=
  let rawPerPage := c.Query.Get "perPage"
  let rawPage := c.Query.Get "page"
  let rawPerPage := if rawPerPage.length = 0 then "20" else rawPerPage
  let rawPage := if rawPage.length = 0 then "1" else rawPage
  let sort : Int := -1
  let perPage : Int :=
    match strconv.Atoi rawPerPage with
    | some n => n
    | none => 20
  let page : Int :=
    match strconv.Atoi rawPage with
    | some n => n
    | none => 0
  { Page := page, PerPage := perPage, Sort_ := sort }

/-- What the field `Data` of a `Response` holds when it is not `nil`. -/
inductive ResponseData where
  | answer : AnswerResponse → ResponseData
  | paged : PagedResponse → ResponseData
  deriving DecidableEq, Repr

/-- The struct `Response`; `Data = none` is the `nil` that `omitempty` drops. -/
structure Response where
  Success : Bool
  Message : String
  Data : Option ResponseData
  deriving DecidableEq, Repr

/-- The method `errorResponse`: the status and the body given to `c.JSON`. -/
def Application.errorResponse {σ τ : Type} (_app : Application σ τ) (status : Int)
    (message : String) : Int × Response :=
  (status, { Success := false, Message := message, Data := none })

/-- The method `successResponse`: the status and the body given to `c.JSON`. -/
def Application.successResponse {σ τ : Type} (_app : Application σ τ) (status : Int)
    (message : String) (data : Option ResponseData) : Int × Response :=
  (status, { Success := true, Message := message, Data := data })

/-- The handler `Application.CreateAnswer`. The argument `bound` is what
`c.ShouldBindJSON(&createAnswer)` gives for the request: the decoded and
validated body, or the error of gin. The element read `answer.Values[0]`
panics on an empty slice. -/
def Application.CreateAnswer {σ τ : Type} (a : Application σ τ) (o : Oracle)
    (_c : gin.Context) (bound : Except GoError datastore.CreateAnswer) (w : World σ τ) :
    Go (Int × Response) × World σ τ :=
  match bound with
  | .error err => (Go.ret (a.errorResponse http.StatusBadRequest err.Error), w)
  | .ok createAnswer =>
    match a.answerService.CreateAnswer o createAnswer w with
    | (.error err, w1) =>
      (Go.ret (a.errorResponse (util.NewServiceErrResponse err).1
        (util.NewServiceErrResponse err).2), w1)
    | (.ok answer, w1) =>
      match answer.Values.head? with
      | none => (Go.panic "index out of range [0] with length 0", w1)
      | some first =>
        (Go.ret (a.successResponse http.StatusCreated "answer created successfully"
          (some (.answer
            { UID := answer.UID
              Key := answer.Key
              Value := first.Value
              CreatedAt := answer.CreatedAt
              UpdatedAt := answer.UpdatedAt }))), w1)

/-- The handler `Application.FindAnswerByKey`. The element read
`answer.Values[latestIndex]` panics on an empty slice. -/
def Application.FindAnswerByKey {σ τ : Type} (a : Application σ τ) (c : gin.Context)
    (w : World σ τ) : Go (Int × Response) × World σ τ :=
  match a.answerService.FindAnswerByKey (c.Param "key") w with
  | (.error err, w1) =>
    (Go.ret (a.errorResponse (util.NewServiceErrResponse err).1
      (util.NewServiceErrResponse err).2), w1)
  | (.ok answer, w1) =>
    match answer.Values.getLast? with
    | none => (Go.panic "index out of range [-1]", w1)
    | some latest =>
      (Go.ret (a.successResponse http.StatusOK "answer retrieved successfully"
        (some (.answer
          { UID := answer.UID
            Key := answer.Key
            Value := latest.Value
            CreatedAt := answer.CreatedAt
            UpdatedAt := answer.UpdatedAt }))), w1)

/-- The handler `Application.UpdateAnswer`; `bound` is what
`c.ShouldBindJSON(&updateAnswer)` gives for the request. -/
def Application.UpdateAnswer {σ τ : Type} (a : Application σ τ) (o : Oracle)
    (c : gin.Context) (bound : Except GoError datastore.UpdateAnswer) (w : World σ τ) :
    Go (Int × Response) × World σ τ :=
  match bound with
  | .error err => (Go.ret (a.errorResponse http.StatusBadRequest err.Error), w)
  | .ok updateAnswer =>
    match a.answerService.UpdateAnswer o (c.Param "key") updateAnswer w with
    | (.error err, w1) =>
      (Go.ret (a.errorResponse (util.NewServiceErrResponse err).1
        (util.NewServiceErrResponse err).2), w1)
    | (.ok answer, w1) =>
      match answer.Values.getLast? with
      | none => (Go.panic "index out of range [-1]", w1)
      | some latest =>
        (Go.ret (a.successResponse http.StatusOK "answer updated successfully"
          (some (.answer
            { UID := answer.UID
              Key := answer.Key
              Value := latest.Value
              CreatedAt := answer.CreatedAt
              UpdatedAt := answer.UpdatedAt }))), w1)

end app

/-! ## Store states the theorems speak about -/

namespace mongo

/-- The index model that `createUniqueIndex(AnswerCollection, "key")` builds. -/
def keyIndex : IndexModel := { Keys := ["key", "document_status"], Unique := true }

/-- No stored answer of the key is Active. -/
def AnswerRepo.NoActive (a : AnswerRepo) (key : String) : Prop :=
  ∀ d ∈ a.client.docs, ¬ (d.Key = key ∧ d.DocumentStatus = ActiveDocumentStatus)

instance (a : AnswerRepo) (key : String) : Decidable (a.NoActive key) :=
  inferInstanceAs (Decidable (∀ d ∈ a.client.docs, _))

/-- The state of a collection on which the index of `createUniqueIndex` is the
only index and is enforced: no two documents share key and status. -/
def AnswerRepo.Indexed (a : AnswerRepo) : Prop :=
  a.client.indexes = [keyIndex] ∧
  a.client.docs.Pairwise (fun x y => ¬ (x.Key = y.Key ∧ x.DocumentStatus = y.DocumentStatus))

instance (a : AnswerRepo) : Decidable a.Indexed :=
  inferInstanceAs (Decidable (_ ∧ _))

/-- Every stored answer holds at least one value. -/
def AnswerRepo.ValuesNonempty (a : AnswerRepo) : Prop :=
  ∀ d ∈ a.client.docs, d.Values ≠ []

instance (a : AnswerRepo) : Decidable a.ValuesNonempty :=
  inferInstanceAs (Decidable (∀ d ∈ a.client.docs, _))

end mongo

/-- The answer service of the program: the Mongo answer repository, and an
event service over any event repository. -/
def mongoAnswerService {τ : Type} (o : Oracle)
    (eventService : services.EventService mongo.AnswerRepo τ) :
    services.AnswerService mongo.AnswerRepo τ :=
  services.NewAnswerService (mongo.AnswerRepo.repository o) eventService

/-- The struct literal that `CreateAnswer` builds when the oracle has been
read `tick` times. -/
def createdAnswer (o : Oracle) (tick : Nat) (req : datastore.CreateAnswer) : Answer :=
  { ID := o.NewObjectID tick
    UID := o.NewString (tick + 1)
    Key := req.Key
    Values := [{ Value := req.Value }]
    CreatedAt := o.Now (tick + 2)
    UpdatedAt := o.Now (tick + 3)
    DeletedAt := 0
    DocumentStatus := ActiveDocumentStatus }

/-! ## Stored answers before and after an operation -/

namespace mongo

/-- A stored answer `after` an operation continues the answer `before` it:
the values before are the first values after, and the identifiers, the key
and the creation time are the same. -/
def Continues (before after : Answer) : Prop :=
  before.Values <+: after.Values ∧ after.ID = before.ID ∧ after.UID = before.UID ∧
  after.Key = before.Key ∧ after.CreatedAt = before.CreatedAt

/-- Every answer stored before an operation is continued by the answer at the
same place after it; answers may have been added at the end. -/
def AppendOnly : List Answer → List Answer → Prop
  | [], _ => True
  | _ :: _, [] => False
  | d :: ds, d1 :: ds1 => Continues d d1 ∧ AppendOnly ds ds1

end mongo

/-! ## The history of a key in the Mongo event repository -/

/-- The struct literal that `CreateEvent` builds for a snapshot with the key
`key` and the last value `value`, when the oracle has been read `tick` times. -/
def createdEvent (o : Oracle) (tick : Nat) (eventType : EventType) (key value : String) :
    Event :=
  { ID := o.NewObjectID tick
    UID := o.NewString (tick + 1)
    Type_ := eventType
    Data := { Key := key, Value := value }
    CreatedAt := o.Now (tick + 2)
    UpdatedAt := o.Now (tick + 3)
    DeletedAt := 0
    DocumentStatus := ActiveDocumentStatus }

namespace mongo

/-- The stored events that the filter of `FindManyByKey` selects for a key, in
the order of their insertion. -/
def EventRepo.history (e : EventRepo) (key : String) : List Event :=
  e.client.docs.filter
    (fun d => decide (d.DocumentStatus = ActiveDocumentStatus ∧ d.Data.Key = key))

end mongo

/-- The answer service of the program, as `NewApplication` wires it: the Mongo
answer repository and the Mongo event repository. -/
def programAnswerService (o : Oracle) : services.AnswerService mongo.AnswerRepo mongo.EventRepo :=
  mongoAnswerService o
    (services.NewEventService (mongo.AnswerRepo.repository o) mongo.EventRepo.repository)

/-- The event service of the program, as `NewApplication` wires it. -/
def programEventService (o : Oracle) : services.EventService mongo.AnswerRepo mongo.EventRepo :=
  services.NewEventService (mongo.AnswerRepo.repository o) mongo.EventRepo.repository

/-! ## Reading the record of calls -/

/-- The events handed to the Event Store's `Create`, in call order. -/
def eventCreates : List Call → List Event
  | [] => []
  | Call.eventCreate ev :: rest => ev :: eventCreates rest
  | _ :: rest => eventCreates rest

/-- The calls of a record that reached the Value Store's `Update`. -/
def answerUpdates : List Call → List (Answer × Value)
  | [] => []
  | Call.answerUpdate answer value :: rest => (answer, value) :: answerUpdates rest
  | _ :: rest => answerUpdates rest

/-- The messages of the panics that ended a goroutine of `broadcastEvent`, in
the order of the record. -/
def goroutinePanics : List Call → List String
  | [] => []
  | Call.goroutinePanic msg :: rest => msg :: goroutinePanics rest
  | _ :: rest => goroutinePanics rest

/-! ## Doubles and worked examples -/

namespace mocks

/-- A scripted double of `EventRepository`, in the way the generated gomock
doubles are used by the service tests: `Create` returns the scripted error,
and keeps the event when that is `nil`. -/
def MockEventRepository (createErr : Option GoError) : EventRepository (List Event) where
  Create := fun event s =>
    match createErr with
    | none => (none, s ++ [event])
    | some err => (some err, s)
  FindManyByKey := fun _ _ s => ((s, ⟨0, 0, 0, 0, 0, 0⟩, none), s)

end mocks

/-- An oracle for worked examples: the `n`-th string is `n + 1` letters long. -/
def exampleOracle : Oracle where
  NewObjectID := fun n => n
  NewString := fun n => String.mk (List.replicate (n + 1) 'u')
  Now := fun n => 1700000000000 + n

/-- The client that `NewMongoRepository` returns on an empty database. -/
def exampleClient : mongo.Client :=
  mongo.NewMongoRepository
    { AnswerRepo := { client := { docs := [], indexes := [] }, clock := 0 }
      EventRepo := { client := { docs := [], indexes := [] } } }

/-- The answer service over the Mongo answer repository and a scripted event
repository. -/
def exampleService (createErr : Option GoError) :
    services.AnswerService mongo.AnswerRepo (List Event) :=
  services.NewAnswerService (mongo.AnswerRepo.repository exampleOracle)
    (services.NewEventService (mongo.AnswerRepo.repository exampleOracle)
      (mocks.MockEventRepository createErr))

/-- The world at start-up: an empty database with the unique index. -/
def exampleWorld : World mongo.AnswerRepo (List Event) :=
  { answers := exampleClient.AnswerRepo, events := [], tick := 0, trace := [] }

/-- The example world after `CreateAnswer("k1", "a")`. -/
def exampleAfterCreate : World mongo.AnswerRepo (List Event) :=
  ((exampleService none).CreateAnswer exampleOracle { Key := "k1", Value := "a" } exampleWorld).2

/-- The example world after `CreateAnswer("k1", "a")` and `UpdateAnswer("k1", "b")`. -/
def exampleAfterUpdate : World mongo.AnswerRepo (List Event) :=
  ((exampleService none).UpdateAnswer exampleOracle "k1" { Value := "b" } exampleAfterCreate).2

/-- The example world after `CreateAnswer("k1", "a")` and `DeleteAnswer("k1")`. -/
def exampleAfterDelete : World mongo.AnswerRepo (List Event) :=
  ((exampleService none).DeleteAnswer exampleOracle "k1" exampleAfterCreate).2

/-- The example world after create, delete and `CreateAnswer("k1", "c")`. -/
def exampleAfterRecreate : World mongo.AnswerRepo (List Event) :=
  ((exampleService none).CreateAnswer exampleOracle { Key := "k1", Value := "c" }
    exampleAfterDelete).2

namespace mocks

/-- A scripted double of `EventRepository` for the history query:
`FindManyByKey` returns the scripted results, `Create` keeps the event. -/
def MockEventHistory (events : List Event) (pagination : PaginationData)
    (findErr : Option GoError) : EventRepository (List Event) where
  Create := fun event s => (none, s ++ [event])
  FindManyByKey := fun _ _ s => ((events, pagination, findErr), s)

end mocks

/-- The services of the program as `NewApplication` wires them: both over the
Mongo repositories. -/
def exampleApplication : app.Application mongo.AnswerRepo mongo.EventRepo :=
  { eventService :=
      services.NewEventService (mongo.AnswerRepo.repository exampleOracle)
        mongo.EventRepo.repository
    answerService :=
      services.NewAnswerService (mongo.AnswerRepo.repository exampleOracle)
        (services.NewEventService (mongo.AnswerRepo.repository exampleOracle)
          mongo.EventRepo.repository) }

/-- The world of the program at start-up: empty collections, with the unique
index on the answers. -/
def exampleMongoWorld : World mongo.AnswerRepo mongo.EventRepo :=
  { answers := exampleClient.AnswerRepo, events := exampleClient.EventRepo, tick := 0,
    trace := [] }

/-- The program's world after `CreateAnswer("k1", "a")`. -/
def exampleMongoAfterCreate : World mongo.AnswerRepo mongo.EventRepo :=
  (exampleApplication.answerService.CreateAnswer exampleOracle { Key := "k1", Value := "a" }
    exampleMongoWorld).2

/-- The program's world after `CreateAnswer("k1", "a")` and `UpdateAnswer("k1", "b")`. -/
def exampleMongoAfterUpdate : World mongo.AnswerRepo mongo.EventRepo :=
  (exampleApplication.answerService.UpdateAnswer exampleOracle "k1" { Value := "b" }
    exampleMongoAfterCreate).2

/-- The program's world after create, update and `DeleteAnswer("k1")`. -/
def exampleMongoAfterDelete : World mongo.AnswerRepo mongo.EventRepo :=
  (exampleApplication.answerService.DeleteAnswer exampleOracle "k1" exampleMongoAfterUpdate).2

/-- The program's world after `CreateAnswer("k1", "a")` and `DeleteAnswer("k1")`. -/
def exampleMongoDeleted : World mongo.AnswerRepo mongo.EventRepo :=
  (exampleApplication.answerService.DeleteAnswer exampleOracle "k1" exampleMongoAfterCreate).2

/-- The program's world after create, delete and `CreateAnswer("k1", "b")`. -/
def exampleMongoRecreated : World mongo.AnswerRepo mongo.EventRepo :=
  (exampleApplication.answerService.CreateAnswer exampleOracle { Key := "k1", Value := "b" }
    exampleMongoDeleted).2

/-- A world whose answer collection holds an Active answer "k0" without any
value, as a document written by another program could be. -/
def exampleHollowWorld : World mongo.AnswerRepo mongo.EventRepo :=
  { answers :=
      { client :=
          { docs := [{ createdAnswer exampleOracle 0 { Key := "k0", Value := "z" } with
                       Values := [] }]
            indexes := [mongo.keyIndex] }
        clock := 0 }
    events := exampleClient.EventRepo
    tick := 4
    trace := [] }

/-! ## Theorems -/

theorem exampleOracle_NewString_ne (n : Nat) : exampleOracle.NewString n ≠ "" := by
  intro h
  have h2 := congrArg String.length h
  simp [exampleOracle, String.length] at h2

theorem exampleOracle_NewString_injective : Function.Injective exampleOracle.NewString := by
  intro m n h
  have h2 := congrArg String.length h
  simpa [exampleOracle, String.length] using h2

theorem eventCreates_append (l1 l2 : List Call) :
    eventCreates (l1 ++ l2) = eventCreates l1 ++ eventCreates l2 := by
  induction l1 with
  | nil => rfl
  | cons c rest ih => cases c <;> simp [eventCreates, ih]

theorem answerUpdates_append (l1 l2 : List Call) :
    answerUpdates (l1 ++ l2) = answerUpdates l1 ++ answerUpdates l2 := by
  induction l1 with
  | nil => rfl
  | cons c rest ih => cases c <;> simp [answerUpdates, ih]

namespace services

variable {σ τ : Type}

/-- What `broadcastEvent` does on a snapshot with a last value: the Value Store
is untouched, the Event Store receives one event built from the snapshot, and
the failure of that write is only logged. -/
theorem broadcastEvent_of_last (a : AnswerService σ τ) (o : Oracle) (answer : Answer)
    (eventType : EventType) (w : World σ τ) (last : Value)
    (h : answer.Values.getLast? = some last) :
    ∃ ev : Event, ∃ logs : List Call,
      ev.Type_ = eventType ∧ ev.Data = { Key := answer.Key, Value := last.Value } ∧
      eventCreates logs = [] ∧ answerUpdates logs = [] ∧
      a.broadcastEvent o answer eventType w =
        { answers := w.answers
          events := (a.eventService.eventRepo.Create ev w.events).2
          tick := w.tick + 4
          trace := w.trace ++ Call.eventCreate ev :: logs } := by
  refine ⟨{ ID := o.NewObjectID w.tick, UID := o.NewString (w.tick + 1), Type_ := eventType,
            Data := { Key := answer.Key, Value := last.Value }, CreatedAt := o.Now (w.tick + 2),
            UpdatedAt := o.Now (w.tick + 3), DeletedAt := 0,
            DocumentStatus := ActiveDocumentStatus }, ?_⟩
  cases hr : (a.eventService.eventRepo.Create
      { ID := o.NewObjectID w.tick, UID := o.NewString (w.tick + 1), Type_ := eventType,
        Data := { Key := answer.Key, Value := last.Value }, CreatedAt := o.Now (w.tick + 2),
        UpdatedAt := o.Now (w.tick + 3), DeletedAt := 0,
        DocumentStatus := ActiveDocumentStatus } w.events).1 with
  | none =>
    refine ⟨[], rfl, rfl, rfl, rfl, ?_⟩
    simp [AnswerService.broadcastEvent, EventService.CreateEvent, h, hr]
  | some err =>
    refine ⟨[Call.logError "failed to create event"
      (util.NewServiceError http.StatusInternalServerError err)], rfl, rfl, rfl, rfl, ?_⟩
    simp [AnswerService.broadcastEvent, EventService.CreateEvent, h, hr]

/-- On every snapshot `broadcastEvent` leaves the Value Store alone and only
extends the record of calls, never with a Value Store call. -/
theorem broadcastEvent_frame (a : AnswerService σ τ) (o : Oracle) (answer : Answer)
    (eventType : EventType) (w : World σ τ) :
    (a.broadcastEvent o answer eventType w).answers = w.answers ∧
    ∃ l : List Call, (a.broadcastEvent o answer eventType w).trace = w.trace ++ l ∧
      answerUpdates l = [] := by
  cases h : answer.Values.getLast? with
  | none =>
    refine ⟨?_, [Call.goroutinePanic "index out of range [-1]"], ?_, rfl⟩ <;>
      simp [AnswerService.broadcastEvent, EventService.CreateEvent, h]
  | some last =>
    obtain ⟨ev, logs, -, -, -, hl, heq⟩ := broadcastEvent_of_last a o answer eventType w last h
    rw [heq]
    exact ⟨rfl, Call.eventCreate ev :: logs, rfl, by simpa [answerUpdates] using hl⟩

end services

/-- C1: `CreateAnswer` hands the store an answer with the key of the request,
the one value of the request, status Active, a non-empty uid and no deletion
time. When the store accepts it, that answer is returned without an error.
When the store fails with `err`, no answer is returned and the error is the
`ServiceError` with the message of `err`, with code 403 when `errors.Is(err,
ErrDuplicateKey)` and code 500 otherwise. -/
theorem C1_CreateAnswer_contract {σ τ : Type} (a : services.AnswerService σ τ) (o : Oracle)
    (req : datastore.CreateAnswer) (w : World σ τ) (huid : ∀ n, o.NewString n ≠ "") :
    ∃ answer : Answer,
      answer.Key = req.Key ∧ answer.Values = [{ Value := req.Value }] ∧
      answer.DocumentStatus = ActiveDocumentStatus ∧ answer.UID ≠ "" ∧ answer.DeletedAt = 0 ∧
      Call.answerCreate answer ∈ (a.CreateAnswer o req w).2.trace ∧
      ((a.answerRepo.Create answer w.answers).1 = none →
        (a.CreateAnswer o req w).1 = .ok answer) ∧
      (∀ err, (a.answerRepo.Create answer w.answers).1 = some err →
        ∃ code : Int,
          (a.CreateAnswer o req w).1 = .error (util.NewServiceError code err) ∧
          (util.NewServiceError code err).ErrCode = some code ∧
          (util.NewServiceError code err).Error = err.Error ∧
          (errorsIs err GoError.ErrDuplicateKey = true → code = 403) ∧
          (errorsIs err GoError.ErrDuplicateKey = false → code = 500)) := by
  refine ⟨{ ID := o.NewObjectID w.tick, UID := o.NewString (w.tick + 1), Key := req.Key,
            Values := [{ Value := req.Value }], CreatedAt := o.Now (w.tick + 2),
            UpdatedAt := o.Now (w.tick + 3), DeletedAt := 0,
            DocumentStatus := ActiveDocumentStatus }, rfl, rfl, rfl, huid _, rfl, ?_, ?_, ?_⟩
  · cases h : (a.answerRepo.Create
        { ID := o.NewObjectID w.tick, UID := o.NewString (w.tick + 1), Key := req.Key,
          Values := [{ Value := req.Value }], CreatedAt := o.Now (w.tick + 2),
          UpdatedAt := o.Now (w.tick + 3), DeletedAt := 0,
          DocumentStatus := ActiveDocumentStatus } w.answers).1 with
    | some err => simp [services.AnswerService.CreateAnswer, h]
    | none =>
      simp only [services.AnswerService.CreateAnswer, h]
      obtain ⟨-, l, hl, -⟩ := services.broadcastEvent_frame a o
        { ID := o.NewObjectID w.tick, UID := o.NewString (w.tick + 1), Key := req.Key,
          Values := [{ Value := req.Value }], CreatedAt := o.Now (w.tick + 2),
          UpdatedAt := o.Now (w.tick + 3), DeletedAt := 0,
          DocumentStatus := ActiveDocumentStatus } datastore.CreateEvent
        { w with
          answers := (a.answerRepo.Create
            { ID := o.NewObjectID w.tick, UID := o.NewString (w.tick + 1), Key := req.Key,
              Values := [{ Value := req.Value }], CreatedAt := o.Now (w.tick + 2),
              UpdatedAt := o.Now (w.tick + 3), DeletedAt := 0,
              DocumentStatus := ActiveDocumentStatus } w.answers).2
          tick := w.tick + 4
          trace := w.trace ++ [Call.answerCreate
            { ID := o.NewObjectID w.tick, UID := o.NewString (w.tick + 1), Key := req.Key,
              Values := [{ Value := req.Value }], CreatedAt := o.Now (w.tick + 2),
              UpdatedAt := o.Now (w.tick + 3), DeletedAt := 0,
              DocumentStatus := ActiveDocumentStatus }] }
      rw [hl]
      simp
  · intro h
    simp [services.AnswerService.CreateAnswer, h]
  · intro err h
    refine ⟨if errorsIs err GoError.ErrDuplicateKey then http.StatusForbidden
        else http.StatusInternalServerError, ?_, rfl, rfl, ?_, ?_⟩
    · simp [services.AnswerService.CreateAnswer, h]
    · intro h1; simp [h1, http.StatusForbidden]
    · intro h1; simp [h1, http.StatusInternalServerError]

/-! ### The driver model -/

namespace mongo

theorem activeKeyFilter_holds (key : String) (d : Answer) :
    (activeKeyFilter key).holds d = true ↔
      d.Key = key ∧ d.DocumentStatus = ActiveDocumentStatus := by
  simp [activeKeyFilter, Filter.holds, Document.field]

theorem keyIndex_keyOf_eq (x d : Answer) :
    keyIndex.keyOf x = keyIndex.keyOf d ↔
      x.Key = d.Key ∧ x.DocumentStatus = d.DocumentStatus := by
  simp [keyIndex, IndexModel.keyOf, Document.field]

theorem violatesUnique_keyIndex (others : List Answer) (d : Answer) :
    violatesUnique [keyIndex] others d = true ↔
      ∃ x ∈ others, x.Key = d.Key ∧ x.DocumentStatus = d.DocumentStatus := by
  simp only [violatesUnique, List.any_cons, List.any_nil, Bool.or_false, Bool.and_eq_true,
    List.any_eq_true, decide_eq_true_eq, keyIndex_keyOf_eq]
  simp [keyIndex]

section split

variable {α : Type}

theorem splitAtFirst_eq_none (p : α → Bool) (l : List α) :
    splitAtFirst p l = none ↔ ∀ x ∈ l, p x = false := by
  induction l with
  | nil => simp [splitAtFirst]
  | cons x xs ih =>
    by_cases hx : p x = true
    · simp [splitAtFirst, hx]
    · have hx2 : p x = false := by simpa using hx
      cases hs : splitAtFirst p xs with
      | none =>
        have hall := ih.mp hs
        simp only [splitAtFirst, hx2, hs]
        simp only [Bool.false_eq_true, if_false, true_iff]
        intro y hy
        rcases List.mem_cons.mp hy with rfl | hy
        · exact hx2
        · exact hall y hy
      | some t =>
        obtain ⟨pre, d, post⟩ := t
        have hne : ¬ ∀ y ∈ xs, p y = false := fun hall => by
          rw [ih.mpr hall] at hs; cases hs
        simp only [splitAtFirst, hx2, hs]
        constructor
        · intro h; cases h
        · intro hall
          exact absurd (fun y hy => hall y (List.mem_cons_of_mem _ hy)) hne

theorem splitAtFirst_of_append (p : α → Bool) (pre post : List α) (d : α)
    (hd : p d = true) (hpre : ∀ x ∈ pre, p x = false) :
    splitAtFirst p (pre ++ d :: post) = some (pre, d, post) := by
  induction pre with
  | nil => simp [splitAtFirst, hd]
  | cons y ys ih =>
    have hy : p y = false := hpre y (List.mem_cons_self _ _)
    have := ih (fun z hz => hpre z (List.mem_cons_of_mem _ hz))
    simp [splitAtFirst, hy, this]

theorem splitAtFirst_some (p : α → Bool) (l pre post : List α) (d : α)
    (h : splitAtFirst p l = some (pre, d, post)) :
    l = pre ++ d :: post ∧ p d = true ∧ ∀ x ∈ pre, p x = false := by
  induction l generalizing pre with
  | nil => simp [splitAtFirst] at h
  | cons x xs ih =>
    by_cases hx : p x = true
    · simp only [splitAtFirst, hx, if_true, Option.some.injEq, Prod.mk.injEq] at h
      obtain ⟨rfl, rfl, rfl⟩ := h
      simp [hx]
    · have hx2 : p x = false := by simpa using hx
      cases hs : splitAtFirst p xs with
      | none => simp [splitAtFirst, hx2, hs] at h
      | some t =>
        obtain ⟨pre1, d1, post1⟩ := t
        simp only [splitAtFirst, hx2, hs, Option.some.injEq, Prod.mk.injEq] at h
        simp only [Bool.false_eq_true, if_false, Option.some.injEq, Prod.mk.injEq] at h
        obtain ⟨rfl, rfl, rfl⟩ := h
        obtain ⟨hl, hd, hpre⟩ := ih pre1 hs
        refine ⟨by simp [hl], hd, ?_⟩
        intro y hy
        rcases List.mem_cons.mp hy with rfl | hy
        · exact hx2
        · exact hpre y hy

theorem find?_eq_of_splitAtFirst (p : α → Bool) (l pre post : List α) (d : α)
    (h : splitAtFirst p l = some (pre, d, post)) : l.find? p = some d := by
  obtain ⟨hl, hd, hpre⟩ := splitAtFirst_some p l pre post d h
  subst hl
  rw [List.find?_append]
  have : List.find? p pre = none := by
    rw [List.find?_eq_none]; intro x hx; simp [hpre x hx]
  simp [this, hd]

theorem find?_eq_none_of_splitAtFirst (p : α → Bool) (l : List α)
    (h : splitAtFirst p l = none) : l.find? p = none := by
  rw [List.find?_eq_none]
  intro x hx
  simp [(splitAtFirst_eq_none p l).mp h x hx]

end split

end mongo

/-! ### The Mongo answer repository -/

namespace mongo

theorem IsDuplicateKeyError_duplicateKeyError :
    IsDuplicateKeyError (some duplicateKeyError) = true := by decide

/-- `FindByKey` never changes the repository; it fails with
`ErrAnswerNotFound` exactly when no answer of the key is Active, and otherwise
returns the first Active answer of the key. -/
theorem AnswerRepo.FindByKey_cases (a : AnswerRepo) (key : String) :
    (a.FindByKey key = (.error GoError.ErrAnswerNotFound, a) ∧ a.NoActive key) ∨
    ∃ d pre post, a.FindByKey key = (.ok d, a) ∧ a.client.docs = pre ++ d :: post ∧
      splitAtFirst (fun x => (activeKeyFilter key).holds x) a.client.docs = some (pre, d, post) ∧
      d.Key = key ∧ d.DocumentStatus = ActiveDocumentStatus ∧
      ∀ x ∈ pre, ¬ (x.Key = key ∧ x.DocumentStatus = ActiveDocumentStatus) := by
  cases hs : splitAtFirst (fun x => (activeKeyFilter key).holds x) a.client.docs with
  | none =>
    left
    have hf := find?_eq_none_of_splitAtFirst _ _ hs
    have hall := (splitAtFirst_eq_none _ _).mp hs
    refine ⟨?_, ?_⟩
    · simp [AnswerRepo.FindByKey, Collection.FindOne, hf, errorsIs]
    · intro d hd hk
      have := hall d hd
      rw [(activeKeyFilter_holds key d).mpr hk] at this
      cases this
  | some t =>
    obtain ⟨pre, d, post⟩ := t
    right
    have hf := find?_eq_of_splitAtFirst _ _ _ _ _ hs
    obtain ⟨hl, hd, hpre⟩ := splitAtFirst_some _ _ _ _ _ hs
    have hd2 := (activeKeyFilter_holds key d).mp hd
    refine ⟨d, pre, post, ?_, hl, rfl, hd2.1, hd2.2, ?_⟩
    · simp [AnswerRepo.FindByKey, Collection.FindOne, hf]
    · intro x hx hk
      have := hpre x hx
      rw [(activeKeyFilter_holds key x).mpr hk] at this
      cases this

theorem AnswerRepo.FindByKey_of_noActive (a : AnswerRepo) (key : String)
    (h : a.NoActive key) : a.FindByKey key = (.error GoError.ErrAnswerNotFound, a) := by
  rcases AnswerRepo.FindByKey_cases a key with ⟨hf, -⟩ | ⟨d, pre, post, -, hl, -, hk, hs, -⟩
  · exact hf
  · exact absurd ⟨hk, hs⟩ (h d (by rw [hl]; simp))

/-- `Create` either appends the answer, when no unique index is broken, or
fails with `ErrDuplicateKey` and leaves the repository as it was. -/
theorem AnswerRepo.Create_cases (a : AnswerRepo) (answer : Answer) :
    (violatesUnique a.client.indexes a.client.docs answer = false ∧
      a.Create answer =
        (none, { a with client := { a.client with docs := a.client.docs ++ [answer] } })) ∨
    (violatesUnique a.client.indexes a.client.docs answer = true ∧
      a.Create answer = (some GoError.ErrDuplicateKey, a)) := by
  cases hv : violatesUnique a.client.indexes a.client.docs answer with
  | false =>
    left
    refine ⟨rfl, ?_⟩
    simp [AnswerRepo.Create, Collection.InsertOne, hv, IsDuplicateKeyError]
  | true =>
    right
    refine ⟨rfl, ?_⟩
    simp [AnswerRepo.Create, Collection.InsertOne, hv, IsDuplicateKeyError_duplicateKeyError]

end mongo

/-! ### The answer service, step by step -/

namespace services

variable {σ τ : Type}

theorem CreateAnswer_of_create_ok (a : AnswerService σ τ) (o : Oracle)
    (req : datastore.CreateAnswer) (w : World σ τ)
    (h : (a.answerRepo.Create (createdAnswer o w.tick req) w.answers).1 = none) :
    a.CreateAnswer o req w =
      (.ok (createdAnswer o w.tick req),
        a.broadcastEvent o (createdAnswer o w.tick req) datastore.CreateEvent
          { w with
            answers := (a.answerRepo.Create (createdAnswer o w.tick req) w.answers).2
            tick := w.tick + 4
            trace := w.trace ++ [Call.answerCreate (createdAnswer o w.tick req)] }) := by
  unfold createdAnswer at h
  simp only [AnswerService.CreateAnswer, h]
  rfl

theorem CreateAnswer_of_create_err (a : AnswerService σ τ) (o : Oracle)
    (req : datastore.CreateAnswer) (w : World σ τ) (err : GoError)
    (h : (a.answerRepo.Create (createdAnswer o w.tick req) w.answers).1 = some err) :
    a.CreateAnswer o req w =
      (.error (util.NewServiceError
          (if errorsIs err GoError.ErrDuplicateKey then http.StatusForbidden
            else http.StatusInternalServerError) err),
        { w with
          answers := (a.answerRepo.Create (createdAnswer o w.tick req) w.answers).2
          tick := w.tick + 4
          trace := w.trace ++ [Call.answerCreate (createdAnswer o w.tick req)] }) := by
  unfold createdAnswer at h
  simp only [AnswerService.CreateAnswer, h]
  rfl

end services

namespace services

variable {σ τ : Type}

/-- A successful `CreateAnswer`, in full: the answer built from the request is
returned, the Value Store is as its `Create` left it, and one event of type
`create` with the key and value of the request went to the Event Store. -/
theorem CreateAnswer_ok_spec (a : AnswerService σ τ) (o : Oracle)
    (req : datastore.CreateAnswer) (w : World σ τ) (s1 : σ)
    (h : a.answerRepo.Create (createdAnswer o w.tick req) w.answers = (none, s1)) :
    ∃ w1 ev logs,
      a.CreateAnswer o req w = (.ok (createdAnswer o w.tick req), w1) ∧
      w1.answers = s1 ∧ w1.tick = w.tick + 8 ∧
      w1.events = (a.eventService.eventRepo.Create ev w.events).2 ∧
      ev.Type_ = datastore.CreateEvent ∧ ev.Data = { Key := req.Key, Value := req.Value } ∧
      eventCreates logs = [] ∧ answerUpdates logs = [] ∧
      w1.trace = w.trace ++
        Call.answerCreate (createdAnswer o w.tick req) :: Call.eventCreate ev :: logs := by
  have h0 := CreateAnswer_of_create_ok a o req w (by rw [h])
  obtain ⟨ev, logs, ht, hd, hl, hu, hb⟩ := broadcastEvent_of_last a o
    (createdAnswer o w.tick req) datastore.CreateEvent
    { w with
      answers := (a.answerRepo.Create (createdAnswer o w.tick req) w.answers).2
      tick := w.tick + 4
      trace := w.trace ++ [Call.answerCreate (createdAnswer o w.tick req)] }
    { Value := req.Value } rfl
  rw [hb] at h0
  refine ⟨_, ev, logs, h0, ?_, rfl, rfl, ht, hd, hl, hu, ?_⟩
  · simp [h]
  · simp

/-- A failed `CreateAnswer`, in full: nothing reaches the Event Store. -/
theorem CreateAnswer_err_spec (a : AnswerService σ τ) (o : Oracle)
    (req : datastore.CreateAnswer) (w : World σ τ) (err : GoError) (s1 : σ)
    (h : a.answerRepo.Create (createdAnswer o w.tick req) w.answers = (some err, s1)) :
    ∃ w1,
      a.CreateAnswer o req w =
        (.error (util.NewServiceError
          (if errorsIs err GoError.ErrDuplicateKey then http.StatusForbidden
            else http.StatusInternalServerError) err), w1) ∧
      w1.answers = s1 ∧ w1.events = w.events ∧
      w1.trace = w.trace ++ [Call.answerCreate (createdAnswer o w.tick req)] := by
  have h0 := CreateAnswer_of_create_err a o req w err (by rw [h])
  exact ⟨_, h0, by simp [h], rfl, rfl⟩

end services

/-- On a collection with the key index only and no Active answer of the key,
the Mongo `Create` appends the answer built by `CreateAnswer`. -/
theorem mongo_Create_fresh (o : Oracle) (a : mongo.AnswerRepo) (tick : Nat)
    (req : datastore.CreateAnswer) (hidx : a.client.indexes = [mongo.keyIndex])
    (hno : a.NoActive req.Key) :
    (mongo.AnswerRepo.repository o).Create (createdAnswer o tick req) a =
      (none, { client := { docs := a.client.docs ++ [createdAnswer o tick req],
                           indexes := a.client.indexes },
               clock := a.clock }) := by
  rcases mongo.AnswerRepo.Create_cases a (createdAnswer o tick req) with ⟨-, h⟩ | ⟨h, -⟩
  · exact h
  · rw [hidx] at h
    obtain ⟨x, hx, hk, hs⟩ := (mongo.violatesUnique_keyIndex _ _).mp h
    exact absurd ⟨hk, hs⟩ (hno x hx)

/-- On a collection with the key index, the Mongo `Create` of an answer whose
key has an Active answer fails with `ErrDuplicateKey` and changes nothing. -/
theorem mongo_Create_duplicate (o : Oracle) (a : mongo.AnswerRepo) (tick : Nat)
    (req : datastore.CreateAnswer) (hidx : a.client.indexes = [mongo.keyIndex])
    (hact : ∃ d ∈ a.client.docs, d.Key = req.Key ∧ d.DocumentStatus = ActiveDocumentStatus) :
    (mongo.AnswerRepo.repository o).Create (createdAnswer o tick req) a =
      (some GoError.ErrDuplicateKey, a) := by
  rcases mongo.AnswerRepo.Create_cases a (createdAnswer o tick req) with ⟨h, -⟩ | ⟨-, h⟩
  · rw [hidx, Bool.eq_false_iff] at h
    exfalso
    apply h
    rw [mongo.violatesUnique_keyIndex]
    obtain ⟨d, hd, hk, hs⟩ := hact
    exact ⟨d, hd, hk, hs⟩
  · exact h

/-- C2: on a collection whose only index is the unique index of
`createUniqueIndex` and that holds no Active answer of `k`, `CreateAnswer(k, v)`
succeeds, and a `CreateAnswer(k, v')` right after it fails with the
`ServiceError` of code 403 around `ErrDuplicateKey` and leaves the answer
repository as the first call left it. -/
theorem C2_second_create_is_duplicate {τ : Type} (o : Oracle)
    (es : services.EventService mongo.AnswerRepo τ) (w : World mongo.AnswerRepo τ)
    (k v v' : String) (hidx : w.answers.client.indexes = [mongo.keyIndex])
    (hno : w.answers.NoActive k) :
    ∃ answer w1 w2,
      (mongoAnswerService o es).CreateAnswer o { Key := k, Value := v } w = (.ok answer, w1) ∧
      (mongoAnswerService o es).CreateAnswer o { Key := k, Value := v' } w1 =
        (.error (util.NewServiceError 403 GoError.ErrDuplicateKey), w2) ∧
      (util.NewServiceError 403 GoError.ErrDuplicateKey).ErrCode = some 403 ∧
      w2.answers = w1.answers := by
  obtain ⟨w1, -, -, h1, ha1, -⟩ := services.CreateAnswer_ok_spec (mongoAnswerService o es) o
    { Key := k, Value := v } w _ (mongo_Create_fresh o w.answers w.tick _ hidx hno)
  have hidx1 : w1.answers.client.indexes = [mongo.keyIndex] := by rw [ha1]; exact hidx
  have hact : ∃ d ∈ w1.answers.client.docs,
      d.Key = k ∧ d.DocumentStatus = ActiveDocumentStatus := by
    rw [ha1]
    exact ⟨createdAnswer o w.tick { Key := k, Value := v }, by simp, rfl, rfl⟩
  obtain ⟨w2, h2, ha2, -⟩ := services.CreateAnswer_err_spec (mongoAnswerService o es) o
    { Key := k, Value := v' } w1 _ _
    (mongo_Create_duplicate o w1.answers w1.tick { Key := k, Value := v' } hidx1 hact)
  refine ⟨_, w1, w2, h1, ?_, rfl, ha2⟩
  rw [h2]
  simp [errorsIs, http.StatusForbidden]

theorem C2_second_create_is_duplicate_witness :
    exampleWorld.answers.client.indexes = [mongo.keyIndex] ∧
    exampleWorld.answers.NoActive "k1" ∧
    ∃ answer w1 w2,
      (exampleService none).CreateAnswer exampleOracle
          { Key := "k1", Value := "a" } exampleWorld = (.ok answer, w1) ∧
      (exampleService none).CreateAnswer exampleOracle { Key := "k1", Value := "b" } w1 =
        (.error (util.NewServiceError 403 GoError.ErrDuplicateKey), w2) ∧
      (util.NewServiceError 403 GoError.ErrDuplicateKey).ErrCode = some 403 ∧
      w2.answers = w1.answers :=
  ⟨by decide, by decide,
    C2_second_create_is_duplicate exampleOracle _ exampleWorld "k1" "a" "b"
      (by decide) (by decide)⟩

namespace services

variable {σ τ : Type}

theorem FindAnswerByKey_ok_spec (a : AnswerService σ τ) (key : String) (w : World σ τ)
    (answer : Answer) (s1 : σ) (h : a.answerRepo.FindByKey key w.answers = (.ok answer, s1)) :
    a.FindAnswerByKey key w =
      (.ok answer, { w with answers := s1, trace := w.trace ++ [Call.answerFindByKey key] }) := by
  simp [AnswerService.FindAnswerByKey, h]

theorem FindAnswerByKey_err_spec (a : AnswerService σ τ) (key : String) (w : World σ τ)
    (err : GoError) (s1 : σ) (h : a.answerRepo.FindByKey key w.answers = (.error err, s1)) :
    a.FindAnswerByKey key w =
      (.error (util.NewServiceError
          (if errorsIs err GoError.ErrAnswerNotFound then http.StatusNotFound
            else http.StatusInternalServerError) err),
        { w with answers := s1, trace := w.trace ++ [Call.answerFindByKey key] }) := by
  simp [AnswerService.FindAnswerByKey, h]

/-- `UpdateAnswer` when the lookup fails: the error of the lookup is returned
and the only call made is the lookup. -/
theorem UpdateAnswer_notFound_spec (a : AnswerService σ τ) (o : Oracle) (key : String)
    (req : datastore.UpdateAnswer) (w : World σ τ) (err : GoError) (s1 : σ)
    (h : a.answerRepo.FindByKey key w.answers = (.error err, s1)) :
    a.UpdateAnswer o key req w =
      (.error (util.NewServiceError
          (if errorsIs err GoError.ErrAnswerNotFound then http.StatusNotFound
            else http.StatusInternalServerError) err),
        { w with answers := s1, trace := w.trace ++ [Call.answerFindByKey key] }) := by
  simp [AnswerService.UpdateAnswer, FindAnswerByKey_err_spec a key w err s1 h]

/-- `UpdateAnswer` when the lookup succeeds and the store's `Update` fails. -/
theorem UpdateAnswer_err_spec (a : AnswerService σ τ) (o : Oracle) (key : String)
    (req : datastore.UpdateAnswer) (w : World σ τ) (answer : Answer) (err : GoError) (s1 s2 : σ)
    (h : a.answerRepo.FindByKey key w.answers = (.ok answer, s1))
    (hu : a.answerRepo.Update answer { Value := req.Value } s1 = (.error err, s2)) :
    a.UpdateAnswer o key req w =
      (.error (util.NewServiceError http.StatusInternalServerError err),
        { w with
          answers := s2
          trace := w.trace ++
            [Call.answerFindByKey key, Call.answerUpdate answer { Value := req.Value }] }) := by
  simp [AnswerService.UpdateAnswer, FindAnswerByKey_ok_spec a key w answer s1 h, hu]

/-- `UpdateAnswer` when the lookup and the store's `Update` succeed. -/
theorem UpdateAnswer_ok_spec (a : AnswerService σ τ) (o : Oracle) (key : String)
    (req : datastore.UpdateAnswer) (w : World σ τ) (answer answer1 : Answer) (s1 s2 : σ)
    (h : a.answerRepo.FindByKey key w.answers = (.ok answer, s1))
    (hu : a.answerRepo.Update answer { Value := req.Value } s1 = (.ok answer1, s2)) :
    a.UpdateAnswer o key req w =
      (.ok answer1,
        a.broadcastEvent o answer1 datastore.UpdateEvent
          { w with
            answers := s2
            trace := w.trace ++
              [Call.answerFindByKey key, Call.answerUpdate answer { Value := req.Value }] }) := by
  simp [AnswerService.UpdateAnswer, FindAnswerByKey_ok_spec a key w answer s1 h, hu]

/-- `DeleteAnswer` when the lookup fails. -/
theorem DeleteAnswer_notFound_spec (a : AnswerService σ τ) (o : Oracle) (key : String)
    (w : World σ τ) (err : GoError) (s1 : σ)
    (h : a.answerRepo.FindByKey key w.answers = (.error err, s1)) :
    a.DeleteAnswer o key w =
      (some (util.NewServiceError
          (if errorsIs err GoError.ErrAnswerNotFound then http.StatusNotFound
            else http.StatusInternalServerError) err),
        { w with answers := s1, trace := w.trace ++ [Call.answerFindByKey key] }) := by
  simp [AnswerService.DeleteAnswer, FindAnswerByKey_err_spec a key w err s1 h]

/-- `DeleteAnswer` when the lookup succeeds and the store's `Delete` fails. -/
theorem DeleteAnswer_err_spec (a : AnswerService σ τ) (o : Oracle) (key : String)
    (w : World σ τ) (answer : Answer) (err : GoError) (s1 s2 : σ)
    (h : a.answerRepo.FindByKey key w.answers = (.ok answer, s1))
    (hd : a.answerRepo.Delete answer s1 = (some err, s2)) :
    a.DeleteAnswer o key w =
      (some (util.NewServiceError http.StatusInternalServerError err),
        { w with
          answers := s2
          trace := w.trace ++ [Call.answerFindByKey key, Call.answerDelete answer] }) := by
  simp [AnswerService.DeleteAnswer, FindAnswerByKey_ok_spec a key w answer s1 h, hd]

/-- `DeleteAnswer` when the lookup and the store's `Delete` succeed. -/
theorem DeleteAnswer_ok_spec (a : AnswerService σ τ) (o : Oracle) (key : String)
    (w : World σ τ) (answer : Answer) (s1 s2 : σ)
    (h : a.answerRepo.FindByKey key w.answers = (.ok answer, s1))
    (hd : a.answerRepo.Delete answer s1 = (none, s2)) :
    a.DeleteAnswer o key w =
      (none,
        a.broadcastEvent o answer datastore.DeleteEvent
          { w with
            answers := s2
            trace := w.trace ++ [Call.answerFindByKey key, Call.answerDelete answer] }) := by
  simp [AnswerService.DeleteAnswer, FindAnswerByKey_ok_spec a key w answer s1 h, hd]

end services

namespace mongo

/-- The Mongo `Update` on the first Active answer `d` of its key: the pushed
value and the new `updated_at` are stored in place of `d`, and the answer read
back is the stored one; a broken unique index is the only failure. -/
theorem AnswerRepo.Update_cases (o : Oracle) (a : AnswerRepo) (d : Answer) (value : Value)
    (pre post : List Answer)
    (hs : splitAtFirst (fun x => (activeKeyFilter d.Key).holds x) a.client.docs =
      some (pre, d, post)) :
    (violatesUnique a.client.indexes (pre ++ post)
        { d with Values := d.Values ++ [value], UpdatedAt := o.Now a.clock } = true ∧
      AnswerRepo.Update o a d value =
        (.error duplicateKeyError, { client := a.client, clock := a.clock + 1 })) ∨
    (violatesUnique a.client.indexes (pre ++ post)
        { d with Values := d.Values ++ [value], UpdatedAt := o.Now a.clock } = false ∧
      AnswerRepo.Update o a d value =
        (.ok { d with Values := d.Values ++ [value], UpdatedAt := o.Now a.clock },
          { client :=
              { docs := pre ++
                  { d with Values := d.Values ++ [value], UpdatedAt := o.Now a.clock } :: post
                indexes := a.client.indexes }
            clock := a.clock + 1 })) := by
  obtain ⟨-, hd, hpre⟩ := splitAtFirst_some _ _ _ _ _ hs
  cases hv : violatesUnique a.client.indexes (pre ++ post)
      { d with Values := d.Values ++ [value], UpdatedAt := o.Now a.clock } with
  | true =>
    left
    refine ⟨rfl, ?_⟩
    simp [AnswerRepo.Update, Collection.UpdateOne, hs, hv]
  | false =>
    right
    refine ⟨rfl, ?_⟩
    have hd2 : (activeKeyFilter d.Key).holds
        ({ d with Values := d.Values ++ [value], UpdatedAt := o.Now a.clock } : Answer) = true := by
      rw [activeKeyFilter_holds] at hd ⊢
      exact hd
    have hs2 := splitAtFirst_of_append (fun x => (activeKeyFilter d.Key).holds x) pre post
      ({ d with Values := d.Values ++ [value], UpdatedAt := o.Now a.clock } : Answer) hd2 hpre
    have hf := find?_eq_of_splitAtFirst _ _ _ _ _ hs2
    simp [AnswerRepo.Update, Collection.UpdateOne, hs, hv, AnswerRepo.FindByKey,
      Collection.FindOne, hf]

/-- The Mongo `Delete` on the first Active answer `d` of its key: `d` is stored
as Deleted with a deletion time; a broken unique index is the only failure. -/
theorem AnswerRepo.Delete_cases (o : Oracle) (a : AnswerRepo) (d : Answer)
    (pre post : List Answer)
    (hs : splitAtFirst (fun x => (activeKeyFilter d.Key).holds x) a.client.docs =
      some (pre, d, post)) :
    (violatesUnique a.client.indexes (pre ++ post)
        { d with DocumentStatus := DeletedDocumentStatus, DeletedAt := o.Now a.clock } = true ∧
      AnswerRepo.Delete o a d =
        (some duplicateKeyError, { client := a.client, clock := a.clock + 1 })) ∨
    (violatesUnique a.client.indexes (pre ++ post)
        { d with DocumentStatus := DeletedDocumentStatus, DeletedAt := o.Now a.clock } = false ∧
      AnswerRepo.Delete o a d =
        (none,
          { client :=
              { docs := pre ++
                  { d with DocumentStatus := DeletedDocumentStatus
                           DeletedAt := o.Now a.clock } :: post
                indexes := a.client.indexes }
            clock := a.clock + 1 })) := by
  cases hv : violatesUnique a.client.indexes (pre ++ post)
      { d with DocumentStatus := DeletedDocumentStatus, DeletedAt := o.Now a.clock } with
  | true =>
    left
    refine ⟨rfl, ?_⟩
    simp [AnswerRepo.Delete, Collection.UpdateOne, hs, hv]
  | false =>
    right
    refine ⟨rfl, ?_⟩
    simp [AnswerRepo.Delete, Collection.UpdateOne, hs, hv]

end mongo

namespace mongo

theorem AnswerRepo.FindByKey_of_split (a : AnswerRepo) (key : String) (d : Answer)
    (pre post : List Answer)
    (hs : splitAtFirst (fun x => (activeKeyFilter key).holds x) a.client.docs =
      some (pre, d, post)) :
    a.FindByKey key = (.ok d, a) := by
  have hf := find?_eq_of_splitAtFirst _ _ _ _ _ hs
  simp [AnswerRepo.FindByKey, Collection.FindOne, hf]

/-- The first Active answer of a key that has none among `pre` and one at `d`. -/
theorem split_activeKey (key : String) (pre post : List Answer) (d : Answer)
    (hk : d.Key = key) (hst : d.DocumentStatus = ActiveDocumentStatus)
    (hpre : ∀ x ∈ pre, ¬ (x.Key = key ∧ x.DocumentStatus = ActiveDocumentStatus)) :
    splitAtFirst (fun x => (activeKeyFilter key).holds x) (pre ++ d :: post) =
      some (pre, d, post) := by
  apply splitAtFirst_of_append
  · exact (activeKeyFilter_holds key d).mpr ⟨hk, hst⟩
  · intro x hx
    rw [Bool.eq_false_iff]
    intro hc
    exact hpre x hx ((activeKeyFilter_holds key x).mp hc)

end mongo

/-- C3: from a store with no Active answer of `k`, when `CreateAnswer(k, v1)`
and then `UpdateAnswer(k, v2)` succeed, the answer that `UpdateAnswer` returns
has the values `[v1, v2]`, and so has the answer that a following
`FindAnswerByKey(k)` returns, whose last value is `v2`. -/
theorem C3_create_then_update_values {τ : Type} (o : Oracle)
    (es : services.EventService mongo.AnswerRepo τ) (w w1 w2 : World mongo.AnswerRepo τ)
    (k v1 v2 : String) (answer1 answer2 : Answer) (hno : w.answers.NoActive k)
    (h1 : (mongoAnswerService o es).CreateAnswer o { Key := k, Value := v1 } w =
      (.ok answer1, w1))
    (h2 : (mongoAnswerService o es).UpdateAnswer o k { Value := v2 } w1 = (.ok answer2, w2)) :
    answer2.Values = [{ Value := v1 }, { Value := v2 }] ∧
    ∃ answer3 w3,
      (mongoAnswerService o es).FindAnswerByKey k w2 = (.ok answer3, w3) ∧
      answer3.Values = [{ Value := v1 }, { Value := v2 }] ∧
      answer3.Values.getLast? = some { Value := v2 } := by
  -- the create appended the new answer
  have hdocs1 : w1.answers.client.docs =
      w.answers.client.docs ++ [createdAnswer o w.tick { Key := k, Value := v1 }] := by
    rcases mongo.AnswerRepo.Create_cases w.answers
      (createdAnswer o w.tick { Key := k, Value := v1 }) with ⟨-, hc⟩ | ⟨-, hc⟩
    · obtain ⟨w1', -, -, h1', ha, -⟩ := services.CreateAnswer_ok_spec (mongoAnswerService o es) o
        { Key := k, Value := v1 } w _ hc
      rw [h1] at h1'
      cases h1'
      rw [ha]
    · obtain ⟨w1', h1', -⟩ := services.CreateAnswer_err_spec (mongoAnswerService o es) o
        { Key := k, Value := v1 } w _ _ hc
      rw [h1] at h1'
      cases h1'
  -- the lookup of the update finds it
  have hs1 := mongo.split_activeKey k w.answers.client.docs []
    (createdAnswer o w.tick { Key := k, Value := v1 }) rfl rfl hno
  rw [← hdocs1] at hs1
  have hf1 : (mongoAnswerService o es).answerRepo.FindByKey k w1.answers =
      (.ok (createdAnswer o w.tick { Key := k, Value := v1 }), w1.answers) :=
    mongo.AnswerRepo.FindByKey_of_split _ _ _ _ _ hs1
  rcases mongo.AnswerRepo.Update_cases o w1.answers
      (createdAnswer o w.tick { Key := k, Value := v1 }) { Value := v2 } _ _ hs1
    with ⟨-, hu⟩ | ⟨-, hu⟩
  · have h2' := services.UpdateAnswer_err_spec (mongoAnswerService o es) o k { Value := v2 }
      w1 _ _ _ _ hf1 hu
    rw [h2] at h2'
    cases h2'
  · have h2' := services.UpdateAnswer_ok_spec (mongoAnswerService o es) o k { Value := v2 }
      w1 _ _ _ _ hf1 hu
    rw [h2] at h2'
    injection h2' with ha hw
    injection ha with ha
    subst ha
    refine ⟨rfl, ?_⟩
    have hans : w2.answers.client.docs = w.answers.client.docs ++
        [{ createdAnswer o w.tick { Key := k, Value := v1 } with
            Values := [{ Value := v1 }] ++ [{ Value := v2 }]
            UpdatedAt := o.Now w1.answers.clock }] := by
      rw [hw]
      rw [(services.broadcastEvent_frame _ _ _ _ _).1]
      rfl
    have hs2 := mongo.split_activeKey k w.answers.client.docs []
      ({ createdAnswer o w.tick { Key := k, Value := v1 } with
          Values := [{ Value := v1 }] ++ [{ Value := v2 }]
          UpdatedAt := o.Now w1.answers.clock } : Answer) rfl rfl hno
    rw [← hans] at hs2
    have hf2 := mongo.AnswerRepo.FindByKey_of_split _ _ _ _ _ hs2
    exact ⟨_, _, services.FindAnswerByKey_ok_spec (mongoAnswerService o es) k w2 _ _ hf2,
      rfl, rfl⟩

theorem C3_create_then_update_values_witness :
    exampleWorld.answers.NoActive "k1" ∧
    (exampleService none).CreateAnswer exampleOracle { Key := "k1", Value := "a" } exampleWorld =
      (.ok (createdAnswer exampleOracle 0 { Key := "k1", Value := "a" }), exampleAfterCreate) ∧
    (exampleService none).UpdateAnswer exampleOracle "k1" { Value := "b" } exampleAfterCreate =
      (.ok { createdAnswer exampleOracle 0 { Key := "k1", Value := "a" } with
              Values := [{ Value := "a" }, { Value := "b" }]
              UpdatedAt := exampleOracle.Now 0 }, exampleAfterUpdate) ∧
    ∃ answer3 w3,
      (exampleService none).FindAnswerByKey "k1" exampleAfterUpdate = (.ok answer3, w3) ∧
      answer3.Values = [{ Value := "a" }, { Value := "b" }] ∧
      answer3.Values.getLast? = some { Value := "b" } :=
  ⟨by decide, rfl, rfl,
    (C3_create_then_update_values exampleOracle (exampleService none).eventService exampleWorld
      exampleAfterCreate exampleAfterUpdate "k1" "a" "b"
      (createdAnswer exampleOracle 0 { Key := "k1", Value := "a" })
      { createdAnswer exampleOracle 0 { Key := "k1", Value := "a" } with
        Values := [{ Value := "a" }, { Value := "b" }]
        UpdatedAt := exampleOracle.Now 0 }
      (by decide) rfl rfl).2⟩

/-- C4: `FindAnswerByKey` returns exactly the answer of the store when the
store's `FindByKey` succeeds. When the store fails with `ErrAnswerNotFound`
the error is the `ServiceError` of code 404 with the message "answer not
found". When the store fails with an error `err` for which
`errors.Is(err, ErrAnswerNotFound)` is false, the error is the `ServiceError`
of code 500 with the message of `err`. In every failure the message is the
message of the store error, and the code is 404 exactly when
`errors.Is(err, ErrAnswerNotFound)`. -/
theorem C4_FindAnswerByKey_contract {σ τ : Type} (a : services.AnswerService σ τ)
    (key : String) (w : World σ τ) :
    (∀ answer s1, a.answerRepo.FindByKey key w.answers = (.ok answer, s1) →
      (a.FindAnswerByKey key w).1 = .ok answer) ∧
    (∀ s1, a.answerRepo.FindByKey key w.answers = (.error GoError.ErrAnswerNotFound, s1) →
      (a.FindAnswerByKey key w).1 =
        .error (util.NewServiceError 404 GoError.ErrAnswerNotFound) ∧
      (util.NewServiceError 404 GoError.ErrAnswerNotFound).ErrCode = some 404 ∧
      (util.NewServiceError 404 GoError.ErrAnswerNotFound).Error = "answer not found") ∧
    (∀ err s1, a.answerRepo.FindByKey key w.answers = (.error err, s1) →
      errorsIs err GoError.ErrAnswerNotFound = false →
      (a.FindAnswerByKey key w).1 = .error (util.NewServiceError 500 err) ∧
      (util.NewServiceError 500 err).ErrCode = some 500 ∧
      (util.NewServiceError 500 err).Error = err.Error) ∧
    (∀ err s1, a.answerRepo.FindByKey key w.answers = (.error err, s1) →
      errorsIs err GoError.ErrAnswerNotFound = true →
      (a.FindAnswerByKey key w).1 = .error (util.NewServiceError 404 err) ∧
      (util.NewServiceError 404 err).Error = err.Error) := by
  refine ⟨?_, ?_, ?_, ?_⟩
  · intro answer s1 h
    rw [services.FindAnswerByKey_ok_spec a key w answer s1 h]
  · intro s1 h
    rw [services.FindAnswerByKey_err_spec a key w _ s1 h]
    exact ⟨by simp [errorsIs, http.StatusNotFound], rfl, rfl⟩
  · intro err s1 h his
    rw [services.FindAnswerByKey_err_spec a key w _ s1 h]
    exact ⟨by simp [his, http.StatusInternalServerError], rfl, rfl⟩
  · intro err s1 h his
    rw [services.FindAnswerByKey_err_spec a key w _ s1 h]
    exact ⟨by simp [his, http.StatusNotFound], rfl⟩

theorem C4_FindAnswerByKey_contract_witness :
    (exampleService none).FindAnswerByKey "k1" exampleWorld =
      (.error (util.NewServiceError 404 GoError.ErrAnswerNotFound),
        { exampleWorld with trace := [Call.answerFindByKey "k1"] }) ∧
    (exampleService none).answerRepo.FindByKey "k1" exampleAfterCreate.answers =
      (.ok (createdAnswer exampleOracle 0 { Key := "k1", Value := "a" }),
        exampleAfterCreate.answers) ∧
    ((exampleService none).FindAnswerByKey "k1" exampleAfterCreate).1 =
      .ok (createdAnswer exampleOracle 0 { Key := "k1", Value := "a" }) :=
  ⟨rfl, rfl,
    (C4_FindAnswerByKey_contract (exampleService none) "k1" exampleAfterCreate).1 _ _ rfl⟩

/-- C5: when no answer of the key is Active, `UpdateAnswer` returns no answer
and the `ServiceError` of code 404 with the message "answer not found"; the
only call it makes is the lookup, so the store's `Update` is not called and no
event is emitted, and the Value Store and the Event Store are unchanged. -/
theorem C5_update_of_missing_key {τ : Type} (o : Oracle)
    (es : services.EventService mongo.AnswerRepo τ) (w : World mongo.AnswerRepo τ)
    (key : String) (req : datastore.UpdateAnswer) (hno : w.answers.NoActive key) :
    (mongoAnswerService o es).UpdateAnswer o key req w =
      (.error (util.NewServiceError 404 GoError.ErrAnswerNotFound),
        { w with trace := w.trace ++ [Call.answerFindByKey key] }) ∧
    (util.NewServiceError 404 GoError.ErrAnswerNotFound).ErrCode = some 404 ∧
    (util.NewServiceError 404 GoError.ErrAnswerNotFound).Error = "answer not found" ∧
    answerUpdates ((mongoAnswerService o es).UpdateAnswer o key req w).2.trace =
      answerUpdates w.trace ∧
    eventCreates ((mongoAnswerService o es).UpdateAnswer o key req w).2.trace =
      eventCreates w.trace ∧
    ((mongoAnswerService o es).UpdateAnswer o key req w).2.answers = w.answers ∧
    ((mongoAnswerService o es).UpdateAnswer o key req w).2.events = w.events := by
  have hf : (mongoAnswerService o es).answerRepo.FindByKey key w.answers =
      (.error GoError.ErrAnswerNotFound, w.answers) :=
    mongo.AnswerRepo.FindByKey_of_noActive w.answers key hno
  have h := services.UpdateAnswer_notFound_spec (mongoAnswerService o es) o key req w _ _ hf
  have h2 : (mongoAnswerService o es).UpdateAnswer o key req w =
      (.error (util.NewServiceError 404 GoError.ErrAnswerNotFound),
        { w with trace := w.trace ++ [Call.answerFindByKey key] }) := by
    rw [h]; simp [errorsIs, http.StatusNotFound]
  refine ⟨h2, rfl, rfl, ?_, ?_, ?_, ?_⟩ <;> rw [h2]
  · simp [answerUpdates_append, answerUpdates]
  · simp [eventCreates_append, eventCreates]

theorem C5_update_of_missing_key_witness :
    exampleWorld.answers.NoActive "k1" ∧
    (exampleService none).UpdateAnswer exampleOracle "k1" { Value := "b" } exampleWorld =
      (.error (util.NewServiceError 404 GoError.ErrAnswerNotFound),
        { exampleWorld with trace := exampleWorld.trace ++ [Call.answerFindByKey "k1"] }) :=
  ⟨by decide,
    (C5_update_of_missing_key exampleOracle (exampleService none).eventService exampleWorld
      "k1" { Value := "b" } (by decide)).1⟩

/-- After the Mongo `Delete` has stored the first Active answer `d` of `key`
as Deleted in a collection where no two answers share key and status, no
answer of `key` is Active. -/
theorem mongo_noActive_after_delete (key : String) (pre post : List Answer) (d d1 : Answer)
    (hk : d.Key = key) (hst : d.DocumentStatus = ActiveDocumentStatus)
    (hd1 : d1.DocumentStatus = DeletedDocumentStatus)
    (hpre : ∀ x ∈ pre, ¬ (x.Key = key ∧ x.DocumentStatus = ActiveDocumentStatus))
    (hpw : (pre ++ d :: post).Pairwise
      (fun x y => ¬ (x.Key = y.Key ∧ x.DocumentStatus = y.DocumentStatus))) :
    ∀ x ∈ pre ++ d1 :: post, ¬ (x.Key = key ∧ x.DocumentStatus = ActiveDocumentStatus) := by
  intro x hx
  rcases List.mem_append.mp hx with hx | hx
  · exact hpre x hx
  · rcases List.mem_cons.mp hx with rfl | hx
    · intro hc
      rw [hd1] at hc
      exact absurd hc.2 (by decide)
    · have hpw2 := (List.pairwise_append.mp hpw).2.1
      have := (List.pairwise_cons.mp hpw2).1 x hx
      intro hc
      exact this ⟨hk.trans hc.1.symm, hst.trans hc.2.symm⟩

/-- C6: on a collection where the unique index of `createUniqueIndex` is
enforced, once `DeleteAnswer(k)` has succeeded the key does not resolve: a
following `FindAnswerByKey(k)` fails with the `ServiceError` of code 404, and
a second `DeleteAnswer(k)` fails with the `ServiceError` of code 404, makes
only the lookup call, emits no event and changes neither store. -/
theorem C6_deleted_key_does_not_resolve {τ : Type} (o : Oracle)
    (es : services.EventService mongo.AnswerRepo τ) (w w1 : World mongo.AnswerRepo τ)
    (k : String) (hidx : w.answers.Indexed)
    (hdel : (mongoAnswerService o es).DeleteAnswer o k w = (none, w1)) :
    (mongoAnswerService o es).FindAnswerByKey k w1 =
      (.error (util.NewServiceError 404 GoError.ErrAnswerNotFound),
        { w1 with trace := w1.trace ++ [Call.answerFindByKey k] }) ∧
    (mongoAnswerService o es).DeleteAnswer o k w1 =
      (some (util.NewServiceError 404 GoError.ErrAnswerNotFound),
        { w1 with trace := w1.trace ++ [Call.answerFindByKey k] }) ∧
    (util.NewServiceError 404 GoError.ErrAnswerNotFound).ErrCode = some 404 ∧
    ((mongoAnswerService o es).DeleteAnswer o k w1).2.answers = w1.answers ∧
    ((mongoAnswerService o es).DeleteAnswer o k w1).2.events = w1.events ∧
    eventCreates ((mongoAnswerService o es).DeleteAnswer o k w1).2.trace =
      eventCreates w1.trace := by
  have hno : w1.answers.NoActive k := by
    rcases mongo.AnswerRepo.FindByKey_cases w.answers k with
      ⟨hf, -⟩ | ⟨d, pre, post, hf, hl, hs, hk, hst, hpre⟩
    · have h := services.DeleteAnswer_notFound_spec (mongoAnswerService o es) o k w _ _ hf
      rw [hdel] at h
      cases h
    · subst hk
      rcases mongo.AnswerRepo.Delete_cases o w.answers d pre post hs with ⟨-, hd⟩ | ⟨-, hd⟩
      · have h := services.DeleteAnswer_err_spec (mongoAnswerService o es) o d.Key w _ _ _ _
          hf hd
        rw [hdel] at h
        cases h
      · have h := services.DeleteAnswer_ok_spec (mongoAnswerService o es) o d.Key w _ _ _ hf hd
        rw [hdel] at h
        injection h with _ hw
        have ha : w1.answers.client.docs = pre ++
            { d with DocumentStatus := DeletedDocumentStatus
                     DeletedAt := o.Now w.answers.clock } :: post := by
          rw [hw, (services.broadcastEvent_frame _ _ _ _ _).1]
        intro x hx
        rw [ha] at hx
        have hpw := hidx.2
        rw [hl] at hpw
        exact mongo_noActive_after_delete d.Key pre post d _ rfl hst rfl hpre hpw x hx
  have hf1 : (mongoAnswerService o es).answerRepo.FindByKey k w1.answers =
      (.error GoError.ErrAnswerNotFound, w1.answers) :=
    mongo.AnswerRepo.FindByKey_of_noActive w1.answers k hno
  have h1 : (mongoAnswerService o es).FindAnswerByKey k w1 =
      (.error (util.NewServiceError 404 GoError.ErrAnswerNotFound),
        { w1 with trace := w1.trace ++ [Call.answerFindByKey k] }) := by
    rw [services.FindAnswerByKey_err_spec (mongoAnswerService o es) k w1 _ _ hf1]
    simp [errorsIs, http.StatusNotFound]
  have h2 : (mongoAnswerService o es).DeleteAnswer o k w1 =
      (some (util.NewServiceError 404 GoError.ErrAnswerNotFound),
        { w1 with trace := w1.trace ++ [Call.answerFindByKey k] }) := by
    rw [services.DeleteAnswer_notFound_spec (mongoAnswerService o es) o k w1 _ _ hf1]
    simp [errorsIs, http.StatusNotFound]
  refine ⟨h1, h2, rfl, ?_, ?_, ?_⟩ <;> rw [h2]
  simp [eventCreates_append, eventCreates]

theorem C6_deleted_key_does_not_resolve_witness :
    exampleAfterCreate.answers.Indexed ∧
    (exampleService none).DeleteAnswer exampleOracle "k1" exampleAfterCreate =
      (none, exampleAfterDelete) ∧
    (exampleService none).FindAnswerByKey "k1" exampleAfterDelete =
      (.error (util.NewServiceError 404 GoError.ErrAnswerNotFound),
        { exampleAfterDelete with
          trace := exampleAfterDelete.trace ++ [Call.answerFindByKey "k1"] }) :=
  ⟨by decide, rfl,
    (C6_deleted_key_does_not_resolve exampleOracle (exampleService none).eventService
      exampleAfterCreate exampleAfterDelete "k1" (by decide) rfl).1⟩

theorem C1_CreateAnswer_contract_witness :
    (∀ n, exampleOracle.NewString n ≠ "") ∧
    ∃ answer : Answer,
      answer.Key = "k1" ∧ answer.Values = [{ Value := "a" }] ∧
      answer.DocumentStatus = ActiveDocumentStatus ∧ answer.UID ≠ "" ∧ answer.DeletedAt = 0 ∧
      Call.answerCreate answer ∈
        ((exampleService none).CreateAnswer exampleOracle { Key := "k1", Value := "a" }
          exampleWorld).2.trace ∧
      (((exampleService none).answerRepo.Create answer exampleWorld.answers).1 = none →
        ((exampleService none).CreateAnswer exampleOracle { Key := "k1", Value := "a" }
          exampleWorld).1 = .ok answer) ∧
      (∀ err, ((exampleService none).answerRepo.Create answer exampleWorld.answers).1 = some err →
        ∃ code : Int,
          ((exampleService none).CreateAnswer exampleOracle { Key := "k1", Value := "a" }
            exampleWorld).1 = .error (util.NewServiceError code err) ∧
          (util.NewServiceError code err).ErrCode = some code ∧
          (util.NewServiceError code err).Error = err.Error ∧
          (errorsIs err GoError.ErrDuplicateKey = true → code = 403) ∧
          (errorsIs err GoError.ErrDuplicateKey = false → code = 500)) :=
  ⟨exampleOracle_NewString_ne,
    C1_CreateAnswer_contract (exampleService none) exampleOracle
      { Key := "k1", Value := "a" } exampleWorld exampleOracle_NewString_ne⟩

namespace services

variable {σ τ : Type}

theorem broadcastEvent_tick_le (a : AnswerService σ τ) (o : Oracle) (answer : Answer)
    (eventType : EventType) (w : World σ τ) (t : Nat) (ht : w.tick = t) :
    t ≤ (a.broadcastEvent o answer eventType w).tick := by
  subst ht
  cases h : answer.Values.getLast? with
  | none => simp [AnswerService.broadcastEvent, EventService.CreateEvent, h]
  | some last =>
    obtain ⟨ev, logs, -, -, -, -, heq⟩ := broadcastEvent_of_last a o answer eventType w last h
    rw [heq]
    simp

end services

/-- A successful `CreateAnswer` on the Mongo repository appended the answer it
returned, which is the answer built from the request. -/
theorem mongo_CreateAnswer_ok_inv {τ : Type} (o : Oracle)
    (es : services.EventService mongo.AnswerRepo τ) (w w1 : World mongo.AnswerRepo τ)
    (req : datastore.CreateAnswer) (answer : Answer)
    (h : (mongoAnswerService o es).CreateAnswer o req w = (.ok answer, w1)) :
    answer = createdAnswer o w.tick req ∧
    mongo.violatesUnique w.answers.client.indexes w.answers.client.docs answer = false ∧
    w1.answers.client.docs = w.answers.client.docs ++ [answer] ∧
    w1.answers.client.indexes = w.answers.client.indexes ∧
    w1.tick = w.tick + 8 := by
  rcases mongo.AnswerRepo.Create_cases w.answers (createdAnswer o w.tick req) with
    ⟨hv, hc⟩ | ⟨-, hc⟩
  · obtain ⟨w1', -, -, h1', ha, ht, -⟩ := services.CreateAnswer_ok_spec (mongoAnswerService o es)
      o req w _ hc
    rw [h] at h1'
    cases h1'
    refine ⟨rfl, hv, ?_, ?_, ht⟩ <;> rw [ha]
  · obtain ⟨w1', h1', -⟩ := services.CreateAnswer_err_spec (mongoAnswerService o es) o req w
      _ _ hc
    rw [h] at h1'
    cases h1'

/-- A successful `DeleteAnswer` on the Mongo repository stored the first Active
answer of the key as Deleted, in its place. -/
theorem mongo_DeleteAnswer_ok_inv {τ : Type} (o : Oracle)
    (es : services.EventService mongo.AnswerRepo τ) (w w1 : World mongo.AnswerRepo τ)
    (k : String) (h : (mongoAnswerService o es).DeleteAnswer o k w = (none, w1)) :
    ∃ d pre post,
      mongo.AnswerRepo.FindByKey w.answers k = (.ok d, w.answers) ∧
      d.Key = k ∧ d.DocumentStatus = ActiveDocumentStatus ∧
      (∀ x ∈ pre, ¬ (x.Key = k ∧ x.DocumentStatus = ActiveDocumentStatus)) ∧
      w.answers.client.docs = pre ++ d :: post ∧
      w1.answers.client.docs = pre ++
        { d with DocumentStatus := DeletedDocumentStatus
                 DeletedAt := o.Now w.answers.clock } :: post ∧
      w1.answers.client.indexes = w.answers.client.indexes ∧
      w.tick ≤ w1.tick ∧
      w1 = (mongoAnswerService o es).broadcastEvent o d datastore.DeleteEvent
        { w with
          answers :=
            { client :=
                { docs := pre ++
                    { d with DocumentStatus := DeletedDocumentStatus
                             DeletedAt := o.Now w.answers.clock } :: post
                  indexes := w.answers.client.indexes }
              clock := w.answers.clock + 1 }
          trace := w.trace ++ [Call.answerFindByKey k, Call.answerDelete d] } := by
  rcases mongo.AnswerRepo.FindByKey_cases w.answers k with
    ⟨hf, -⟩ | ⟨d, pre, post, hf, hl, hs, hk, hst, hpre⟩
  · have h' := services.DeleteAnswer_notFound_spec (mongoAnswerService o es) o k w _ _ hf
    rw [h] at h'
    cases h'
  · subst hk
    rcases mongo.AnswerRepo.Delete_cases o w.answers d pre post hs with ⟨-, hd⟩ | ⟨-, hd⟩
    · have h' := services.DeleteAnswer_err_spec (mongoAnswerService o es) o d.Key w _ _ _ _
        hf hd
      rw [h] at h'
      cases h'
    · have h' := services.DeleteAnswer_ok_spec (mongoAnswerService o es) o d.Key w _ _ _ hf hd
      rw [h] at h'
      injection h' with _ hw
      refine ⟨d, pre, post, hf, rfl, hst, hpre, hl, ?_, ?_, ?_, hw⟩
      · rw [hw, (services.broadcastEvent_frame _ _ _ _ _).1]
      · rw [hw, (services.broadcastEvent_frame _ _ _ _ _).1]
      · rw [hw]
        exact services.broadcastEvent_tick_le _ _ _ _ _ _ rfl

/-- C7: on a collection where the unique index of `createUniqueIndex` is the
only index and is enforced, and with a uid generator that never repeats a
value: once `CreateAnswer(k, v1)` and `DeleteAnswer(k)` have succeeded,
`CreateAnswer(k, v3)` succeeds and returns an Active answer of `k` whose values
are exactly `[v3]` and whose uid is not the uid of the answer created first. -/
theorem C7_recreate_after_delete {τ : Type} (o : Oracle)
    (es : services.EventService mongo.AnswerRepo τ) (w w1 w2 : World mongo.AnswerRepo τ)
    (k v1 v3 : String) (answer1 : Answer) (hidx : w.answers.Indexed)
    (huid : Function.Injective o.NewString)
    (h1 : (mongoAnswerService o es).CreateAnswer o { Key := k, Value := v1 } w =
      (.ok answer1, w1))
    (h2 : (mongoAnswerService o es).DeleteAnswer o k w1 = (none, w2)) :
    ∃ answer3 w3,
      (mongoAnswerService o es).CreateAnswer o { Key := k, Value := v3 } w2 =
        (.ok answer3, w3) ∧
      answer3.Key = k ∧ answer3.Values = [{ Value := v3 }] ∧
      answer3.DocumentStatus = ActiveDocumentStatus ∧ answer3.UID ≠ answer1.UID := by
  obtain ⟨ha1, hv1, hd1, hi1, ht1⟩ := mongo_CreateAnswer_ok_inv o es w w1 _ _ h1
  -- the collection is still without duplicates after the first create
  have hpw1 : w1.answers.client.docs.Pairwise
      (fun x y => ¬ (x.Key = y.Key ∧ x.DocumentStatus = y.DocumentStatus)) := by
    rw [hd1, List.pairwise_append]
    refine ⟨hidx.2, List.pairwise_singleton _ _, ?_⟩
    intro x hx y hy hc
    rw [List.mem_singleton] at hy
    subst hy
    rw [hidx.1, Bool.eq_false_iff] at hv1
    exact hv1 ((mongo.violatesUnique_keyIndex _ _).mpr ⟨x, hx, hc.1, hc.2⟩)
  obtain ⟨d, pre, post, -, hk, hst, hpre, hl, hd2, hi2, ht2, -⟩ :=
    mongo_DeleteAnswer_ok_inv o es w1 w2 k h2
  have hno2 : w2.answers.NoActive k := by
    intro x hx
    rw [hd2] at hx
    rw [hl] at hpw1
    exact mongo_noActive_after_delete k pre post d _ hk hst rfl hpre hpw1 x hx
  have hidx2 : w2.answers.client.indexes = [mongo.keyIndex] := by
    rw [hi2, hi1]; exact hidx.1
  obtain ⟨w3, -, -, h3, -⟩ := services.CreateAnswer_ok_spec (mongoAnswerService o es) o
    { Key := k, Value := v3 } w2 _ (mongo_Create_fresh o w2.answers w2.tick _ hidx2 hno2)
  refine ⟨_, w3, h3, rfl, rfl, rfl, ?_⟩
  rw [ha1]
  intro hc
  have := huid hc
  omega

theorem C7_recreate_after_delete_witness :
    exampleWorld.answers.Indexed ∧ Function.Injective exampleOracle.NewString ∧
    (exampleService none).CreateAnswer exampleOracle { Key := "k1", Value := "a" } exampleWorld =
      (.ok (createdAnswer exampleOracle 0 { Key := "k1", Value := "a" }), exampleAfterCreate) ∧
    (exampleService none).DeleteAnswer exampleOracle "k1" exampleAfterCreate =
      (none, exampleAfterDelete) ∧
    ∃ answer3 w3,
      (exampleService none).CreateAnswer exampleOracle { Key := "k1", Value := "c" }
        exampleAfterDelete = (.ok answer3, w3) ∧
      answer3.Key = "k1" ∧ answer3.Values = [{ Value := "c" }] ∧
      answer3.DocumentStatus = ActiveDocumentStatus ∧
      answer3.UID ≠ (createdAnswer exampleOracle 0 { Key := "k1", Value := "a" }).UID :=
  ⟨by decide, exampleOracle_NewString_injective, rfl, rfl,
    C7_recreate_after_delete exampleOracle (exampleService none).eventService exampleWorld
      exampleAfterCreate exampleAfterDelete "k1" "a" "c" _ (by decide)
      exampleOracle_NewString_injective rfl rfl⟩

/-- C8, the code at the failing input: on the start-up database, create and
delete of "k1" succeed, the second create of "k1" succeeds, and the second
delete fails with the `ServiceError` of code 500 around the duplicate key
error of the server, leaving the second answer Active next to the Deleted
first one. -/
theorem C8_second_delete_is_rejected :
    ((exampleService none).CreateAnswer exampleOracle { Key := "k1", Value := "a" }
      exampleWorld).1 = .ok (createdAnswer exampleOracle 0 { Key := "k1", Value := "a" }) ∧
    ((exampleService none).DeleteAnswer exampleOracle "k1" exampleAfterCreate).1 = none ∧
    ((exampleService none).CreateAnswer exampleOracle { Key := "k1", Value := "c" }
      exampleAfterDelete).1 =
        .ok (createdAnswer exampleOracle 12 { Key := "k1", Value := "c" }) ∧
    ((exampleService none).DeleteAnswer exampleOracle "k1" exampleAfterRecreate).1 =
      some (util.NewServiceError 500 mongo.duplicateKeyError) ∧
    ((exampleService none).DeleteAnswer exampleOracle "k1"
      exampleAfterRecreate).2.answers.client.docs.map (fun d => (d.Key, d.DocumentStatus)) =
        [("k1", "Deleted"), ("k1", "Active")] := by
  refine ⟨rfl, rfl, rfl, rfl, rfl⟩

/-- C10: for a snapshot with non-empty values, `CreateEvent` hands the Event
Store an event with the type asked for, the key of the snapshot, the last
value of the snapshot, status Active, a non-empty uid and no deletion time.
When the store accepts it, that event is returned without an error. When the
store fails with `err`, no event is returned and the error is the
`ServiceError` of code 500 with the message of `err`. -/
theorem C10_CreateEvent_contract {σ τ : Type} (e : services.EventService σ τ) (o : Oracle)
    (answerEvent : AnswerEvent) (w : World σ τ) (hne : answerEvent.Answer.Values ≠ [])
    (huid : ∀ n, o.NewString n ≠ "") :
    ∃ event : Event,
      event.Type_ = answerEvent.Type_ ∧ event.Data.Key = answerEvent.Answer.Key ∧
      event.Data.Value = (answerEvent.Answer.Values.getLast hne).Value ∧
      event.DocumentStatus = ActiveDocumentStatus ∧ event.UID ≠ "" ∧ event.DeletedAt = 0 ∧
      eventCreates (e.CreateEvent o answerEvent w).2.trace = eventCreates w.trace ++ [event] ∧
      ((e.eventRepo.Create event w.events).1 = none →
        (e.CreateEvent o answerEvent w).1 = Go.ret (.ok event)) ∧
      (∀ err, (e.eventRepo.Create event w.events).1 = some err →
        (e.CreateEvent o answerEvent w).1 = Go.ret (.error (util.NewServiceError 500 err)) ∧
        (util.NewServiceError 500 err).ErrCode = some 500 ∧
        (util.NewServiceError 500 err).Error = err.Error) := by
  have hlast : answerEvent.Answer.Values.getLast? =
      some (answerEvent.Answer.Values.getLast hne) := List.getLast?_eq_getLast _ hne
  refine ⟨{ ID := o.NewObjectID w.tick, UID := o.NewString (w.tick + 1),
            Type_ := answerEvent.Type_,
            Data := { Key := answerEvent.Answer.Key
                      Value := (answerEvent.Answer.Values.getLast hne).Value },
            CreatedAt := o.Now (w.tick + 2), UpdatedAt := o.Now (w.tick + 3), DeletedAt := 0,
            DocumentStatus := ActiveDocumentStatus },
    rfl, rfl, rfl, rfl, huid _, rfl, ?_, ?_, ?_⟩
  · cases hr : (e.eventRepo.Create
        { ID := o.NewObjectID w.tick, UID := o.NewString (w.tick + 1),
          Type_ := answerEvent.Type_,
          Data := { Key := answerEvent.Answer.Key
                    Value := (answerEvent.Answer.Values.getLast hne).Value },
          CreatedAt := o.Now (w.tick + 2), UpdatedAt := o.Now (w.tick + 3), DeletedAt := 0,
          DocumentStatus := ActiveDocumentStatus } w.events).1 <;>
      simp [services.EventService.CreateEvent, hlast, hr, eventCreates_append, eventCreates]
  · intro h
    simp [services.EventService.CreateEvent, hlast, h]
  · intro err h
    refine ⟨?_, rfl, rfl⟩
    simp [services.EventService.CreateEvent, hlast, h, http.StatusInternalServerError]

theorem C10_CreateEvent_contract_witness :
    (createdAnswer exampleOracle 0 { Key := "k1", Value := "a" }).Values ≠ [] ∧
    (∀ n, exampleOracle.NewString n ≠ "") ∧
    ∃ event : Event,
      event.Type_ = "update" ∧ event.Data.Key = "k1" ∧ event.Data.Value = "a" ∧
      event.DocumentStatus = ActiveDocumentStatus ∧ event.UID ≠ "" ∧ event.DeletedAt = 0 ∧
      eventCreates ((exampleService none).eventService.CreateEvent exampleOracle
        { Answer := createdAnswer exampleOracle 0 { Key := "k1", Value := "a" }
          Type_ := "update" } exampleWorld).2.trace = eventCreates exampleWorld.trace ++ [event] ∧
      (((exampleService none).eventService.eventRepo.Create event exampleWorld.events).1 = none →
        ((exampleService none).eventService.CreateEvent exampleOracle
          { Answer := createdAnswer exampleOracle 0 { Key := "k1", Value := "a" }
            Type_ := "update" } exampleWorld).1 = Go.ret (.ok event)) ∧
      (∀ err,
        ((exampleService none).eventService.eventRepo.Create event exampleWorld.events).1 =
          some err →
        ((exampleService none).eventService.CreateEvent exampleOracle
          { Answer := createdAnswer exampleOracle 0 { Key := "k1", Value := "a" }
            Type_ := "update" } exampleWorld).1 =
          Go.ret (.error (util.NewServiceError 500 err)) ∧
        (util.NewServiceError 500 err).ErrCode = some 500 ∧
        (util.NewServiceError 500 err).Error = err.Error) :=
  ⟨by decide, exampleOracle_NewString_ne,
    C10_CreateEvent_contract (exampleService none).eventService exampleOracle
      { Answer := createdAnswer exampleOracle 0 { Key := "k1", Value := "a" }
        Type_ := "update" } exampleWorld (by decide) exampleOracle_NewString_ne⟩

namespace services

variable {σ τ : Type}

/-- A mutation that returns an error has handed nothing to the Event Store. -/
theorem CreateAnswer_error_no_event (a : AnswerService σ τ) (o : Oracle)
    (req : datastore.CreateAnswer) (w w1 : World σ τ) (err : GoError)
    (h : a.CreateAnswer o req w = (.error err, w1)) :
    eventCreates w1.trace = eventCreates w.trace := by
  rcases hr : a.answerRepo.Create (createdAnswer o w.tick req) w.answers with ⟨x, s1⟩
  cases x with
  | none =>
    obtain ⟨w1', -, -, h', -⟩ := CreateAnswer_ok_spec a o req w s1 hr
    rw [h] at h'
    cases h'
  | some e =>
    obtain ⟨w1', h', -, -, ht⟩ := CreateAnswer_err_spec a o req w e s1 hr
    rw [h] at h'
    cases h'
    rw [ht]
    simp [eventCreates_append, eventCreates]

theorem UpdateAnswer_error_no_event (a : AnswerService σ τ) (o : Oracle) (key : String)
    (req : datastore.UpdateAnswer) (w w1 : World σ τ) (err : GoError)
    (h : a.UpdateAnswer o key req w = (.error err, w1)) :
    eventCreates w1.trace = eventCreates w.trace := by
  rcases hf : a.answerRepo.FindByKey key w.answers with ⟨x, s1⟩
  cases x with
  | error e =>
    have h' := UpdateAnswer_notFound_spec a o key req w e s1 hf
    rw [h] at h'
    cases h'
    simp [eventCreates_append, eventCreates]
  | ok answer =>
    rcases hu : a.answerRepo.Update answer { Value := req.Value } s1 with ⟨y, s2⟩
    cases y with
    | error e =>
      have h' := UpdateAnswer_err_spec a o key req w answer e s1 s2 hf hu
      rw [h] at h'
      cases h'
      simp [eventCreates_append, eventCreates]
    | ok answer1 =>
      have h' := UpdateAnswer_ok_spec a o key req w answer answer1 s1 s2 hf hu
      rw [h] at h'
      cases h'

theorem DeleteAnswer_error_no_event (a : AnswerService σ τ) (o : Oracle) (key : String)
    (w w1 : World σ τ) (err : GoError) (h : a.DeleteAnswer o key w = (some err, w1)) :
    eventCreates w1.trace = eventCreates w.trace := by
  rcases hf : a.answerRepo.FindByKey key w.answers with ⟨x, s1⟩
  cases x with
  | error e =>
    have h' := DeleteAnswer_notFound_spec a o key w e s1 hf
    rw [h] at h'
    cases h'
    simp [eventCreates_append, eventCreates]
  | ok answer =>
    rcases hd : a.answerRepo.Delete answer s1 with ⟨y, s2⟩
    cases y with
    | some e =>
      have h' := DeleteAnswer_err_spec a o key w answer e s1 s2 hf hd
      rw [h] at h'
      cases h'
      simp [eventCreates_append, eventCreates]
    | none =>
      have h' := DeleteAnswer_ok_spec a o key w answer s1 s2 hf hd
      rw [h] at h'
      cases h'

/-- The events that reached the Event Store when `broadcastEvent` ran on a
snapshot with a last value: exactly one more, built from the snapshot. -/
theorem broadcastEvent_eventCreates (a : AnswerService σ τ) (o : Oracle) (answer : Answer)
    (eventType : EventType) (w : World σ τ) (last : Value)
    (h : answer.Values.getLast? = some last) :
    ∃ ev : Event, ev.Type_ = eventType ∧
      ev.Data = { Key := answer.Key, Value := last.Value } ∧
      eventCreates (a.broadcastEvent o answer eventType w).trace =
        eventCreates w.trace ++ [ev] := by
  obtain ⟨ev, logs, ht, hd, hl, -, heq⟩ := broadcastEvent_of_last a o answer eventType w last h
  refine ⟨ev, ht, hd, ?_⟩
  rw [heq]
  simp [eventCreates_append, eventCreates, hl]

end services

/-- A successful `UpdateAnswer` on the Mongo repository returns the first
Active answer of the key with the new value pushed onto its values. -/
theorem mongo_UpdateAnswer_ok_inv {τ : Type} (o : Oracle)
    (es : services.EventService mongo.AnswerRepo τ) (w w1 : World mongo.AnswerRepo τ)
    (k : String) (req : datastore.UpdateAnswer) (answer : Answer)
    (h : (mongoAnswerService o es).UpdateAnswer o k req w = (.ok answer, w1)) :
    ∃ d pre post,
      mongo.AnswerRepo.FindByKey w.answers k = (.ok d, w.answers) ∧
      d.Key = k ∧ d.DocumentStatus = ActiveDocumentStatus ∧
      w.answers.client.docs = pre ++ d :: post ∧
      answer = { d with Values := d.Values ++ [{ Value := req.Value }]
                        UpdatedAt := o.Now w.answers.clock } ∧
      w1.answers.client.docs = pre ++ answer :: post ∧
      w1.answers.client.indexes = w.answers.client.indexes ∧
      w1 = (mongoAnswerService o es).broadcastEvent o answer datastore.UpdateEvent
        { w with
          answers :=
            { client := { docs := pre ++ answer :: post, indexes := w.answers.client.indexes }
              clock := w.answers.clock + 1 }
          trace := w.trace ++
            [Call.answerFindByKey k, Call.answerUpdate d { Value := req.Value }] } := by
  rcases mongo.AnswerRepo.FindByKey_cases w.answers k with
    ⟨hf, -⟩ | ⟨d, pre, post, hf, hl, hs, hk, hst, -⟩
  · have h' := services.UpdateAnswer_notFound_spec (mongoAnswerService o es) o k req w _ _ hf
    rw [h] at h'
    cases h'
  · subst hk
    rcases mongo.AnswerRepo.Update_cases o w.answers d { Value := req.Value } pre post hs with
      ⟨-, hu⟩ | ⟨-, hu⟩
    · have h' := services.UpdateAnswer_err_spec (mongoAnswerService o es) o d.Key req w _ _ _ _
        hf hu
      rw [h] at h'
      cases h'
    · have h' := services.UpdateAnswer_ok_spec (mongoAnswerService o es) o d.Key req w _ _ _ _
        hf hu
      rw [h] at h'
      injection h' with ha hw
      injection ha with ha
      subst ha
      refine ⟨d, pre, post, hf, rfl, hst, hl, rfl, ?_, ?_, hw⟩
      · rw [hw, (services.broadcastEvent_frame _ _ _ _ _).1]
      · rw [hw, (services.broadcastEvent_frame _ _ _ _ _).1]

/-- C9: with the detached emission run to completion, on the Mongo answer
repository and any event repository. A successful `CreateAnswer` hands the
Event Store exactly one event, of type `create`, with data `{key, value}` of
the request. A successful `UpdateAnswer` hands it exactly one event, of type
`update`, with data `{key, new value}`. A successful `DeleteAnswer` on a store
whose answers all hold a value hands it exactly one event, of type `delete`,
with the key and the last value of the answer that was Active before the
deletion. A mutation that returns an error hands the Event Store nothing. -/
theorem C9_one_event_per_mutation {τ : Type} (o : Oracle)
    (es : services.EventService mongo.AnswerRepo τ) (w : World mongo.AnswerRepo τ) :
    (∀ req answer w1, (mongoAnswerService o es).CreateAnswer o req w = (.ok answer, w1) →
      ∃ ev : Event, eventCreates w1.trace = eventCreates w.trace ++ [ev] ∧
        ev.Type_ = datastore.CreateEvent ∧ ev.Data = { Key := req.Key, Value := req.Value }) ∧
    (∀ key req answer w1,
      (mongoAnswerService o es).UpdateAnswer o key req w = (.ok answer, w1) →
      ∃ ev : Event, eventCreates w1.trace = eventCreates w.trace ++ [ev] ∧
        ev.Type_ = datastore.UpdateEvent ∧ ev.Data = { Key := key, Value := req.Value }) ∧
    (∀ key w1, w.answers.ValuesNonempty →
      (mongoAnswerService o es).DeleteAnswer o key w = (none, w1) →
      ∃ (ev : Event) (d : Answer) (last : Value),
        mongo.AnswerRepo.FindByKey w.answers key = (.ok d, w.answers) ∧
        d.Values.getLast? = some last ∧
        eventCreates w1.trace = eventCreates w.trace ++ [ev] ∧
        ev.Type_ = datastore.DeleteEvent ∧ ev.Data = { Key := key, Value := last.Value }) ∧
    (∀ req err w1, (mongoAnswerService o es).CreateAnswer o req w = (.error err, w1) →
      eventCreates w1.trace = eventCreates w.trace) ∧
    (∀ key req err w1, (mongoAnswerService o es).UpdateAnswer o key req w = (.error err, w1) →
      eventCreates w1.trace = eventCreates w.trace) ∧
    (∀ key err w1, (mongoAnswerService o es).DeleteAnswer o key w = (some err, w1) →
      eventCreates w1.trace = eventCreates w.trace) := by
  refine ⟨?_, ?_, ?_, ?_, ?_, ?_⟩
  · intro req answer w1 h
    rcases hr : (mongoAnswerService o es).answerRepo.Create (createdAnswer o w.tick req)
      w.answers with ⟨x, s1⟩
    cases x with
    | none =>
      obtain ⟨w1', ev, logs, h', -, -, -, ht, hd, hl, -, htr⟩ :=
        services.CreateAnswer_ok_spec (mongoAnswerService o es) o req w s1 hr
      rw [h] at h'
      cases h'
      refine ⟨ev, ?_, ht, hd⟩
      rw [htr]
      simp [eventCreates_append, eventCreates, hl]
    | some e =>
      obtain ⟨w1', h', -⟩ := services.CreateAnswer_err_spec (mongoAnswerService o es) o req w
        e s1 hr
      rw [h] at h'
      cases h'
  · intro key req answer w1 h
    obtain ⟨d, pre, post, -, hk, -, -, ha, -, -, hw⟩ :=
      mongo_UpdateAnswer_ok_inv o es w w1 key req answer h
    have hlast : answer.Values.getLast? = some { Value := req.Value } := by
      rw [ha]; simp
    obtain ⟨ev, ht, hd, he⟩ := services.broadcastEvent_eventCreates (mongoAnswerService o es) o
      answer datastore.UpdateEvent
      { w with
        answers :=
          { client := { docs := pre ++ answer :: post, indexes := w.answers.client.indexes }
            clock := w.answers.clock + 1 }
        trace := w.trace ++
          [Call.answerFindByKey key, Call.answerUpdate d { Value := req.Value }] }
      _ hlast
    refine ⟨ev, ?_, ht, ?_⟩
    · rw [hw, he]
      simp [eventCreates_append, eventCreates]
    · rw [hd, ha]
      simp [hk]
  · intro key w1 hval h
    obtain ⟨d, pre, post, hf, hk, -, -, hl, -, -, -, hw⟩ :=
      mongo_DeleteAnswer_ok_inv o es w w1 key h
    have hdne : d.Values ≠ [] := hval d (by rw [hl]; simp)
    have hlast : d.Values.getLast? = some (d.Values.getLast hdne) :=
      List.getLast?_eq_getLast _ hdne
    obtain ⟨ev, ht, hd, he⟩ := services.broadcastEvent_eventCreates (mongoAnswerService o es) o
      d datastore.DeleteEvent
      { w with
        answers :=
          { client :=
              { docs := pre ++
                  { d with DocumentStatus := DeletedDocumentStatus
                           DeletedAt := o.Now w.answers.clock } :: post
                indexes := w.answers.client.indexes }
            clock := w.answers.clock + 1 }
        trace := w.trace ++ [Call.answerFindByKey key, Call.answerDelete d] }
      _ hlast
    refine ⟨ev, d, _, hf, hlast, ?_, ht, ?_⟩
    · rw [hw, he]
      simp [eventCreates_append, eventCreates]
    · rw [hd, hk]
  · intro req err w1 h
    exact services.CreateAnswer_error_no_event _ o req w w1 err h
  · intro key req err w1 h
    exact services.UpdateAnswer_error_no_event _ o key req w w1 err h
  · intro key err w1 h
    exact services.DeleteAnswer_error_no_event _ o key w w1 err h

theorem C9_one_event_per_mutation_witness :
    exampleAfterCreate.answers.ValuesNonempty ∧
    (exampleService none).DeleteAnswer exampleOracle "k1" exampleAfterCreate =
      (none, exampleAfterDelete) ∧
    ∃ (ev : Event) (d : Answer) (last : Value),
      mongo.AnswerRepo.FindByKey exampleAfterCreate.answers "k1" =
        (.ok d, exampleAfterCreate.answers) ∧
      d.Values.getLast? = some last ∧
      eventCreates exampleAfterDelete.trace = eventCreates exampleAfterCreate.trace ++ [ev] ∧
      ev.Type_ = datastore.DeleteEvent ∧ ev.Data = { Key := "k1", Value := last.Value } :=
  ⟨by decide, rfl,
    (C9_one_event_per_mutation exampleOracle (exampleService none).eventService
      exampleAfterCreate).2.2.1 "k1" exampleAfterDelete (by decide) rfl⟩

/-! ### The store states of the theorems are the reachable ones -/

namespace mongo

theorem pairwise_replace_mid {α : Type} (R : α → α → Prop) (pre post : List α) (d d1 : α)
    (h : (pre ++ d :: post).Pairwise R) (h1 : ∀ x ∈ pre, R x d1) (h2 : ∀ y ∈ post, R d1 y) :
    (pre ++ d1 :: post).Pairwise R := by
  rw [List.pairwise_append] at h ⊢
  obtain ⟨hp, hdp, hx⟩ := h
  rw [List.pairwise_cons] at hdp
  refine ⟨hp, List.pairwise_cons.mpr ⟨h2, hdp.2⟩, ?_⟩
  intro x hxm y hy
  rcases List.mem_cons.mp hy with rfl | hy
  · exact h1 x hxm
  · exact hx x hxm y (List.mem_cons_of_mem _ hy)

/-- When `createUniqueIndex(AnswerCollection, "key")` reports success on a
collection without indexes, the key index is the only index and no two
answers share key and status. -/
theorem createUniqueIndex_indexed (c : Client) (h0 : c.AnswerRepo.client.indexes = [])
    (h : (c.createUniqueIndex AnswerCollection "key").1 = true) :
    (c.createUniqueIndex AnswerCollection "key").2.AnswerRepo.Indexed := by
  by_cases hn : (c.AnswerRepo.client.docs.map (fun d => keyIndex.keyOf d)).Nodup
  · have hc : c.createUniqueIndex AnswerCollection "key" =
        (true, { c with AnswerRepo := { c.AnswerRepo with
          client := { c.AnswerRepo.client with indexes := [keyIndex] } } }) := by
      simp [Client.createUniqueIndex, Collection.CreateOne, h0, keyIndex] at hn ⊢
      simp [hn]
    rw [hc]
    refine ⟨rfl, ?_⟩
    have hp := List.pairwise_map.mp hn
    exact hp.imp (fun {x y} hxy hc => hxy ((keyIndex_keyOf_eq x y).mpr hc))
  · exfalso
    have hc : (c.createUniqueIndex AnswerCollection "key").1 = false := by
      simp [Client.createUniqueIndex, Collection.CreateOne, h0, keyIndex] at hn ⊢
      simp [hn]
    rw [hc] at h
    cases h

/-- `Create` keeps the index state. -/
theorem AnswerRepo.Create_indexed (a : AnswerRepo) (answer : Answer) (h : a.Indexed) :
    (a.Create answer).2.Indexed := by
  rcases AnswerRepo.Create_cases a answer with ⟨hv, hc⟩ | ⟨-, hc⟩
  · rw [hc]
    refine ⟨h.1, ?_⟩
    show (a.client.docs ++ [answer]).Pairwise _
    rw [List.pairwise_append]
    refine ⟨h.2, List.pairwise_singleton _ _, ?_⟩
    intro x hx y hy hxy
    rw [List.mem_singleton] at hy
    subst hy
    rw [h.1, Bool.eq_false_iff] at hv
    exact hv ((violatesUnique_keyIndex _ _).mpr ⟨x, hx, hxy.1, hxy.2⟩)
  · rw [hc]; exact h

/-- `Update` keeps the index state. -/
theorem AnswerRepo.Update_indexed (o : Oracle) (a : AnswerRepo) (answer : Answer)
    (value : Value) (h : a.Indexed) : (AnswerRepo.Update o a answer value).2.Indexed := by
  cases hs : splitAtFirst (fun x => (activeKeyFilter answer.Key).holds x) a.client.docs with
  | none =>
    have : (AnswerRepo.Update o a answer value).2 = { client := a.client, clock := a.clock + 1 } := by
      have hf := find?_eq_none_of_splitAtFirst _ _ hs
      simp [AnswerRepo.Update, Collection.UpdateOne, hs, AnswerRepo.FindByKey,
        Collection.FindOne, hf, errorsIs]
    rw [this]; exact h
  | some t =>
    obtain ⟨pre, d, post⟩ := t
    obtain ⟨hl, hd, -⟩ := splitAtFirst_some _ _ _ _ _ hs
    have hk := ((activeKeyFilter_holds _ _).mp hd).1
    rw [← hk] at hs
    rcases AnswerRepo.Update_cases o a d value pre post hs with ⟨-, hu⟩ | ⟨-, hu⟩
    · have : AnswerRepo.Update o a answer value = AnswerRepo.Update o a d value := by
        simp [AnswerRepo.Update, hk]
      rw [this, hu]; exact h
    · have : AnswerRepo.Update o a answer value = AnswerRepo.Update o a d value := by
        simp [AnswerRepo.Update, hk]
      rw [this, hu]
      refine ⟨h.1, ?_⟩
      have hp := h.2
      rw [hl, List.pairwise_append] at hp
      apply pairwise_replace_mid _ pre post d _ (by rw [← hl]; exact h.2)
      · intro x hx; exact hp.2.2 x hx d (List.mem_cons_self _ _)
      · intro y hy; exact (List.pairwise_cons.mp hp.2.1).1 y hy

/-- `Delete` keeps the index state. -/
theorem AnswerRepo.Delete_indexed (o : Oracle) (a : AnswerRepo) (answer : Answer)
    (h : a.Indexed) : (AnswerRepo.Delete o a answer).2.Indexed := by
  cases hs : splitAtFirst (fun x => (activeKeyFilter answer.Key).holds x) a.client.docs with
  | none =>
    have : (AnswerRepo.Delete o a answer).2 = { client := a.client, clock := a.clock + 1 } := by
      simp [AnswerRepo.Delete, Collection.UpdateOne, hs]
    rw [this]; exact h
  | some t =>
    obtain ⟨pre, d, post⟩ := t
    obtain ⟨hl, hd, -⟩ := splitAtFirst_some _ _ _ _ _ hs
    have hk := ((activeKeyFilter_holds _ _).mp hd).1
    have heq : AnswerRepo.Delete o a answer = AnswerRepo.Delete o a d := by
      simp [AnswerRepo.Delete, hk]
    rw [← hk] at hs
    rcases AnswerRepo.Delete_cases o a d pre post hs with ⟨-, hu⟩ | ⟨hv, hu⟩
    · rw [heq, hu]; exact h
    · rw [heq, hu]
      refine ⟨h.1, ?_⟩
      rw [h.1, Bool.eq_false_iff] at hv
      have hno : ∀ x ∈ pre ++ post, ¬ (x.Key = d.Key ∧
          x.DocumentStatus = DeletedDocumentStatus) := fun x hx hc =>
        hv ((violatesUnique_keyIndex _ _).mpr ⟨x, hx, hc.1, hc.2⟩)
      apply pairwise_replace_mid _ pre post d _ (by rw [← hl]; exact h.2)
      · intro x hx; exact hno x (List.mem_append_left _ hx)
      · intro y hy hc
        exact hno y (List.mem_append_right _ hy) ⟨hc.1.symm, hc.2.symm⟩

/-- `Update` and `Delete` keep every stored answer with a value. -/
theorem AnswerRepo.Update_valuesNonempty (o : Oracle) (a : AnswerRepo) (answer : Answer)
    (value : Value) (h : a.ValuesNonempty) :
    (AnswerRepo.Update o a answer value).2.ValuesNonempty := by
  cases hs : splitAtFirst (fun x => (activeKeyFilter answer.Key).holds x) a.client.docs with
  | none =>
    have : (AnswerRepo.Update o a answer value).2 = { client := a.client, clock := a.clock + 1 } := by
      have hf := find?_eq_none_of_splitAtFirst _ _ hs
      simp [AnswerRepo.Update, Collection.UpdateOne, hs, AnswerRepo.FindByKey,
        Collection.FindOne, hf, errorsIs]
    rw [this]; exact h
  | some t =>
    obtain ⟨pre, d, post⟩ := t
    obtain ⟨hl, hd, -⟩ := splitAtFirst_some _ _ _ _ _ hs
    have hk := ((activeKeyFilter_holds _ _).mp hd).1
    have heq : AnswerRepo.Update o a answer value = AnswerRepo.Update o a d value := by
      simp [AnswerRepo.Update, hk]
    rw [← hk] at hs
    rcases AnswerRepo.Update_cases o a d value pre post hs with ⟨-, hu⟩ | ⟨-, hu⟩
    · rw [heq, hu]; exact h
    · rw [heq, hu]
      intro x hx
      rcases List.mem_append.mp hx with hx | hx
      · exact h x (by rw [hl]; exact List.mem_append_left _ hx)
      · rcases List.mem_cons.mp hx with rfl | hx
        · simp
        · exact h x (by rw [hl]; exact List.mem_append_right _ (List.mem_cons_of_mem _ hx))

theorem AnswerRepo.Delete_valuesNonempty (o : Oracle) (a : AnswerRepo) (answer : Answer)
    (h : a.ValuesNonempty) : (AnswerRepo.Delete o a answer).2.ValuesNonempty := by
  cases hs : splitAtFirst (fun x => (activeKeyFilter answer.Key).holds x) a.client.docs with
  | none =>
    have : (AnswerRepo.Delete o a answer).2 = { client := a.client, clock := a.clock + 1 } := by
      simp [AnswerRepo.Delete, Collection.UpdateOne, hs]
    rw [this]; exact h
  | some t =>
    obtain ⟨pre, d, post⟩ := t
    obtain ⟨hl, hd, -⟩ := splitAtFirst_some _ _ _ _ _ hs
    have hk := ((activeKeyFilter_holds _ _).mp hd).1
    have heq : AnswerRepo.Delete o a answer = AnswerRepo.Delete o a d := by
      simp [AnswerRepo.Delete, hk]
    rw [← hk] at hs
    rcases AnswerRepo.Delete_cases o a d pre post hs with ⟨-, hu⟩ | ⟨-, hu⟩
    · rw [heq, hu]; exact h
    · rw [heq, hu]
      intro x hx
      rcases List.mem_append.mp hx with hx | hx
      · exact h x (by rw [hl]; exact List.mem_append_left _ hx)
      · rcases List.mem_cons.mp hx with rfl | hx
        · exact h d (by rw [hl]; simp)
        · exact h x (by rw [hl]; exact List.mem_append_right _ (List.mem_cons_of_mem _ hx))

/-- `Create` of an answer with a value keeps every stored answer with a value. -/
theorem AnswerRepo.Create_valuesNonempty (a : AnswerRepo) (answer : Answer)
    (hne : answer.Values ≠ []) (h : a.ValuesNonempty) :
    (a.Create answer).2.ValuesNonempty := by
  rcases AnswerRepo.Create_cases a answer with ⟨-, hc⟩ | ⟨-, hc⟩
  · rw [hc]
    intro x hx
    rcases List.mem_append.mp hx with hx | hx
    · exact h x hx
    · rw [List.mem_singleton.mp hx]; exact hne
  · rw [hc]; exact h

end mongo

/-- The general form of the failure behind C8: with the key index in place, an
Active answer of a key cannot be deleted while a Deleted answer of the same
key is stored; `DeleteAnswer` returns the `ServiceError` of code 500 and the
stored answers stay as they were. -/
theorem mongo_DeleteAnswer_blocked {τ : Type} (o : Oracle)
    (es : services.EventService mongo.AnswerRepo τ) (w : World mongo.AnswerRepo τ) (k : String)
    (hidx : w.answers.client.indexes = [mongo.keyIndex])
    (hact : ∃ d ∈ w.answers.client.docs, d.Key = k ∧ d.DocumentStatus = ActiveDocumentStatus)
    (hdel : ∃ x ∈ w.answers.client.docs,
      x.Key = k ∧ x.DocumentStatus = DeletedDocumentStatus) :
    ∃ w1,
      (mongoAnswerService o es).DeleteAnswer o k w =
        (some (util.NewServiceError 500 mongo.duplicateKeyError), w1) ∧
      w1.answers.client.docs = w.answers.client.docs ∧
      eventCreates w1.trace = eventCreates w.trace := by
  rcases mongo.AnswerRepo.FindByKey_cases w.answers k with
    ⟨-, hno⟩ | ⟨d, pre, post, hf, hl, hs, hk, hst, -⟩
  · obtain ⟨d, hd, hkd⟩ := hact
    exact absurd hkd (hno d hd)
  · subst hk
    rcases mongo.AnswerRepo.Delete_cases o w.answers d pre post hs with ⟨-, hd⟩ | ⟨hv, hd⟩
    · have h := services.DeleteAnswer_err_spec (mongoAnswerService o es) o d.Key w _ _ _ _
        hf hd
      refine ⟨_, h, rfl, ?_⟩
      simp [eventCreates_append, eventCreates]
    · exfalso
      rw [hidx, Bool.eq_false_iff] at hv
      apply hv
      rw [mongo.violatesUnique_keyIndex]
      obtain ⟨x, hx, hkx, hsx⟩ := hdel
      rw [hl] at hx
      have hxd : x ≠ d := by
        intro hc
        rw [hc, hst] at hsx
        exact absurd hsx (by decide)
      refine ⟨x, ?_, hkx, hsx⟩
      rcases List.mem_append.mp hx with hx | hx
      · exact List.mem_append_left _ hx
      · rcases List.mem_cons.mp hx with hx | hx
        · exact absurd hx hxd
        · exact List.mem_append_right _ hx

/-! ### Mutations seen from the Value Store -/

namespace services

variable {σ τ : Type}

/-- The result of `CreateAnswer` and the Value Store after it are fixed by the
Value Store, the request and the oracle. -/
theorem CreateAnswer_view (a : AnswerService σ τ) (o : Oracle) (req : datastore.CreateAnswer)
    (w : World σ τ) :
    (a.CreateAnswer o req w).1 =
      (match (a.answerRepo.Create (createdAnswer o w.tick req) w.answers).1 with
        | none => .ok (createdAnswer o w.tick req)
        | some err => .error (util.NewServiceError
            (if errorsIs err GoError.ErrDuplicateKey then http.StatusForbidden
              else http.StatusInternalServerError) err)) ∧
    (a.CreateAnswer o req w).2.answers =
      (a.answerRepo.Create (createdAnswer o w.tick req) w.answers).2 := by
  rcases hr : a.answerRepo.Create (createdAnswer o w.tick req) w.answers with ⟨x, s1⟩
  cases x with
  | none =>
    obtain ⟨w1, -, -, h, ha, -⟩ := CreateAnswer_ok_spec a o req w s1 hr
    rw [h]; exact ⟨rfl, ha⟩
  | some err =>
    obtain ⟨w1, h, ha, -⟩ := CreateAnswer_err_spec a o req w err s1 hr
    rw [h]; exact ⟨rfl, ha⟩

/-- The result of `UpdateAnswer` and the Value Store after it are fixed by the
Value Store, the key and the request. -/
theorem UpdateAnswer_view (a : AnswerService σ τ) (o : Oracle) (key : String)
    (req : datastore.UpdateAnswer) (w : World σ τ) :
    (a.UpdateAnswer o key req w).1 =
      (match (a.answerRepo.FindByKey key w.answers).1 with
        | .error err => .error (util.NewServiceError
            (if errorsIs err GoError.ErrAnswerNotFound then http.StatusNotFound
              else http.StatusInternalServerError) err)
        | .ok answer =>
          match (a.answerRepo.Update answer { Value := req.Value }
              (a.answerRepo.FindByKey key w.answers).2).1 with
          | .error err => .error (util.NewServiceError http.StatusInternalServerError err)
          | .ok answer1 => .ok answer1) ∧
    (a.UpdateAnswer o key req w).2.answers =
      (match (a.answerRepo.FindByKey key w.answers).1 with
        | .error _ => (a.answerRepo.FindByKey key w.answers).2
        | .ok answer =>
          (a.answerRepo.Update answer { Value := req.Value }
            (a.answerRepo.FindByKey key w.answers).2).2) := by
  rcases hf : a.answerRepo.FindByKey key w.answers with ⟨x, s1⟩
  cases x with
  | error err =>
    rw [UpdateAnswer_notFound_spec a o key req w err s1 hf]
    exact ⟨rfl, rfl⟩
  | ok answer =>
    rcases hu : a.answerRepo.Update answer { Value := req.Value } s1 with ⟨y, s2⟩
    cases y with
    | error err =>
      rw [UpdateAnswer_err_spec a o key req w answer err s1 s2 hf hu]
      simp [hu]
    | ok answer1 =>
      rw [UpdateAnswer_ok_spec a o key req w answer answer1 s1 s2 hf hu]
      simp [hu, (broadcastEvent_frame _ _ _ _ _).1]

/-- The result of `DeleteAnswer` and the Value Store after it are fixed by the
Value Store and the key. -/
theorem DeleteAnswer_view (a : AnswerService σ τ) (o : Oracle) (key : String)
    (w : World σ τ) :
    (a.DeleteAnswer o key w).1 =
      (match (a.answerRepo.FindByKey key w.answers).1 with
        | .error err => some (util.NewServiceError
            (if errorsIs err GoError.ErrAnswerNotFound then http.StatusNotFound
              else http.StatusInternalServerError) err)
        | .ok answer =>
          match (a.answerRepo.Delete answer (a.answerRepo.FindByKey key w.answers).2).1 with
          | some err => some (util.NewServiceError http.StatusInternalServerError err)
          | none => none) ∧
    (a.DeleteAnswer o key w).2.answers =
      (match (a.answerRepo.FindByKey key w.answers).1 with
        | .error _ => (a.answerRepo.FindByKey key w.answers).2
        | .ok answer =>
          (a.answerRepo.Delete answer (a.answerRepo.FindByKey key w.answers).2).2) := by
  rcases hf : a.answerRepo.FindByKey key w.answers with ⟨x, s1⟩
  cases x with
  | error err =>
    rw [DeleteAnswer_notFound_spec a o key w err s1 hf]
    exact ⟨rfl, rfl⟩
  | ok answer =>
    rcases hd : a.answerRepo.Delete answer s1 with ⟨y, s2⟩
    cases y with
    | some err =>
      rw [DeleteAnswer_err_spec a o key w answer err s1 s2 hf hd]
      simp [hd]
    | none =>
      rw [DeleteAnswer_ok_spec a o key w answer s1 s2 hf hd]
      simp [hd, (broadcastEvent_frame _ _ _ _ _).1]

end services

/-- C11: the result of a mutation does not depend on the Event Store. Over
the same Value Store, in the same state and at the same point of the oracle,
two answer services with any two Event Stores in any states return the same
answer or error from `CreateAnswer`, `UpdateAnswer` and `DeleteAnswer` and
leave the Value Store in the same state. In particular `CreateAnswer` returns
the created answer whenever the Value Store's create succeeded, whatever the
Event Store's create returns. -/
theorem C11_result_independent_of_event_store {σ τ1 τ2 : Type} (repo : AnswerRepository σ)
    (er1 : EventRepository τ1) (er2 : EventRepository τ2) (o : Oracle) (s : σ) (tick : Nat)
    (e1 : τ1) (e2 : τ2) (tr1 tr2 : List Call) :
    (∀ req,
      ((services.NewAnswerService repo (services.NewEventService repo er1)).CreateAnswer o req
          ⟨s, e1, tick, tr1⟩).1 =
        ((services.NewAnswerService repo (services.NewEventService repo er2)).CreateAnswer o req
          ⟨s, e2, tick, tr2⟩).1 ∧
      ((services.NewAnswerService repo (services.NewEventService repo er1)).CreateAnswer o req
          ⟨s, e1, tick, tr1⟩).2.answers =
        ((services.NewAnswerService repo (services.NewEventService repo er2)).CreateAnswer o req
          ⟨s, e2, tick, tr2⟩).2.answers) ∧
    (∀ key req,
      ((services.NewAnswerService repo (services.NewEventService repo er1)).UpdateAnswer o key
          req ⟨s, e1, tick, tr1⟩).1 =
        ((services.NewAnswerService repo (services.NewEventService repo er2)).UpdateAnswer o key
          req ⟨s, e2, tick, tr2⟩).1 ∧
      ((services.NewAnswerService repo (services.NewEventService repo er1)).UpdateAnswer o key
          req ⟨s, e1, tick, tr1⟩).2.answers =
        ((services.NewAnswerService repo (services.NewEventService repo er2)).UpdateAnswer o key
          req ⟨s, e2, tick, tr2⟩).2.answers) ∧
    (∀ key,
      ((services.NewAnswerService repo (services.NewEventService repo er1)).DeleteAnswer o key
          ⟨s, e1, tick, tr1⟩).1 =
        ((services.NewAnswerService repo (services.NewEventService repo er2)).DeleteAnswer o key
          ⟨s, e2, tick, tr2⟩).1 ∧
      ((services.NewAnswerService repo (services.NewEventService repo er1)).DeleteAnswer o key
          ⟨s, e1, tick, tr1⟩).2.answers =
        ((services.NewAnswerService repo (services.NewEventService repo er2)).DeleteAnswer o key
          ⟨s, e2, tick, tr2⟩).2.answers) ∧
    (∀ req, (repo.Create (createdAnswer o tick req) s).1 = none →
      ((services.NewAnswerService repo (services.NewEventService repo er1)).CreateAnswer o req
          ⟨s, e1, tick, tr1⟩).1 = .ok (createdAnswer o tick req)) := by
  refine ⟨?_, ?_, ?_, ?_⟩
  · intro req
    have h1 := services.CreateAnswer_view
      (services.NewAnswerService repo (services.NewEventService repo er1)) o req
      ⟨s, e1, tick, tr1⟩
    have h2 := services.CreateAnswer_view
      (services.NewAnswerService repo (services.NewEventService repo er2)) o req
      ⟨s, e2, tick, tr2⟩
    exact ⟨h1.1.trans h2.1.symm, h1.2.trans h2.2.symm⟩
  · intro key req
    have h1 := services.UpdateAnswer_view
      (services.NewAnswerService repo (services.NewEventService repo er1)) o key req
      ⟨s, e1, tick, tr1⟩
    have h2 := services.UpdateAnswer_view
      (services.NewAnswerService repo (services.NewEventService repo er2)) o key req
      ⟨s, e2, tick, tr2⟩
    exact ⟨h1.1.trans h2.1.symm, h1.2.trans h2.2.symm⟩
  · intro key
    have h1 := services.DeleteAnswer_view
      (services.NewAnswerService repo (services.NewEventService repo er1)) o key
      ⟨s, e1, tick, tr1⟩
    have h2 := services.DeleteAnswer_view
      (services.NewAnswerService repo (services.NewEventService repo er2)) o key
      ⟨s, e2, tick, tr2⟩
    exact ⟨h1.1.trans h2.1.symm, h1.2.trans h2.2.symm⟩
  · intro req h
    have h1 := (services.CreateAnswer_view
      (services.NewAnswerService repo (services.NewEventService repo er1)) o req
      ⟨s, e1, tick, tr1⟩).1
    rw [h1]
    simp only [services.NewAnswerService]
    rw [h]

/-- C11 on an example: with an Event Store whose create fails, the create of
"k1" returns the same answer as with one whose create succeeds, and success. -/
theorem C11_result_independent_of_event_store_witness :
    ((exampleService (some (GoError.New "event store down"))).CreateAnswer exampleOracle
        { Key := "k1", Value := "a" } exampleWorld).1 =
      ((exampleService none).CreateAnswer exampleOracle { Key := "k1", Value := "a" }
        exampleWorld).1 ∧
    ((exampleService (some (GoError.New "event store down"))).CreateAnswer exampleOracle
        { Key := "k1", Value := "a" } exampleWorld).1 =
      .ok (createdAnswer exampleOracle 0 { Key := "k1", Value := "a" }) :=
  ⟨((C11_result_independent_of_event_store (mongo.AnswerRepo.repository exampleOracle)
      (mocks.MockEventRepository (some (GoError.New "event store down")))
      (mocks.MockEventRepository none) exampleOracle exampleClient.AnswerRepo 0 [] [] [] []).1
      { Key := "k1", Value := "a" }).1,
    rfl⟩

/-- C12: `FindHistoryByKey` starts with the active lookup of the key. When the
lookup fails with an error for which `errors.Is(err, ErrAnswerNotFound)`, the
results are no events, the zero pagination data and the `ServiceError` of code
404; the only call made is the lookup, so the Event Store is not queried and
keeps its state, whatever events it holds. When the lookup returns an answer
and the Event Store's `FindManyByKey` for the key of that answer and the
pageable succeeds, the results are exactly the events, in their order, and the
pagination data that the Event Store returned. -/
theorem C12_FindHistoryByKey_contract {σ τ : Type} (e : services.EventService σ τ)
    (key : String) (pageable : Pageable) (w : World σ τ) :
    (∀ err s1, e.answerRepo.FindByKey key w.answers = (.error err, s1) →
      errorsIs err GoError.ErrAnswerNotFound = true →
      e.FindHistoryByKey key pageable w =
        (([], ⟨0, 0, 0, 0, 0, 0⟩, some (util.NewServiceError 404 err)),
          { w with answers := s1, trace := w.trace ++ [Call.answerFindByKey key] }) ∧
      (util.NewServiceError 404 err).ErrCode = some 404 ∧
      (e.FindHistoryByKey key pageable w).2.events = w.events) ∧
    (∀ answer s1 events pagination t1,
      e.answerRepo.FindByKey key w.answers = (.ok answer, s1) →
      e.eventRepo.FindManyByKey answer.Key pageable w.events = ((events, pagination, none), t1) →
      e.FindHistoryByKey key pageable w =
        ((events, pagination, none),
          { answers := s1, events := t1, tick := w.tick,
            trace := w.trace ++
              [Call.answerFindByKey key, Call.eventFindManyByKey answer.Key pageable] })) := by
  refine ⟨?_, ?_⟩
  · intro err s1 hf his
    have h : e.FindHistoryByKey key pageable w =
        (([], ⟨0, 0, 0, 0, 0, 0⟩, some (util.NewServiceError 404 err)),
          { w with answers := s1, trace := w.trace ++ [Call.answerFindByKey key] }) := by
      simp [services.EventService.FindHistoryByKey, hf, his, http.StatusNotFound]
    exact ⟨h, rfl, by rw [h]⟩
  · intro answer s1 events pagination t1 hf hq
    simp [services.EventService.FindHistoryByKey, hf, hq]

/-- C12 on an example: after create, update and delete of "k1" the Event Store
holds three events of "k1", and the history of "k1" is not found. -/
theorem C12_FindHistoryByKey_contract_witness :
    exampleMongoAfterDelete.events.client.docs.map (fun ev => (ev.Data.Key, ev.Type_)) =
      [("k1", "create"), ("k1", "update"), ("k1", "delete")] ∧
    exampleApplication.eventService.FindHistoryByKey "k1" ⟨1, 10, -1⟩ exampleMongoAfterDelete =
      (([], ⟨0, 0, 0, 0, 0, 0⟩, some (util.NewServiceError 404 GoError.ErrAnswerNotFound)),
        { exampleMongoAfterDelete with
          answers := exampleMongoAfterDelete.answers
          trace := exampleMongoAfterDelete.trace ++ [Call.answerFindByKey "k1"] }) :=
  ⟨rfl,
    ((C12_FindHistoryByKey_contract exampleApplication.eventService "k1" ⟨1, 10, -1⟩
      exampleMongoAfterDelete).1 GoError.ErrAnswerNotFound exampleMongoAfterDelete.answers
      rfl rfl).1⟩

/-! ### The pagination of the history handler -/

theorem String.length_eq_zero_iff_eq_empty (s : String) : s.length = 0 ↔ s = "" := by
  cases s with
  | mk data =>
    constructor
    · intro h
      have : data = [] := List.length_eq_zero.mp h
      subst this
      rfl
    · intro h
      rw [h]
      rfl

namespace app

variable {σ τ : Type}

theorem pagination_Sort (a : Application σ τ) (c : gin.Context) :
    (a.pagination c).Sort_ = -1 := rfl

/-- `pagination` on an absent (or empty) `perPage`. -/
theorem pagination_PerPage_absent (a : Application σ τ) (c : gin.Context)
    (h : c.Query.Get "perPage" = "") : (a.pagination c).PerPage = 20 := by
  have h20 : strconv.Atoi "20" = some 20 := by decide
  simp [Application.pagination, h, h20]

/-- `pagination` on a `perPage` that `Atoi` refuses. -/
theorem pagination_PerPage_unparsable (a : Application σ τ) (c : gin.Context)
    (h : strconv.Atoi (c.Query.Get "perPage") = none) : (a.pagination c).PerPage = 20 := by
  by_cases h0 : c.Query.Get "perPage" = ""
  · exact pagination_PerPage_absent a c h0
  · have hl : ¬ (c.Query.Get "perPage").length = 0 := fun hc =>
      h0 ((String.length_eq_zero_iff_eq_empty _).mp hc)
    simp [Application.pagination, hl, h]

/-- `pagination` on a `perPage` that `Atoi` reads as `n`. -/
theorem pagination_PerPage_parsed (a : Application σ τ) (c : gin.Context) (n : Int)
    (h : strconv.Atoi (c.Query.Get "perPage") = some n) : (a.pagination c).PerPage = n := by
  have h0 : c.Query.Get "perPage" ≠ "" := by
    intro hc
    have he : strconv.Atoi "" = none := by decide
    rw [hc, he] at h
    cases h
  have hl : ¬ (c.Query.Get "perPage").length = 0 := fun hc =>
    h0 ((String.length_eq_zero_iff_eq_empty _).mp hc)
  simp [Application.pagination, hl, h]

/-- `pagination` on an absent (or empty) `page`. -/
theorem pagination_Page_absent (a : Application σ τ) (c : gin.Context)
    (h : c.Query.Get "page" = "") : (a.pagination c).Page = 1 := by
  have h1 : strconv.Atoi "1" = some 1 := by decide
  simp [Application.pagination, h, h1]

/-- `pagination` on a `page` that is present and that `Atoi` refuses. -/
theorem pagination_Page_unparsable (a : Application σ τ) (c : gin.Context)
    (h0 : c.Query.Get "page" ≠ "") (h : strconv.Atoi (c.Query.Get "page") = none) :
    (a.pagination c).Page = 0 := by
  have hl : ¬ (c.Query.Get "page").length = 0 := fun hc =>
    h0 ((String.length_eq_zero_iff_eq_empty _).mp hc)
  simp [Application.pagination, hl, h]

/-- `pagination` on a `page` that `Atoi` reads as `n`. -/
theorem pagination_Page_parsed (a : Application σ τ) (c : gin.Context) (n : Int)
    (h : strconv.Atoi (c.Query.Get "page") = some n) : (a.pagination c).Page = n := by
  have h0 : c.Query.Get "page" ≠ "" := by
    intro hc
    have he : strconv.Atoi "" = none := by decide
    rw [hc, he] at h
    cases h
  have hl : ¬ (c.Query.Get "page").length = 0 := fun hc =>
    h0 ((String.length_eq_zero_iff_eq_empty _).mp hc)
  simp [Application.pagination, hl, h]

end app

/-- C17, the code at the failing input: for the request
`GET /api/v1/answers/k1/history?page=abc` the pageable has `Page = 0`, while
for a request without `page` it has `Page = 1`. -/
theorem C17_unparsable_page_is_zero :
    strconv.Atoi "abc" = none ∧
    (exampleApplication.pagination { Params := [("key", "k1")], Query := [("page", "abc")] }).Page
      = 0 ∧
    (exampleApplication.pagination { Params := [("key", "k1")], Query := [] }).Page = 1 := by
  refine ⟨by decide, by decide, by decide⟩

/-- C18: when `perPage` is absent or is not parsable as an integer, the
pageable built by `pagination` has `PerPage = 20`; for every request it has
`Sort = -1`. -/
theorem C18_perPage_default_and_sort {σ τ : Type} (a : app.Application σ τ) (c : gin.Context) :
    (c.Query.Get "perPage" = "" → (a.pagination c).PerPage = 20) ∧
    (strconv.Atoi (c.Query.Get "perPage") = none → (a.pagination c).PerPage = 20) ∧
    (a.pagination c).Sort_ = -1 :=
  ⟨app.pagination_PerPage_absent a c, app.pagination_PerPage_unparsable a c, rfl⟩

/-- C18 on examples: no `perPage`, and `perPage=ten`. -/
theorem C18_perPage_default_and_sort_witness :
    url.Values.Get [("page", "2")] "perPage" = "" ∧
    (exampleApplication.pagination { Params := [], Query := [("page", "2")] }).PerPage = 20 ∧
    strconv.Atoi (url.Values.Get [("perPage", "ten")] "perPage") = none ∧
    (exampleApplication.pagination { Params := [], Query := [("perPage", "ten")] }).PerPage
      = 20 :=
  ⟨by decide,
    (C18_perPage_default_and_sort exampleApplication
      { Params := [], Query := [("page", "2")] }).1 (by decide),
    by decide,
    (C18_perPage_default_and_sort exampleApplication
      { Params := [], Query := [("perPage", "ten")] }).2.1 (by decide)⟩

/-- C19, the claim fails: for the request with `page=0&perPage=-5` the
pageable has `Page = 0` and `PerPage = -5`. -/
theorem C19_nonpositive_passes_through :
    ¬ (1 ≤ (exampleApplication.pagination
          { Params := [], Query := [("page", "0"), ("perPage", "-5")] }).Page ∧
       1 ≤ (exampleApplication.pagination
          { Params := [], Query := [("page", "0"), ("perPage", "-5")] }).PerPage) := by
  decide

/-- C19 as amended: `pagination` hands on what `Atoi` reads, without a check
of the range. `Page >= 1` holds when `page` is absent or reads as a positive
integer, `PerPage >= 1` holds when `perPage` is absent, is not parsable or
reads as a positive integer, and a parameter that reads as the integer `n`,
also zero or negative, gives `Page = n`, respectively `PerPage = n`. -/
theorem C19_pagination_range {σ τ : Type} (a : app.Application σ τ) (c : gin.Context) :
    (c.Query.Get "page" = "" → 1 ≤ (a.pagination c).Page) ∧
    (∀ n, strconv.Atoi (c.Query.Get "page") = some n →
      (a.pagination c).Page = n ∧ (1 ≤ n → 1 ≤ (a.pagination c).Page)) ∧
    (c.Query.Get "perPage" = "" → 1 ≤ (a.pagination c).PerPage) ∧
    (strconv.Atoi (c.Query.Get "perPage") = none → 1 ≤ (a.pagination c).PerPage) ∧
    (∀ n, strconv.Atoi (c.Query.Get "perPage") = some n →
      (a.pagination c).PerPage = n ∧ (1 ≤ n → 1 ≤ (a.pagination c).PerPage)) := by
  refine ⟨?_, ?_, ?_, ?_, ?_⟩
  · intro h; have := app.pagination_Page_absent a c h; omega
  · intro n h
    have := app.pagination_Page_parsed a c n h
    exact ⟨this, fun hn => by rw [this]; exact hn⟩
  · intro h; have := app.pagination_PerPage_absent a c h; omega
  · intro h; have := app.pagination_PerPage_unparsable a c h; omega
  · intro n h
    have := app.pagination_PerPage_parsed a c n h
    exact ⟨this, fun hn => by rw [this]; exact hn⟩

/-- C19 as amended, on an example: `page=3&perPage=-5`. -/
theorem C19_pagination_range_witness :
    strconv.Atoi (url.Values.Get [("page", "3"), ("perPage", "-5")] "page") = some 3 ∧
    strconv.Atoi (url.Values.Get [("page", "3"), ("perPage", "-5")] "perPage") = some (-5) ∧
    1 ≤ (exampleApplication.pagination
      { Params := [], Query := [("page", "3"), ("perPage", "-5")] }).Page ∧
    (exampleApplication.pagination
      { Params := [], Query := [("page", "3"), ("perPage", "-5")] }).PerPage = -5 :=
  ⟨by decide, by decide,
    ((C19_pagination_range exampleApplication
      { Params := [], Query := [("page", "3"), ("perPage", "-5")] }).2.1 3 (by decide)).2
      (by decide),
    ((C19_pagination_range exampleApplication
      { Params := [], Query := [("page", "3"), ("perPage", "-5")] }).2.2.2.2 (-5)
      (by decide)).1⟩

/-! ### Errors that reach the transport -/

/-- When the lookup of `FindHistoryByKey` succeeds and the Event Store's
`FindManyByKey` fails, the error of the Event Store is returned as it is. -/
theorem services.FindHistoryByKey_store_error {σ τ : Type} (e : services.EventService σ τ)
    (key : String) (pageable : Pageable) (w : World σ τ) (answer : Answer) (s1 : σ)
    (events : List Event) (pagination : PaginationData) (err : GoError) (t1 : τ)
    (hf : e.answerRepo.FindByKey key w.answers = (.ok answer, s1))
    (hq : e.eventRepo.FindManyByKey answer.Key pageable w.events =
      ((events, pagination, some err), t1)) :
    (e.FindHistoryByKey key pageable w).1 = ([], ⟨0, 0, 0, 0, 0, 0⟩, some err) := by
  simp [services.EventService.FindHistoryByKey, hf, hq]

/-- C14, the code at the failing input: the answer "k1" exists and the Event
Store's `FindManyByKey` fails with the error "connection refused". The error
that `FindHistoryByKey` returns is that error itself, not a `ServiceError`, and
`NewServiceErrResponse` maps it to the status 400. -/
theorem C14_history_store_error_is_raw :
    ((services.NewEventService (mongo.AnswerRepo.repository exampleOracle)
        (mocks.MockEventHistory [] ⟨0, 0, 0, 0, 0, 0⟩
          (some (GoError.New "connection refused")))).FindHistoryByKey "k1" ⟨1, 10, -1⟩
        exampleAfterCreate).1 =
      ([], ⟨0, 0, 0, 0, 0, 0⟩, some (GoError.New "connection refused")) ∧
    (GoError.New "connection refused").ErrCode = none ∧
    util.NewServiceErrResponse (GoError.New "connection refused") =
      (400, "connection refused") := by
  refine ⟨rfl, rfl, rfl⟩

/-- C15, the claim fails: on the start-up database `CreateAnswer` with the
empty key and the empty value calls the Value Store's create, returns the
answer without an error, and the answer with the empty key is stored. -/
theorem C15_empty_request_is_stored :
    ((exampleService none).CreateAnswer exampleOracle { Key := "", Value := "" }
      exampleWorld).1 = .ok (createdAnswer exampleOracle 0 { Key := "", Value := "" }) ∧
    Call.answerCreate (createdAnswer exampleOracle 0 { Key := "", Value := "" }) ∈
      ((exampleService none).CreateAnswer exampleOracle { Key := "", Value := "" }
        exampleWorld).2.trace ∧
    ((exampleService none).CreateAnswer exampleOracle { Key := "", Value := "" }
      exampleWorld).2.answers.client.docs.map (fun d => (d.Key, d.Values)) =
        [("", [{ Value := "" }])] := by
  refine ⟨rfl, by decide, rfl⟩

/-- C15 as amended: the core makes no check of the key or the value. For
every request, also one with an empty key or value, `CreateAnswer` calls the
Value Store's create with the answer built from the request and returns an
error exactly when that create fails. For every update request, also one
with an empty value, `UpdateAnswer` on a key whose lookup succeeds calls the
Value Store's `Update` with the value of the request and returns an error
exactly when that `Update` fails. -/
theorem C15_core_does_not_validate {σ τ : Type} (a : services.AnswerService σ τ) (o : Oracle)
    (w : World σ τ) :
    (∀ req : datastore.CreateAnswer,
      Call.answerCreate (createdAnswer o w.tick req) ∈ (a.CreateAnswer o req w).2.trace ∧
      ((∃ err, (a.CreateAnswer o req w).1 = .error err) ↔
        ∃ err, (a.answerRepo.Create (createdAnswer o w.tick req) w.answers).1 = some err)) ∧
    (∀ (key : String) (req : datastore.UpdateAnswer) (answer : Answer) (s1 : σ),
      a.answerRepo.FindByKey key w.answers = (.ok answer, s1) →
      Call.answerUpdate answer { Value := req.Value } ∈ (a.UpdateAnswer o key req w).2.trace ∧
      ((∃ err, (a.UpdateAnswer o key req w).1 = .error err) ↔
        ∃ err, (a.answerRepo.Update answer { Value := req.Value } s1).1 = .error err)) := by
  refine ⟨?_, ?_⟩
  · intro req
    rcases hr : a.answerRepo.Create (createdAnswer o w.tick req) w.answers with ⟨x, s1⟩
    cases x with
    | none =>
      obtain ⟨w1, ev, logs, h, -, -, -, -, -, -, -, htr⟩ :=
        services.CreateAnswer_ok_spec a o req w s1 hr
      rw [h]
      refine ⟨by rw [htr]; simp, ?_⟩
      constructor
      · rintro ⟨err, he⟩; cases he
      · rintro ⟨err, he⟩; cases he
    | some err =>
      obtain ⟨w1, h, -, -, htr⟩ := services.CreateAnswer_err_spec a o req w err s1 hr
      rw [h]
      refine ⟨by rw [htr]; simp, ?_⟩
      exact ⟨fun _ => ⟨err, rfl⟩, fun _ => ⟨_, rfl⟩⟩
  · intro key req answer s1 hf
    rcases hu : a.answerRepo.Update answer { Value := req.Value } s1 with ⟨y, s2⟩
    cases y with
    | error err =>
      rw [services.UpdateAnswer_err_spec a o key req w answer err s1 s2 hf hu]
      refine ⟨by simp, ?_⟩
      exact ⟨fun _ => ⟨err, rfl⟩, fun _ => ⟨_, rfl⟩⟩
    | ok answer1 =>
      rw [services.UpdateAnswer_ok_spec a o key req w answer answer1 s1 s2 hf hu]
      obtain ⟨-, l, hl, -⟩ := services.broadcastEvent_frame a o answer1 datastore.UpdateEvent
        { w with
          answers := s2
          trace := w.trace ++
            [Call.answerFindByKey key, Call.answerUpdate answer { Value := req.Value }] }
      refine ⟨by rw [hl]; simp, ?_⟩
      constructor
      · rintro ⟨err, he⟩; cases he
      · rintro ⟨err, he⟩; cases he

/-- C15 as amended, on an example: an update of "k1" with the empty value. -/
theorem C15_core_does_not_validate_witness :
    (exampleService none).answerRepo.FindByKey "k1" exampleAfterCreate.answers =
      (.ok (createdAnswer exampleOracle 0 { Key := "k1", Value := "a" }),
        exampleAfterCreate.answers) ∧
    Call.answerUpdate (createdAnswer exampleOracle 0 { Key := "k1", Value := "a" })
        { Value := "" } ∈
      ((exampleService none).UpdateAnswer exampleOracle "k1" { Value := "" }
        exampleAfterCreate).2.trace :=
  ⟨rfl,
    ((C15_core_does_not_validate (exampleService none) exampleOracle exampleAfterCreate).2 "k1"
      { Value := "" } _ _ rfl).1⟩

/-! ### Values are append-only -/

namespace mongo

theorem Continues.refl (d : Answer) : Continues d d :=
  ⟨List.prefix_refl _, rfl, rfl, rfl, rfl⟩

theorem AppendOnly_append (l l2 : List Answer) : AppendOnly l (l ++ l2) := by
  induction l with
  | nil => trivial
  | cons d ds ih => exact ⟨Continues.refl d, ih⟩

theorem AppendOnly_refl (l : List Answer) : AppendOnly l l := by
  have := AppendOnly_append l []
  simpa using this

theorem AppendOnly_replace (pre post : List Answer) (d d1 : Answer) (h : Continues d d1) :
    AppendOnly (pre ++ d :: post) (pre ++ d1 :: post) := by
  induction pre with
  | nil => exact ⟨h, AppendOnly_refl post⟩
  | cons x xs ih => exact ⟨Continues.refl x, ih⟩

/-- What `Update` does to the stored answers: on success the first Active
answer of the key got the one value pushed and a new `updated_at`; on failure
nothing is changed. -/
theorem AnswerRepo.Update_docs (o : Oracle) (a : AnswerRepo) (answer : Answer) (value : Value) :
    (∃ err, (AnswerRepo.Update o a answer value).1 = .error err ∧
      (AnswerRepo.Update o a answer value).2.client.docs = a.client.docs) ∨
    (∃ pre d post, a.client.docs = pre ++ d :: post ∧
      d.Key = answer.Key ∧ d.DocumentStatus = ActiveDocumentStatus ∧
      (∀ x ∈ pre, ¬ (x.Key = answer.Key ∧ x.DocumentStatus = ActiveDocumentStatus)) ∧
      (AnswerRepo.Update o a answer value).1 =
        .ok { d with Values := d.Values ++ [value], UpdatedAt := o.Now a.clock } ∧
      (AnswerRepo.Update o a answer value).2.client.docs =
        pre ++ { d with Values := d.Values ++ [value], UpdatedAt := o.Now a.clock } :: post) := by
  cases hs : splitAtFirst (fun x => (activeKeyFilter answer.Key).holds x) a.client.docs with
  | none =>
    left
    have hf := find?_eq_none_of_splitAtFirst _ _ hs
    refine ⟨GoError.ErrAnswerNotFound, ?_, ?_⟩ <;>
      simp [AnswerRepo.Update, Collection.UpdateOne, hs, AnswerRepo.FindByKey,
        Collection.FindOne, hf, errorsIs]
  | some t =>
    obtain ⟨pre, d, post⟩ := t
    obtain ⟨hl, hd, hpre⟩ := splitAtFirst_some _ _ _ _ _ hs
    have hk := (activeKeyFilter_holds _ _).mp hd
    have heq : AnswerRepo.Update o a answer value = AnswerRepo.Update o a d value := by
      simp [AnswerRepo.Update, hk.1]
    have hs2 := hs
    rw [← hk.1] at hs2
    rcases AnswerRepo.Update_cases o a d value pre post hs2 with ⟨-, hu⟩ | ⟨-, hu⟩
    · left
      exact ⟨duplicateKeyError, by rw [heq, hu], by rw [heq, hu]⟩
    · right
      refine ⟨pre, d, post, hl, hk.1, hk.2, ?_, by rw [heq, hu], by rw [heq, hu]⟩
      intro x hx hc
      have := hpre x hx
      rw [(activeKeyFilter_holds _ _).mpr hc] at this
      cases this

/-- What `Delete` does to the stored answers: when it returns no error and an
answer of the key is Active, the first such answer got the status Deleted and
a deletion time; otherwise nothing is changed. -/
theorem AnswerRepo.Delete_docs (o : Oracle) (a : AnswerRepo) (answer : Answer) :
    ((AnswerRepo.Delete o a answer).2.client.docs = a.client.docs ∧
      (a.NoActive answer.Key ∨ ∃ err, (AnswerRepo.Delete o a answer).1 = some err)) ∨
    (∃ pre d post, a.client.docs = pre ++ d :: post ∧
      d.Key = answer.Key ∧ d.DocumentStatus = ActiveDocumentStatus ∧
      (∀ x ∈ pre, ¬ (x.Key = answer.Key ∧ x.DocumentStatus = ActiveDocumentStatus)) ∧
      (AnswerRepo.Delete o a answer).1 = none ∧
      (AnswerRepo.Delete o a answer).2.client.docs =
        pre ++ { d with DocumentStatus := DeletedDocumentStatus
                        DeletedAt := o.Now a.clock } :: post) := by
  cases hs : splitAtFirst (fun x => (activeKeyFilter answer.Key).holds x) a.client.docs with
  | none =>
    left
    have hall := (splitAtFirst_eq_none _ _).mp hs
    refine ⟨by simp [AnswerRepo.Delete, Collection.UpdateOne, hs], Or.inl ?_⟩
    intro x hx hc
    have := hall x hx
    rw [(activeKeyFilter_holds _ _).mpr hc] at this
    cases this
  | some t =>
    obtain ⟨pre, d, post⟩ := t
    obtain ⟨hl, hd, hpre⟩ := splitAtFirst_some _ _ _ _ _ hs
    have hk := (activeKeyFilter_holds _ _).mp hd
    have heq : AnswerRepo.Delete o a answer = AnswerRepo.Delete o a d := by
      simp [AnswerRepo.Delete, hk.1]
    have hs2 := hs
    rw [← hk.1] at hs2
    rcases AnswerRepo.Delete_cases o a d pre post hs2 with ⟨-, hu⟩ | ⟨-, hu⟩
    · left
      exact ⟨by rw [heq, hu], Or.inr ⟨duplicateKeyError, by rw [heq, hu]⟩⟩
    · right
      refine ⟨pre, d, post, hl, hk.1, hk.2, ?_, by rw [heq, hu], by rw [heq, hu]⟩
      intro x hx hc
      have := hpre x hx
      rw [(activeKeyFilter_holds _ _).mpr hc] at this
      cases this

end mongo

/-- C16: values are append-only in the Mongo answer repository. After
`Create`, `Update` and `Delete` every answer stored before is continued by
the answer at its place: its values before are a prefix of its values after,
and its identifiers, key and creation time are unchanged. A successful
`Update` pushes exactly the one value onto the first Active answer of the key
and sets its `updated_at`; a `Delete` that finds an Active answer of the key
and succeeds changes only its `document_status`, to Deleted, and its
`deleted_at`; every other answer, and every answer after a failed call, is
left as it was. -/
theorem C16_values_append_only (o : Oracle) (a : mongo.AnswerRepo) (answer : Answer)
    (value : Value) :
    mongo.AppendOnly a.client.docs (a.Create answer).2.client.docs ∧
    mongo.AppendOnly a.client.docs (mongo.AnswerRepo.Update o a answer value).2.client.docs ∧
    mongo.AppendOnly a.client.docs (mongo.AnswerRepo.Delete o a answer).2.client.docs ∧
    ((∃ err, (mongo.AnswerRepo.Update o a answer value).1 = .error err ∧
        (mongo.AnswerRepo.Update o a answer value).2.client.docs = a.client.docs) ∨
      (∃ pre d post, a.client.docs = pre ++ d :: post ∧
        d.Key = answer.Key ∧ d.DocumentStatus = ActiveDocumentStatus ∧
        (∀ x ∈ pre, ¬ (x.Key = answer.Key ∧ x.DocumentStatus = ActiveDocumentStatus)) ∧
        (mongo.AnswerRepo.Update o a answer value).1 =
          .ok { d with Values := d.Values ++ [value], UpdatedAt := o.Now a.clock } ∧
        (mongo.AnswerRepo.Update o a answer value).2.client.docs =
          pre ++ { d with Values := d.Values ++ [value], UpdatedAt := o.Now a.clock }
            :: post)) ∧
    (((mongo.AnswerRepo.Delete o a answer).2.client.docs = a.client.docs ∧
        (a.NoActive answer.Key ∨ ∃ err, (mongo.AnswerRepo.Delete o a answer).1 = some err)) ∨
      (∃ pre d post, a.client.docs = pre ++ d :: post ∧
        d.Key = answer.Key ∧ d.DocumentStatus = ActiveDocumentStatus ∧
        (∀ x ∈ pre, ¬ (x.Key = answer.Key ∧ x.DocumentStatus = ActiveDocumentStatus)) ∧
        (mongo.AnswerRepo.Delete o a answer).1 = none ∧
        (mongo.AnswerRepo.Delete o a answer).2.client.docs =
          pre ++ { d with DocumentStatus := DeletedDocumentStatus
                          DeletedAt := o.Now a.clock } :: post)) := by
  refine ⟨?_, ?_, ?_, mongo.AnswerRepo.Update_docs o a answer value,
    mongo.AnswerRepo.Delete_docs o a answer⟩
  · rcases mongo.AnswerRepo.Create_cases a answer with ⟨-, hc⟩ | ⟨-, hc⟩
    · rw [hc]; exact mongo.AppendOnly_append _ _
    · rw [hc]; exact mongo.AppendOnly_refl _
  · rcases mongo.AnswerRepo.Update_docs o a answer value with
      ⟨err, -, hd⟩ | ⟨pre, d, post, hl, -, -, -, -, hd⟩
    · rw [hd]; exact mongo.AppendOnly_refl _
    · rw [hd, hl]
      exact mongo.AppendOnly_replace pre post d _ ⟨List.prefix_append _ _, rfl, rfl, rfl, rfl⟩
  · rcases mongo.AnswerRepo.Delete_docs o a answer with
      ⟨hd, -⟩ | ⟨pre, d, post, hl, -, -, -, -, hd⟩
    · rw [hd]; exact mongo.AppendOnly_refl _
    · rw [hd, hl]
      exact mongo.AppendOnly_replace pre post d _ ⟨List.prefix_refl _, rfl, rfl, rfl, rfl⟩

/-- C16 on an example: the update of "k1" in the example world. -/
theorem C16_values_append_only_witness :
    exampleAfterCreate.answers.client.docs.map (fun d => d.Values) = [[{ Value := "a" }]] ∧
    (mongo.AnswerRepo.Update exampleOracle exampleAfterCreate.answers
      (createdAnswer exampleOracle 0 { Key := "k1", Value := "a" })
      { Value := "b" }).2.client.docs.map (fun d => d.Values) =
        [[{ Value := "a" }, { Value := "b" }]] ∧
    mongo.AppendOnly exampleAfterCreate.answers.client.docs
      (mongo.AnswerRepo.Update exampleOracle exampleAfterCreate.answers
        (createdAnswer exampleOracle 0 { Key := "k1", Value := "a" })
        { Value := "b" }).2.client.docs :=
  ⟨rfl, rfl,
    (C16_values_append_only exampleOracle exampleAfterCreate.answers
      (createdAnswer exampleOracle 0 { Key := "k1", Value := "a" }) { Value := "b" }).2.1⟩

/-! ### The history query of the Mongo event repository -/

namespace mongo

theorem historyFilter_holds (key : String) (d : Event) :
    Filter.holds [("document_status", BsonValue.str ActiveDocumentStatus),
        ("data.key", BsonValue.str key)] d =
      decide (d.DocumentStatus = ActiveDocumentStatus ∧ d.Data.Key = key) := by
  simp [Filter.holds, Document.field]

theorem history_eq_filter (e : EventRepo) (key : String) :
    (e.client.docs.filter (fun d =>
      Filter.holds [("document_status", BsonValue.str ActiveDocumentStatus),
        ("data.key", BsonValue.str key)] d)) = e.history key := by
  simp only [EventRepo.history, historyFilter_holds]

/-- The builder calls of `FindManyByKey`, put together. -/
theorem pagingQuery_eq (e : EventRepo) (key : String) (pageable : Pageable) :
    ((((pager.New e.client).Limit pageable.PerPage).Page pageable.Page).Sort
        "created_at" pageable.Sort_).Filter
        [("document_status", BsonValue.str ActiveDocumentStatus),
          ("data.key", BsonValue.str key)] =
      { Collection := e.client
        LimitCount := if pageable.PerPage < 1 then 10 else pageable.PerPage
        PageCount := if pageable.Page < 1 then 1 else pageable.Page
        SortField := "created_at"
        SortValue := pageable.Sort_
        FilterQuery := [("document_status", BsonValue.str ActiveDocumentStatus),
          ("data.key", BsonValue.str key)] } := by
  by_cases hp : pageable.Page < 1 <;> by_cases hl : pageable.PerPage < 1 <;>
    simp only [pager.New, pager.PagingQuery.Limit, pager.PagingQuery.Page,
      pager.PagingQuery.Sort, pager.PagingQuery.Filter, if_pos, if_neg, hp, hl,
      not_false_eq_true]

/-- `FindManyByKey` in one step: one page of the history of the key in the
order asked for, with the pagination data of that page. -/
theorem EventRepo.FindManyByKey_eq (e : EventRepo) (key : String) (pageable : Pageable) :
    e.FindManyByKey key pageable =
      (match pager.sorted "created_at" pageable.Sort_ (e.history key) with
        | .error err => (([], ⟨0, 0, 0, 0, 0, 0⟩, some err), e)
        | .ok ordered =>
          (((ordered.drop
              ((((if pageable.Page < 1 then 1 else pageable.Page) - 1) *
                (if pageable.PerPage < 1 then 10 else pageable.PerPage)).toNat)).take
              (if pageable.PerPage < 1 then 10 else pageable.PerPage).toNat,
            pager.paginationData (e.history key).length
              (if pageable.Page < 1 then 1 else pageable.Page)
              (if pageable.PerPage < 1 then 10 else pageable.PerPage), none), e)) := by
  unfold EventRepo.FindManyByKey
  simp only [pagingQuery_eq]
  unfold pager.PagingQuery.Find
  simp only [history_eq_filter]
  cases pager.sorted "created_at" pageable.Sort_ (e.history key) <;> rfl

end mongo

namespace pager

/-- The total page count of the pagination data is the ceiling of the
quotient of the total by the page size. -/
theorem totalPage_eq_ceil (total perPage : Int) (hp : 0 < perPage) :
    (total + perPage - 1) / perPage = ⌈(total : ℚ) / (perPage : ℚ)⌉ := by
  symm
  rw [Int.ceil_eq_iff]
  have hpq : (0 : ℚ) < (perPage : ℚ) := by exact_mod_cast hp
  have h1 : (total + perPage - 1) / perPage * perPage ≤ total + perPage - 1 :=
    Int.ediv_mul_le _ (ne_of_gt hp)
  have h2 : total + perPage - 1 < ((total + perPage - 1) / perPage + 1) * perPage :=
    Int.lt_ediv_add_one_mul_self _ hp
  constructor
  · rw [lt_div_iff₀ hpq]
    have : ((total + perPage - 1) / perPage - 1) * perPage < total := by nlinarith
    exact_mod_cast this
  · rw [div_le_iff₀ hpq]
    have : total ≤ (total + perPage - 1) / perPage * perPage := by nlinarith
    exact_mod_cast this

theorem paginationData_prev (total page perPage : Int) :
    (paginationData total page perPage).Prev = 0 ↔
      ¬ (1 ≤ (paginationData total page perPage).Page - 1 ∧
        (paginationData total page perPage).Page - 1 ≤
          (paginationData total page perPage).TotalPage) := by
  simp only [paginationData]
  generalize (total + perPage - 1) / perPage = T
  split_ifs with hc
  · constructor
    · intro h0; omega
    · intro hn; exact absurd hc hn
  · constructor
    · intro _; exact hc
    · intro _; rfl

theorem paginationData_next (total page perPage : Int) (hpage : 1 ≤ page) :
    (paginationData total page perPage).Next = 0 ↔
      ¬ ((paginationData total page perPage).Page + 1 ≤
        (paginationData total page perPage).TotalPage) := by
  simp only [paginationData]
  generalize (total + perPage - 1) / perPage = T
  split_ifs with hc
  · constructor
    · intro h0; omega
    · intro hn; exact absurd hc hn
  · constructor
    · intro _; exact hc
    · intro _; rfl

end pager

/-- C20: for a successful `FindHistoryByKey` on the Mongo event repository
with a positive `perPage`, the pagination data has
`totalPage = ceil(total / perPage)`, the page holds at most `perPage` events,
`prev` is 0 exactly when the page before is not among the pages
`1 .. totalPage`, and `next` is 0 exactly when the page after is not among
them. -/
theorem C20_pagination_metadata {σ : Type} (repo : AnswerRepository σ) (key : String)
    (pageable : Pageable) (w w1 : World σ mongo.EventRepo) (events : List Event)
    (pagination : PaginationData) (hpos : 0 < pageable.PerPage)
    (h : (services.NewEventService repo mongo.EventRepo.repository).FindHistoryByKey key
      pageable w = ((events, pagination, none), w1)) :
    pagination.PerPage = pageable.PerPage ∧
    pagination.TotalPage = ⌈(pagination.Total : ℚ) / (pageable.PerPage : ℚ)⌉ ∧
    (events.length : Int) ≤ pageable.PerPage ∧
    1 ≤ pagination.Page ∧
    (pagination.Prev = 0 ↔
      ¬ (1 ≤ pagination.Page - 1 ∧ pagination.Page - 1 ≤ pagination.TotalPage)) ∧
    (pagination.Next = 0 ↔ ¬ (pagination.Page + 1 ≤ pagination.TotalPage)) := by
  rcases hf : repo.FindByKey key w.answers with ⟨x, s1⟩
  cases x with
  | error err =>
    simp [services.EventService.FindHistoryByKey, services.NewEventService, hf] at h
  | ok answer =>
    have hl : ¬ pageable.PerPage < 1 := by omega
    cases hs : pager.sorted "created_at" pageable.Sort_ (w.events.history answer.Key) with
    | error err =>
      simp [services.EventService.FindHistoryByKey, services.NewEventService, hf,
        mongo.EventRepo.repository, mongo.EventRepo.FindManyByKey_eq, hs] at h
    | ok ordered =>
      simp only [services.EventService.FindHistoryByKey, services.NewEventService, hf,
        mongo.EventRepo.repository, mongo.EventRepo.FindManyByKey_eq, hs, if_neg hl,
        Prod.mk.injEq] at h
      obtain ⟨⟨he, hp, -⟩, -⟩ := h
      have hpage : (1 : Int) ≤ (if pageable.Page < 1 then 1 else pageable.Page) := by
        split_ifs <;> omega
      subst hp
      refine ⟨rfl, ?_, ?_, hpage, ?_, ?_⟩
      · exact pager.totalPage_eq_ceil _ _ hpos
      · rw [← he]
        have := List.length_take_le pageable.PerPage.toNat
          (List.drop (((if pageable.Page < 1 then 1 else pageable.Page) - 1) *
            pageable.PerPage).toNat ordered)
        have h2 : (pageable.PerPage.toNat : Int) = pageable.PerPage :=
          Int.toNat_of_nonneg (le_of_lt hpos)
        omega
      · exact pager.paginationData_prev _ _ _
      · exact pager.paginationData_next _ _ _ hpage


/-- C20 on an example: the second page of one event a page of the history of
"k1" after create and update. -/
theorem C20_pagination_metadata_witness :
    (0 : Int) < (⟨2, 1, -1⟩ : Pageable).PerPage ∧
    (services.NewEventService (mongo.AnswerRepo.repository exampleOracle)
        mongo.EventRepo.repository).FindHistoryByKey "k1" ⟨2, 1, -1⟩ exampleMongoAfterUpdate =
      (([createdEvent exampleOracle 4 "create" "k1" "a"], ⟨2, 2, 1, 1, 0, 2⟩, none),
        { exampleMongoAfterUpdate with
          trace := exampleMongoAfterUpdate.trace ++
            [Call.answerFindByKey "k1", Call.eventFindManyByKey "k1" ⟨2, 1, -1⟩] }) ∧
    (2 : Int) = ⌈((2 : Int) : ℚ) / ((1 : Int) : ℚ)⌉ :=
  ⟨by decide, by rfl,
    (C20_pagination_metadata (mongo.AnswerRepo.repository exampleOracle) "k1" ⟨2, 1, -1⟩
      exampleMongoAfterUpdate
      { exampleMongoAfterUpdate with
        trace := exampleMongoAfterUpdate.trace ++
          [Call.answerFindByKey "k1", Call.eventFindManyByKey "k1" ⟨2, 1, -1⟩] }
      [createdEvent exampleOracle 4 "create" "k1" "a"]
      ⟨2, 2, 1, 1, 0, 2⟩ (by decide) (by rfl)).2.1⟩

/-! ### Mutations and the history of their key -/

namespace services

variable {σ τ : Type}

/-- `broadcastEvent` on a snapshot with a last value, with the event named. -/
theorem broadcastEvent_createdEvent (a : AnswerService σ τ) (o : Oracle) (answer : Answer)
    (eventType : EventType) (w : World σ τ) (last : Value)
    (h : answer.Values.getLast? = some last) :
    ∃ logs : List Call,
      a.broadcastEvent o answer eventType w =
        { answers := w.answers
          events := (a.eventService.eventRepo.Create
            (createdEvent o w.tick eventType answer.Key last.Value) w.events).2
          tick := w.tick + 4
          trace := w.trace ++
            Call.eventCreate (createdEvent o w.tick eventType answer.Key last.Value) :: logs } := by
  cases hr : (a.eventService.eventRepo.Create
      (createdEvent o w.tick eventType answer.Key last.Value) w.events).1 with
  | none =>
    refine ⟨[], ?_⟩
    unfold createdEvent at hr
    simp [AnswerService.broadcastEvent, EventService.CreateEvent, h, hr, createdEvent]
  | some err =>
    refine ⟨[Call.logError "failed to create event"
      (util.NewServiceError http.StatusInternalServerError err)], ?_⟩
    unfold createdEvent at hr
    simp [AnswerService.broadcastEvent, EventService.CreateEvent, h, hr, createdEvent]

end services

namespace mongo

/-- The Mongo event repository without a unique index stores every event. -/
theorem EventRepo.Create_docs (e : EventRepo) (ev : Event) (h : e.client.indexes = []) :
    (EventRepo.repository.Create ev e).2.client.docs = e.client.docs ++ [ev] ∧
    (EventRepo.repository.Create ev e).2.client.indexes = [] := by
  simp [EventRepo.repository, EventRepo.Create, Collection.InsertOne, h, violatesUnique]

/-- The history of a key after one more event of the key was stored. -/
theorem history_append (e e1 : EventRepo) (ev : Event) (key : String)
    (hd : e1.client.docs = e.client.docs ++ [ev])
    (hs : ev.DocumentStatus = ActiveDocumentStatus) (hk : ev.Data.Key = key) :
    e1.history key = e.history key ++ [ev] := by
  simp [EventRepo.history, hd, List.filter_append, hs, hk]

end mongo


/-- `FindHistoryByKey` when the lookup and the Event Store's query succeed. -/
theorem services.FindHistoryByKey_ok_spec {σ τ : Type} (e : services.EventService σ τ)
    (key : String) (pageable : Pageable) (w : World σ τ) (answer : Answer) (s1 : σ)
    (events : List Event) (pagination : PaginationData) (t1 : τ)
    (hf : e.answerRepo.FindByKey key w.answers = (.ok answer, s1))
    (hq : e.eventRepo.FindManyByKey answer.Key pageable w.events =
      ((events, pagination, none), t1)) :
    e.FindHistoryByKey key pageable w =
      ((events, pagination, none),
        { answers := s1, events := t1, tick := w.tick,
          trace := w.trace ++
            [Call.answerFindByKey key, Call.eventFindManyByKey answer.Key pageable] }) := by
  simp [services.EventService.FindHistoryByKey, hf, hq]

/-- The history of a key that has an Active answer, asked for in one page
that is large enough: the query succeeds and returns the whole history of the
key, newest first. -/
theorem programHistory_unpaged (o : Oracle) (w : World mongo.AnswerRepo mongo.EventRepo)
    (k : String) (perPage : Int)
    (hact : ∃ d ∈ w.answers.client.docs, d.Key = k ∧ d.DocumentStatus = ActiveDocumentStatus)
    (hlen : ((w.events.history k).length : Int) ≤ perPage) (hpos : 1 ≤ perPage) :
    ∃ events pagination w2,
      (programEventService o).FindHistoryByKey k ⟨1, perPage, -1⟩ w =
        ((events, pagination, none), w2) ∧
      events.Perm (w.events.history k) ∧
      pagination.Total = (w.events.history k).length := by
  rcases mongo.AnswerRepo.FindByKey_cases w.answers k with
    ⟨-, hno⟩ | ⟨d, pre, post, hf, -, -, hk, -, -⟩
  · obtain ⟨d, hd, hkd⟩ := hact
    exact absurd hkd (hno d hd)
  · have hf2 : (programEventService o).answerRepo.FindByKey k w.answers =
        (.ok d, w.answers) := hf
    have hl : ¬ perPage < 1 := by omega
    have hq : (programEventService o).eventRepo.FindManyByKey d.Key ⟨1, perPage, -1⟩ w.events =
        (((w.events.history k).insertionSort
            (fun a b => pager.sortKey "created_at" b ≤ pager.sortKey "created_at" a),
          pager.paginationData (w.events.history k).length 1 perPage, none), w.events) := by
      have hq0 : (programEventService o).eventRepo.FindManyByKey d.Key ⟨1, perPage, -1⟩
          w.events = mongo.EventRepo.FindManyByKey w.events d.Key ⟨1, perPage, -1⟩ := rfl
      rw [hq0, mongo.EventRepo.FindManyByKey_eq, hk]
      have hs : pager.sorted "created_at" (-1) (w.events.history k) =
          .ok ((w.events.history k).insertionSort
            (fun a b => pager.sortKey "created_at" b ≤ pager.sortKey "created_at" a)) := by
        simp [pager.sorted]
      simp only [hs, if_neg hl]
      have htake : ∀ l : List Event, (l.length : Int) ≤ perPage →
          List.take perPage.toNat l = l := by
        intro l hll
        apply List.take_of_length_le
        omega
      simp [htake, List.length_insertionSort, hlen]
    refine ⟨_, _, _, (services.FindHistoryByKey_ok_spec (programEventService o) k
      ⟨1, perPage, -1⟩ w d w.answers _ _ w.events hf2 hq), List.perm_insertionSort _ _, rfl⟩

/-- The event history of the snapshot's key after `broadcastEvent`, in the Mongo
event repository without a unique index: the event built from the snapshot was
added at the end, and the answers are untouched. -/
theorem mongo_history_after_broadcast (o : Oracle)
    (w0 : World mongo.AnswerRepo mongo.EventRepo) (answer : Answer) (eventType : EventType)
    (last : Value) (hl : answer.Values.getLast? = some last)
    (hev : w0.events.client.indexes = []) :
    ((programAnswerService o).broadcastEvent o answer eventType w0).answers = w0.answers ∧
    ((programAnswerService o).broadcastEvent o answer eventType w0).events.history answer.Key =
      w0.events.history answer.Key ++
        [createdEvent o w0.tick eventType answer.Key last.Value] := by
  obtain ⟨logs, hb⟩ := services.broadcastEvent_createdEvent (programAnswerService o) o answer
    eventType w0 last hl
  rw [hb]
  refine ⟨rfl, ?_⟩
  exact mongo.history_append w0.events _ _ answer.Key
    (mongo.EventRepo.Create_docs w0.events _ hev).1 rfl rfl

/-- C13, as the code has it at the example: after `CreateAnswer("k1", "a")`,
`UpdateAnswer("k1", "b")` and `DeleteAnswer("k1")` on the program's services,
the deletion succeeded and its event is stored in the Event Store with type
`delete`, but `FindHistoryByKey("k1")` does not succeed: it returns the 404 of
`ErrAnswerNotFound`, no events and zero pagination. -/
theorem C13_delete_event_not_visible :
    (exampleApplication.answerService.DeleteAnswer exampleOracle "k1"
        exampleMongoAfterUpdate).1 = none ∧
    (exampleMongoAfterDelete.events.history "k1").map (fun ev => (ev.Type_, ev.Data)) =
      [(datastore.CreateEvent, { Key := "k1", Value := "a" }),
       (datastore.UpdateEvent, { Key := "k1", Value := "b" }),
       (datastore.DeleteEvent, { Key := "k1", Value := "b" })] ∧
    (exampleApplication.eventService.FindHistoryByKey "k1" ⟨1, 20, -1⟩
        exampleMongoAfterDelete).1 =
      ([], ⟨0, 0, 0, 0, 0, 0⟩, some (util.NewServiceError 404 GoError.ErrAnswerNotFound)) := by
  refine ⟨?_, ?_, ?_⟩ <;> rfl

/-- C13, amended: on the program's services, with no unique index on the
events, (1) after a successful `CreateAnswer(k, v)` and (2) after a successful
`UpdateAnswer(k, v)`, `FindHistoryByKey(k)` asked for one page that holds the
whole history succeeds, and its result is the history of `k` before the
mutation plus exactly one event, of type `create` resp. `update`, with the key
`k` and the value `v`; (3) after a successful `DeleteAnswer(k)` (unique key
index on the answers, every answer has a value) exactly one event of type
`delete` with the key `k` and the last value of the deleted answer was added
to the stored history of `k`, but `FindHistoryByKey(k)` fails with the 404 of
`ErrAnswerNotFound` and returns no events, for every page request. -/
theorem C13_history_after_mutation (o : Oracle)
    (w : World mongo.AnswerRepo mongo.EventRepo) (hev : w.events.client.indexes = []) :
    (∀ (k v : String) (answer : Answer) (w1 : World mongo.AnswerRepo mongo.EventRepo)
        (perPage : Int),
      (programAnswerService o).CreateAnswer o { Key := k, Value := v } w = (.ok answer, w1) →
      ((w.events.history k).length : Int) < perPage →
      ∃ ev events pagination w2,
        ev.Type_ = datastore.CreateEvent ∧ ev.Data = { Key := k, Value := v } ∧
        (programEventService o).FindHistoryByKey k ⟨1, perPage, -1⟩ w1 =
          ((events, pagination, none), w2) ∧
        events.Perm (w.events.history k ++ [ev]) ∧
        pagination.Total = (w.events.history k).length + 1) ∧
    (∀ (k v : String) (answer : Answer) (w1 : World mongo.AnswerRepo mongo.EventRepo)
        (perPage : Int),
      (programAnswerService o).UpdateAnswer o k { Value := v } w = (.ok answer, w1) →
      ((w.events.history k).length : Int) < perPage →
      ∃ ev events pagination w2,
        ev.Type_ = datastore.UpdateEvent ∧ ev.Data = { Key := k, Value := v } ∧
        (programEventService o).FindHistoryByKey k ⟨1, perPage, -1⟩ w1 =
          ((events, pagination, none), w2) ∧
        events.Perm (w.events.history k ++ [ev]) ∧
        pagination.Total = (w.events.history k).length + 1) ∧
    (∀ (k : String) (w1 : World mongo.AnswerRepo mongo.EventRepo),
      w.answers.Indexed → w.answers.ValuesNonempty →
      (programAnswerService o).DeleteAnswer o k w = (none, w1) →
      ∃ ev d last,
        d ∈ w.answers.client.docs ∧ d.Key = k ∧ d.DocumentStatus = ActiveDocumentStatus ∧
        d.Values.getLast? = some last ∧
        ev.Type_ = datastore.DeleteEvent ∧ ev.Data = { Key := k, Value := last.Value } ∧
        w1.events.history k = w.events.history k ++ [ev] ∧
        ∀ pageable : Pageable,
          ((programEventService o).FindHistoryByKey k pageable w1).1 =
            ([], ⟨0, 0, 0, 0, 0, 0⟩,
              some (util.NewServiceError 404 GoError.ErrAnswerNotFound))) := by
  refine ⟨?_, ?_, ?_⟩
  · intro k v answer w1 perPage h hlen
    obtain ⟨hans, -, hdocs, -, -⟩ := mongo_CreateAnswer_ok_inv o _ w w1 _ answer h
    have hw1 : w1 = (programAnswerService o).broadcastEvent o
        (createdAnswer o w.tick { Key := k, Value := v }) datastore.CreateEvent
        { w with
          answers := ((programAnswerService o).answerRepo.Create
            (createdAnswer o w.tick { Key := k, Value := v }) w.answers).2
          tick := w.tick + 4
          trace := w.trace ++
            [Call.answerCreate (createdAnswer o w.tick { Key := k, Value := v })] } := by
      cases hc : ((programAnswerService o).answerRepo.Create
          (createdAnswer o w.tick { Key := k, Value := v }) w.answers).1 with
      | none =>
        have h0 := services.CreateAnswer_of_create_ok (programAnswerService o) o
          { Key := k, Value := v } w hc
        rw [h] at h0
        injection h0 with _ h0
      | some err =>
        have h0 := services.CreateAnswer_of_create_err (programAnswerService o) o
          { Key := k, Value := v } w err hc
        rw [h] at h0
        cases h0
    obtain ⟨-, hh⟩ := mongo_history_after_broadcast o
      { w with
        answers := ((programAnswerService o).answerRepo.Create
          (createdAnswer o w.tick { Key := k, Value := v }) w.answers).2
        tick := w.tick + 4
        trace := w.trace ++
          [Call.answerCreate (createdAnswer o w.tick { Key := k, Value := v })] }
      (createdAnswer o w.tick { Key := k, Value := v }) datastore.CreateEvent
      { Value := v } rfl hev
    rw [← hw1] at hh
    have hh2 : w1.events.history k = w.events.history k ++
        [createdEvent o (w.tick + 4) datastore.CreateEvent k v] := hh
    have hact : ∃ d ∈ w1.answers.client.docs,
        d.Key = k ∧ d.DocumentStatus = ActiveDocumentStatus := by
      refine ⟨answer, ?_, ?_, ?_⟩
      · rw [hdocs]
        simp
      · rw [hans]
        rfl
      · rw [hans]
        rfl
    obtain ⟨events, pagination, w2, hq, hp, ht⟩ := programHistory_unpaged o w1 k perPage hact
      (by rw [hh2]; simp; omega) (by have := Int.natCast_nonneg (w.events.history k).length; omega)
    refine ⟨createdEvent o (w.tick + 4) datastore.CreateEvent k v, events, pagination, w2,
      rfl, rfl, hq, ?_, ?_⟩
    · rw [← hh2]
      exact hp
    · rw [ht, hh2]
      simp
  · intro k v answer w1 perPage h hlen
    obtain ⟨d, pre, post, -, hk, hst, -, hans, hdocs, -, hw1⟩ :=
      mongo_UpdateAnswer_ok_inv o _ w w1 k { Value := v } answer h
    have hkey : answer.Key = k := by
      rw [hans]
      exact hk
    obtain ⟨-, hh⟩ := mongo_history_after_broadcast o
      { w with
        answers :=
          { client := { docs := pre ++ answer :: post, indexes := w.answers.client.indexes }
            clock := w.answers.clock + 1 }
        trace := w.trace ++ [Call.answerFindByKey k, Call.answerUpdate d { Value := v }] }
      answer datastore.UpdateEvent { Value := v } (by rw [hans]; simp) hev
    have hw1b : w1 = (programAnswerService o).broadcastEvent o answer datastore.UpdateEvent
      { w with
        answers :=
          { client := { docs := pre ++ answer :: post, indexes := w.answers.client.indexes }
            clock := w.answers.clock + 1 }
        trace := w.trace ++ [Call.answerFindByKey k, Call.answerUpdate d { Value := v }] } :=
      hw1
    rw [← hw1b, hkey] at hh
    have hh2 : w1.events.history k = w.events.history k ++
        [createdEvent o w.tick datastore.UpdateEvent k v] := hh
    have hact : ∃ d ∈ w1.answers.client.docs,
        d.Key = k ∧ d.DocumentStatus = ActiveDocumentStatus := by
      refine ⟨answer, ?_, hkey, ?_⟩
      · rw [hdocs]
        simp
      · rw [hans]
        exact hst
    obtain ⟨events, pagination, w2, hq, hp, ht⟩ := programHistory_unpaged o w1 k perPage hact
      (by rw [hh2]; simp; omega) (by have := Int.natCast_nonneg (w.events.history k).length; omega)
    refine ⟨createdEvent o w.tick datastore.UpdateEvent k v, events, pagination, w2,
      rfl, rfl, hq, ?_, ?_⟩
    · rw [← hh2]
      exact hp
    · rw [ht, hh2]
      simp
  · intro k w1 hidx hval h
    obtain ⟨d, pre, post, -, hk, hst, hpre, hdocs, hdocs1, -, -, hw1⟩ :=
      mongo_DeleteAnswer_ok_inv o _ w w1 k h
    have hmem : d ∈ w.answers.client.docs := by
      rw [hdocs]
      simp
    obtain ⟨last, hlast⟩ : ∃ last, d.Values.getLast? = some last := by
      have hne := hval d hmem
      cases hv : d.Values.getLast? with
      | none => exact absurd (List.getLast?_eq_none_iff.mp hv) hne
      | some last => exact ⟨last, rfl⟩
    obtain ⟨-, hh⟩ := mongo_history_after_broadcast o
      { w with
        answers :=
          { client :=
              { docs := pre ++
                  { d with DocumentStatus := DeletedDocumentStatus
                           DeletedAt := o.Now w.answers.clock } :: post
                indexes := w.answers.client.indexes }
            clock := w.answers.clock + 1 }
        trace := w.trace ++ [Call.answerFindByKey k, Call.answerDelete d] }
      d datastore.DeleteEvent last hlast hev
    have hw1b : w1 = (programAnswerService o).broadcastEvent o d datastore.DeleteEvent
      { w with
        answers :=
          { client :=
              { docs := pre ++
                  { d with DocumentStatus := DeletedDocumentStatus
                           DeletedAt := o.Now w.answers.clock } :: post
                indexes := w.answers.client.indexes }
            clock := w.answers.clock + 1 }
        trace := w.trace ++ [Call.answerFindByKey k, Call.answerDelete d] } := hw1
    rw [← hw1b, hk] at hh
    have hh2 : w1.events.history k = w.events.history k ++
        [createdEvent o w.tick datastore.DeleteEvent k last.Value] := hh
    have hno : w1.answers.NoActive k := by
      intro x hx
      rw [hdocs1] at hx
      have hpw := hidx.2
      rw [hdocs] at hpw
      exact mongo_noActive_after_delete k pre post d _ hk hst rfl hpre hpw x hx
    have hf1 : (programEventService o).answerRepo.FindByKey k w1.answers =
        (.error GoError.ErrAnswerNotFound, w1.answers) :=
      mongo.AnswerRepo.FindByKey_of_noActive w1.answers k hno
    refine ⟨createdEvent o w.tick datastore.DeleteEvent k last.Value, d, last, hmem, hk, hst,
      hlast, rfl, rfl, hh2, ?_⟩
    intro pageable
    simp [services.EventService.FindHistoryByKey, hf1, errorsIs, http.StatusNotFound]

/-- C13 as amended, on an example: the update of "k1" with "b" after its
creation. -/
theorem C13_history_after_mutation_witness :
    exampleMongoAfterCreate.events.client.indexes = [] ∧
    (∃ ev events pagination w2,
      ev.Type_ = datastore.UpdateEvent ∧ ev.Data = { Key := "k1", Value := "b" } ∧
      (programEventService exampleOracle).FindHistoryByKey "k1" ⟨1, 20, -1⟩
          exampleMongoAfterUpdate = ((events, pagination, none), w2) ∧
      events.Perm (exampleMongoAfterCreate.events.history "k1" ++ [ev]) ∧
      pagination.Total = (exampleMongoAfterCreate.events.history "k1").length + 1) :=
  ⟨by rfl,
    (C13_history_after_mutation exampleOracle exampleMongoAfterCreate (by rfl)).2.1 "k1" "b"
      { createdAnswer exampleOracle 0 { Key := "k1", Value := "a" } with
        Values := [{ Value := "a" }, { Value := "b" }]
        UpdatedAt := exampleOracle.Now exampleMongoAfterCreate.answers.clock }
      exampleMongoAfterUpdate 20 (by rfl) (by decide)⟩

/-! ### The projections that the handlers send -/

/-- C21: the handlers project the answer that the service returned. For an
answer with non-empty values returned by `FindAnswerByKey`, respectively
`UpdateAnswer`, the get-by-key and the update handler answer 200 with the
projection whose uid, key, created_at and updated_at are those of the answer
and whose value is the last element of its values. For a request that
`CreateAnswer` accepted, the create handler answers 201 with the projection
of the returned answer whose value is the submitted value. -/
theorem C21_handler_projection {σ τ : Type} (a : app.Application σ τ) (o : Oracle)
    (c : gin.Context) (w : World σ τ) :
    (∀ (answer : Answer) (w1 : World σ τ) (hne : answer.Values ≠ []),
      a.answerService.FindAnswerByKey (c.Param "key") w = (.ok answer, w1) →
      a.FindAnswerByKey c w =
        (Go.ret (200,
          { Success := true
            Message := "answer retrieved successfully"
            Data := some (.answer
              { UID := answer.UID
                Key := answer.Key
                Value := (answer.Values.getLast hne).Value
                CreatedAt := answer.CreatedAt
                UpdatedAt := answer.UpdatedAt }) }), w1)) ∧
    (∀ (req : datastore.UpdateAnswer) (answer : Answer) (w1 : World σ τ)
        (hne : answer.Values ≠ []),
      a.answerService.UpdateAnswer o (c.Param "key") req w = (.ok answer, w1) →
      a.UpdateAnswer o c (.ok req) w =
        (Go.ret (200,
          { Success := true
            Message := "answer updated successfully"
            Data := some (.answer
              { UID := answer.UID
                Key := answer.Key
                Value := (answer.Values.getLast hne).Value
                CreatedAt := answer.CreatedAt
                UpdatedAt := answer.UpdatedAt }) }), w1)) ∧
    (∀ (req : datastore.CreateAnswer) (answer : Answer) (w1 : World σ τ),
      a.answerService.CreateAnswer o req w = (.ok answer, w1) →
      a.CreateAnswer o c (.ok req) w =
        (Go.ret (201,
          { Success := true
            Message := "answer created successfully"
            Data := some (.answer
              { UID := answer.UID
                Key := answer.Key
                Value := req.Value
                CreatedAt := answer.CreatedAt
                UpdatedAt := answer.UpdatedAt }) }), w1)) := by
  refine ⟨?_, ?_, ?_⟩
  · intro answer w1 hne h
    have hl : answer.Values.getLast? = some (answer.Values.getLast hne) :=
      List.getLast?_eq_getLast _ hne
    simp [app.Application.FindAnswerByKey, h, hl, app.Application.successResponse,
      http.StatusOK]
  · intro req answer w1 hne h
    have hl : answer.Values.getLast? = some (answer.Values.getLast hne) :=
      List.getLast?_eq_getLast _ hne
    simp [app.Application.UpdateAnswer, h, hl, app.Application.successResponse,
      http.StatusOK]
  · intro req answer w1 h
    have hv : answer.Values = [{ Value := req.Value }] := by
      cases hc : (a.answerService.answerRepo.Create (createdAnswer o w.tick req) w.answers).1 with
      | none =>
        have h0 := services.CreateAnswer_of_create_ok a.answerService o req w hc
        rw [h] at h0
        injection h0 with h1 _
        injection h1 with h1
        rw [h1]
        rfl
      | some err =>
        have h0 := services.CreateAnswer_of_create_err a.answerService o req w err hc
        rw [h] at h0
        cases h0
    simp [app.Application.CreateAnswer, h, hv, app.Application.successResponse,
      http.StatusCreated]

/-- C21 on examples: the key "k1" after its creation with "a" and the update
with "b". -/
theorem C21_handler_projection_witness :
    (exampleApplication.FindAnswerByKey { Params := [("key", "k1")], Query := [] }
        exampleMongoAfterUpdate).1 =
      Go.ret (200,
        { Success := true
          Message := "answer retrieved successfully"
          Data := some (.answer
            { UID := exampleOracle.NewString 1
              Key := "k1"
              Value := "b"
              CreatedAt := exampleOracle.Now 2
              UpdatedAt := exampleOracle.Now exampleMongoAfterCreate.answers.clock }) }) :=
  congrArg Prod.fst
    ((C21_handler_projection exampleApplication exampleOracle
      { Params := [("key", "k1")], Query := [] } exampleMongoAfterUpdate).1
      { createdAnswer exampleOracle 0 { Key := "k1", Value := "a" } with
        Values := [{ Value := "a" }, { Value := "b" }]
        UpdatedAt := exampleOracle.Now exampleMongoAfterCreate.answers.clock }
      { exampleMongoAfterUpdate with
        trace := exampleMongoAfterUpdate.trace ++ [Call.answerFindByKey "k1"] }
      (by decide) (by rfl))

/-! ### The element read of `CreateEvent` -/

theorem goroutinePanics_append (l1 l2 : List Call) :
    goroutinePanics (l1 ++ l2) = goroutinePanics l1 ++ goroutinePanics l2 := by
  induction l1 with
  | nil => rfl
  | cons c l ih => cases c <;> simp [goroutinePanics, ih]

namespace services

variable {σ τ : Type}

/-- `CreateEvent` returns, with an event or an error, on a snapshot that holds
a value. -/
theorem CreateEvent_returns (e : EventService σ τ) (o : Oracle) (answerEvent : AnswerEvent)
    (w : World σ τ) (hne : answerEvent.Answer.Values ≠ []) :
    ∃ r, (e.CreateEvent o answerEvent w).1 = Go.ret r := by
  have hl : answerEvent.Answer.Values.getLast? =
      some (answerEvent.Answer.Values.getLast hne) := List.getLast?_eq_getLast _ hne
  cases hr : (e.eventRepo.Create
      { ID := o.NewObjectID w.tick, UID := o.NewString (w.tick + 1),
        Type_ := answerEvent.Type_,
        Data := { Key := answerEvent.Answer.Key
                  Value := (answerEvent.Answer.Values.getLast hne).Value },
        CreatedAt := o.Now (w.tick + 2), UpdatedAt := o.Now (w.tick + 3), DeletedAt := 0,
        DocumentStatus := ActiveDocumentStatus } w.events).1 with
  | none => exact ⟨_, by simp [EventService.CreateEvent, hl, hr]; rfl⟩
  | some err => exact ⟨_, by simp [EventService.CreateEvent, hl, hr]; rfl⟩

/-- `CreateEvent` on a snapshot without a value: the panic of the element
read, after two readings of the generators and before any call of the Event
Store. -/
theorem CreateEvent_empty (e : EventService σ τ) (o : Oracle) (answerEvent : AnswerEvent)
    (w : World σ τ) (h : answerEvent.Answer.Values = []) :
    e.CreateEvent o answerEvent w =
      (Go.panic "index out of range [-1]", { w with tick := w.tick + 2 }) := by
  simp [EventService.CreateEvent, h]

/-- The goroutine of `broadcastEvent` ends in a panic exactly when the
snapshot holds no value. -/
theorem broadcastEvent_goroutinePanics (a : AnswerService σ τ) (o : Oracle) (answer : Answer)
    (eventType : EventType) (w : World σ τ) :
    (answer.Values ≠ [] →
      goroutinePanics (a.broadcastEvent o answer eventType w).trace =
        goroutinePanics w.trace) ∧
    (answer.Values = [] →
      goroutinePanics (a.broadcastEvent o answer eventType w).trace =
        goroutinePanics w.trace ++ ["index out of range [-1]"]) := by
  constructor
  · intro hne
    have hl : answer.Values.getLast? = some (answer.Values.getLast hne) :=
      List.getLast?_eq_getLast _ hne
    cases hr : (a.eventService.eventRepo.Create
        { ID := o.NewObjectID w.tick, UID := o.NewString (w.tick + 1),
          Type_ := eventType,
          Data := { Key := answer.Key, Value := (answer.Values.getLast hne).Value },
          CreatedAt := o.Now (w.tick + 2), UpdatedAt := o.Now (w.tick + 3), DeletedAt := 0,
          DocumentStatus := ActiveDocumentStatus } w.events).1 <;>
      simp [AnswerService.broadcastEvent, EventService.CreateEvent, hl, hr,
        goroutinePanics_append, goroutinePanics]
  · intro h
    simp [AnswerService.broadcastEvent, EventService.CreateEvent, h,
      goroutinePanics_append, goroutinePanics]

end services

/-- C23: the element read of `CreateEvent`. (1) On a snapshot with non-empty
values `CreateEvent` returns (an event or an error), it does not panic. (2) On
a snapshot with empty values it panics with an index out of range, before the
Event Store is called, and returns nothing. (3) `CreateAnswer` builds an
answer with exactly the one value of the request, and its goroutine never
panics. (4), (5) When the answers that the Value Store returns from `Update`,
respectively `FindByKey`, hold a value, the goroutines of `UpdateAnswer` and
`DeleteAnswer` do not panic: the snapshot they pass holds a value. (6) When
`FindByKey` returns an answer without a value and the deletion succeeds,
`DeleteAnswer` returns no error and its goroutine ends in the panic. -/
theorem C23_element_read_in_bounds {σ τ : Type} (a : services.AnswerService σ τ) (o : Oracle)
    (w : World σ τ) :
    (∀ (answerEvent : AnswerEvent) (w0 : World σ τ), answerEvent.Answer.Values ≠ [] →
      ∃ r, (a.eventService.CreateEvent o answerEvent w0).1 = Go.ret r) ∧
    (∀ (answerEvent : AnswerEvent) (w0 : World σ τ), answerEvent.Answer.Values = [] →
      a.eventService.CreateEvent o answerEvent w0 =
        (Go.panic "index out of range [-1]", { w0 with tick := w0.tick + 2 })) ∧
    (∀ req : datastore.CreateAnswer,
      Call.answerCreate (createdAnswer o w.tick req) ∈ (a.CreateAnswer o req w).2.trace ∧
      (createdAnswer o w.tick req).Values = [{ Value := req.Value }] ∧
      goroutinePanics (a.CreateAnswer o req w).2.trace = goroutinePanics w.trace) ∧
    (∀ (key : String) (req : datastore.UpdateAnswer),
      (∀ answer s1 answer1 s2, a.answerRepo.FindByKey key w.answers = (.ok answer, s1) →
        a.answerRepo.Update answer { Value := req.Value } s1 = (.ok answer1, s2) →
        answer1.Values ≠ []) →
      goroutinePanics (a.UpdateAnswer o key req w).2.trace = goroutinePanics w.trace) ∧
    (∀ key : String,
      (∀ answer s1, a.answerRepo.FindByKey key w.answers = (.ok answer, s1) →
        answer.Values ≠ []) →
      goroutinePanics (a.DeleteAnswer o key w).2.trace = goroutinePanics w.trace) ∧
    (∀ (key : String) (answer : Answer) (s1 s2 : σ),
      a.answerRepo.FindByKey key w.answers = (.ok answer, s1) →
      a.answerRepo.Delete answer s1 = (none, s2) → answer.Values = [] →
      (a.DeleteAnswer o key w).1 = none ∧
      goroutinePanics (a.DeleteAnswer o key w).2.trace =
        goroutinePanics w.trace ++ ["index out of range [-1]"]) := by
  refine ⟨?_, ?_, ?_, ?_, ?_, ?_⟩
  · intro answerEvent w0 hne
    exact services.CreateEvent_returns a.eventService o answerEvent w0 hne
  · intro answerEvent w0 h
    exact services.CreateEvent_empty a.eventService o answerEvent w0 h
  · intro req
    rcases hr : a.answerRepo.Create (createdAnswer o w.tick req) w.answers with ⟨x, s1⟩
    cases x with
    | none =>
      have h0 := services.CreateAnswer_of_create_ok a o req w (by rw [hr])
      obtain ⟨-, l, hl, -⟩ := services.broadcastEvent_frame a o (createdAnswer o w.tick req)
        datastore.CreateEvent
        { w with
          answers := (a.answerRepo.Create (createdAnswer o w.tick req) w.answers).2
          tick := w.tick + 4
          trace := w.trace ++ [Call.answerCreate (createdAnswer o w.tick req)] }
      have hp := (services.broadcastEvent_goroutinePanics a o (createdAnswer o w.tick req)
        datastore.CreateEvent
        { w with
          answers := (a.answerRepo.Create (createdAnswer o w.tick req) w.answers).2
          tick := w.tick + 4
          trace := w.trace ++ [Call.answerCreate (createdAnswer o w.tick req)] }).1
        (by simp [createdAnswer])
      rw [h0]
      refine ⟨by rw [hl]; simp, rfl, ?_⟩
      rw [hp]
      simp [goroutinePanics_append, goroutinePanics]
    | some err =>
      obtain ⟨w1, h, -, -, htr⟩ := services.CreateAnswer_err_spec a o req w err s1 hr
      rw [h]
      refine ⟨by rw [htr]; simp, rfl, ?_⟩
      rw [htr]
      simp [goroutinePanics_append, goroutinePanics]
  · intro key req hprov
    rcases hf : a.answerRepo.FindByKey key w.answers with ⟨x, s1⟩
    cases x with
    | error err =>
      rw [services.UpdateAnswer_notFound_spec a o key req w err s1 hf]
      simp [goroutinePanics_append, goroutinePanics]
    | ok answer =>
      rcases hu : a.answerRepo.Update answer { Value := req.Value } s1 with ⟨y, s2⟩
      cases y with
      | error err =>
        rw [services.UpdateAnswer_err_spec a o key req w answer err s1 s2 hf hu]
        simp [goroutinePanics_append, goroutinePanics]
      | ok answer1 =>
        rw [services.UpdateAnswer_ok_spec a o key req w answer answer1 s1 s2 hf hu]
        rw [(services.broadcastEvent_goroutinePanics a o answer1 datastore.UpdateEvent _).1
          (hprov answer s1 answer1 s2 hf hu)]
        simp [goroutinePanics_append, goroutinePanics]
  · intro key hprov
    rcases hf : a.answerRepo.FindByKey key w.answers with ⟨x, s1⟩
    cases x with
    | error err =>
      rw [services.DeleteAnswer_notFound_spec a o key w err s1 hf]
      simp [goroutinePanics_append, goroutinePanics]
    | ok answer =>
      rcases hd : a.answerRepo.Delete answer s1 with ⟨y, s2⟩
      cases y with
      | some err =>
        rw [services.DeleteAnswer_err_spec a o key w answer err s1 s2 hf hd]
        simp [goroutinePanics_append, goroutinePanics]
      | none =>
        rw [services.DeleteAnswer_ok_spec a o key w answer s1 s2 hf hd]
        rw [(services.broadcastEvent_goroutinePanics a o answer datastore.DeleteEvent _).1
          (hprov answer s1 hf)]
        simp [goroutinePanics_append, goroutinePanics]
  · intro key answer s1 s2 hf hd he
    rw [services.DeleteAnswer_ok_spec a o key w answer s1 s2 hf hd]
    refine ⟨rfl, ?_⟩
    rw [(services.broadcastEvent_goroutinePanics a o answer datastore.DeleteEvent _).2 he]
    simp [goroutinePanics_append, goroutinePanics]

/-- C23 on an example: the deletion of the answer "k0" that holds no value
returns no error, and its goroutine ends in the panic of the element read. -/
theorem C23_element_read_in_bounds_witness :
    (exampleApplication.answerService.DeleteAnswer exampleOracle "k0" exampleHollowWorld).1
      = none ∧
    goroutinePanics
        (exampleApplication.answerService.DeleteAnswer exampleOracle "k0"
          exampleHollowWorld).2.trace =
      goroutinePanics exampleHollowWorld.trace ++ ["index out of range [-1]"] :=
  (C23_element_read_in_bounds exampleApplication.answerService exampleOracle
    exampleHollowWorld).2.2.2.2.2 "k0"
    { createdAnswer exampleOracle 0 { Key := "k0", Value := "z" } with Values := [] }
    exampleHollowWorld.answers
    { client :=
        { docs := [{ createdAnswer exampleOracle 0 { Key := "k0", Value := "z" } with
                     Values := []
                     DocumentStatus := DeletedDocumentStatus
                     DeletedAt := exampleOracle.Now 0 }]
          indexes := [mongo.keyIndex] }
      clock := 1 }
    (by rfl) (by rfl) (by rfl)

/-! ### The history of a key across a deletion and a new creation -/

namespace pager

/-- The sort key of `created_at` is the creation time of the event. -/
theorem sortKey_created_at (e : Event) : sortKey "created_at" e = e.CreatedAt := by
  simp [sortKey, mongo.Document.field]

/-- The descending sort puts newer events first. -/
theorem insertionSort_newest_first (l : List Event) :
    (l.insertionSort (fun a b => sortKey "created_at" b ≤ sortKey "created_at" a)).Sorted
      (fun x y => y.CreatedAt ≤ x.CreatedAt) := by
  haveI : IsTotal Event (fun a b => sortKey "created_at" b ≤ sortKey "created_at" a) :=
    ⟨fun x y => le_total (sortKey "created_at" y) (sortKey "created_at" x)⟩
  haveI : IsTrans Event (fun a b => sortKey "created_at" b ≤ sortKey "created_at" a) :=
    ⟨fun _ _ _ h1 h2 => le_trans h2 h1⟩
  have hs := List.sorted_insertionSort
    (fun a b : Event => sortKey "created_at" b ≤ sortKey "created_at" a) l
  refine List.Pairwise.imp ?_ hs
  intro a b hab
  rw [sortKey_created_at, sortKey_created_at] at hab
  exact hab

end pager

/-- The history of a key that has an Active answer, asked for in one page
that is large enough, with the events and the pagination data in full. -/
theorem programHistory_unpaged_eq (o : Oracle) (w : World mongo.AnswerRepo mongo.EventRepo)
    (k : String) (perPage : Int)
    (hact : ∃ d ∈ w.answers.client.docs, d.Key = k ∧ d.DocumentStatus = ActiveDocumentStatus)
    (hlen : ((w.events.history k).length : Int) ≤ perPage) (hpos : 1 ≤ perPage) :
    ∃ w2,
      (programEventService o).FindHistoryByKey k ⟨1, perPage, -1⟩ w =
        (((w.events.history k).insertionSort
            (fun a b => pager.sortKey "created_at" b ≤ pager.sortKey "created_at" a),
          pager.paginationData (w.events.history k).length 1 perPage, none), w2) := by
  rcases mongo.AnswerRepo.FindByKey_cases w.answers k with
    ⟨-, hno⟩ | ⟨d, pre, post, hf, -, -, hk, -, -⟩
  · obtain ⟨d, hd, hkd⟩ := hact
    exact absurd hkd (hno d hd)
  · have hf2 : (programEventService o).answerRepo.FindByKey k w.answers =
        (.ok d, w.answers) := hf
    have hl : ¬ perPage < 1 := by omega
    have hq : (programEventService o).eventRepo.FindManyByKey d.Key ⟨1, perPage, -1⟩ w.events =
        (((w.events.history k).insertionSort
            (fun a b => pager.sortKey "created_at" b ≤ pager.sortKey "created_at" a),
          pager.paginationData (w.events.history k).length 1 perPage, none), w.events) := by
      have hq0 : (programEventService o).eventRepo.FindManyByKey d.Key ⟨1, perPage, -1⟩
          w.events = mongo.EventRepo.FindManyByKey w.events d.Key ⟨1, perPage, -1⟩ := rfl
      rw [hq0, mongo.EventRepo.FindManyByKey_eq, hk]
      have hs : pager.sorted "created_at" (-1) (w.events.history k) =
          .ok ((w.events.history k).insertionSort
            (fun a b => pager.sortKey "created_at" b ≤ pager.sortKey "created_at" a)) := by
        simp [pager.sorted]
      simp only [hs, if_neg hl]
      have htake : ∀ l : List Event, (l.length : Int) ≤ perPage →
          List.take perPage.toNat l = l := by
        intro l hll
        apply List.take_of_length_le
        omega
      simp [htake, List.length_insertionSort, hlen]
    exact ⟨_, services.FindHistoryByKey_ok_spec (programEventService o) k
      ⟨1, perPage, -1⟩ w d w.answers _ _ w.events hf2 hq⟩

/-- The events of the Mongo event repository without a unique index after
`broadcastEvent`: still without an index. -/
theorem mongo_indexes_after_broadcast (o : Oracle)
    (w0 : World mongo.AnswerRepo mongo.EventRepo) (answer : Answer) (eventType : EventType)
    (hev : w0.events.client.indexes = []) :
    ((programAnswerService o).broadcastEvent o answer eventType w0).events.client.indexes
      = [] := by
  cases hl : answer.Values.getLast? with
  | none =>
    simp [services.AnswerService.broadcastEvent, services.EventService.CreateEvent, hl, hev]
  | some last =>
    obtain ⟨logs, hb⟩ := services.broadcastEvent_createdEvent (programAnswerService o) o
      answer eventType w0 last hl
    rw [hb]
    exact (mongo.EventRepo.Create_docs w0.events _ hev).2

/-- A successful `CreateAnswer` of the program: the event of type `create`
with the key and value of the request was added to the history of the key. -/
theorem program_history_after_create (o : Oracle)
    (w w1 : World mongo.AnswerRepo mongo.EventRepo) (k v : String) (answer : Answer)
    (hev : w.events.client.indexes = [])
    (h : (programAnswerService o).CreateAnswer o { Key := k, Value := v } w =
      (.ok answer, w1)) :
    w1.events.client.indexes = [] ∧
    w1.events.history k = w.events.history k ++
      [createdEvent o (w.tick + 4) datastore.CreateEvent k v] := by
  have hw1 : w1 = (programAnswerService o).broadcastEvent o
      (createdAnswer o w.tick { Key := k, Value := v }) datastore.CreateEvent
      { w with
        answers := ((programAnswerService o).answerRepo.Create
          (createdAnswer o w.tick { Key := k, Value := v }) w.answers).2
        tick := w.tick + 4
        trace := w.trace ++
          [Call.answerCreate (createdAnswer o w.tick { Key := k, Value := v })] } := by
    cases hc : ((programAnswerService o).answerRepo.Create
        (createdAnswer o w.tick { Key := k, Value := v }) w.answers).1 with
    | none =>
      have h0 := services.CreateAnswer_of_create_ok (programAnswerService o) o
        { Key := k, Value := v } w hc
      rw [h] at h0
      injection h0 with _ h0
    | some err =>
      have h0 := services.CreateAnswer_of_create_err (programAnswerService o) o
        { Key := k, Value := v } w err hc
      rw [h] at h0
      cases h0
  have hi := mongo_indexes_after_broadcast o
    { w with
      answers := ((programAnswerService o).answerRepo.Create
        (createdAnswer o w.tick { Key := k, Value := v }) w.answers).2
      tick := w.tick + 4
      trace := w.trace ++
        [Call.answerCreate (createdAnswer o w.tick { Key := k, Value := v })] }
    (createdAnswer o w.tick { Key := k, Value := v }) datastore.CreateEvent hev
  obtain ⟨-, hh⟩ := mongo_history_after_broadcast o
    { w with
      answers := ((programAnswerService o).answerRepo.Create
        (createdAnswer o w.tick { Key := k, Value := v }) w.answers).2
      tick := w.tick + 4
      trace := w.trace ++
        [Call.answerCreate (createdAnswer o w.tick { Key := k, Value := v })] }
    (createdAnswer o w.tick { Key := k, Value := v }) datastore.CreateEvent
    { Value := v } rfl hev
  rw [← hw1] at hh hi
  exact ⟨hi, hh⟩

/-- A successful `DeleteAnswer` of the program on an answer with a last value:
the event of type `delete` with the key and that value was added to the
history of the key. -/
theorem program_history_after_delete (o : Oracle)
    (w w1 : World mongo.AnswerRepo mongo.EventRepo) (k : String)
    (hev : w.events.client.indexes = [])
    (h : (programAnswerService o).DeleteAnswer o k w = (none, w1)) :
    ∃ d pre post,
      d.Key = k ∧ d.DocumentStatus = ActiveDocumentStatus ∧
      (∀ x ∈ pre, ¬ (x.Key = k ∧ x.DocumentStatus = ActiveDocumentStatus)) ∧
      w.answers.client.docs = pre ++ d :: post ∧
      w1.answers.client.docs = pre ++
        { d with DocumentStatus := DeletedDocumentStatus
                 DeletedAt := o.Now w.answers.clock } :: post ∧
      w1.answers.client.indexes = w.answers.client.indexes ∧
      w.tick ≤ w1.tick ∧
      w1.events.client.indexes = [] ∧
      ∀ last, d.Values.getLast? = some last →
        w1.events.history k = w.events.history k ++
          [createdEvent o w.tick datastore.DeleteEvent k last.Value] := by
  obtain ⟨d, pre, post, -, hk, hst, hpre, hdocs, hdocs1, hi1, ht, hw1⟩ :=
    mongo_DeleteAnswer_ok_inv o _ w w1 k h
  have hw1b : w1 = (programAnswerService o).broadcastEvent o d datastore.DeleteEvent
    { w with
      answers :=
        { client :=
            { docs := pre ++
                { d with DocumentStatus := DeletedDocumentStatus
                         DeletedAt := o.Now w.answers.clock } :: post
              indexes := w.answers.client.indexes }
          clock := w.answers.clock + 1 }
      trace := w.trace ++ [Call.answerFindByKey k, Call.answerDelete d] } := hw1
  have hi := mongo_indexes_after_broadcast o
    { w with
      answers :=
        { client :=
            { docs := pre ++
                { d with DocumentStatus := DeletedDocumentStatus
                         DeletedAt := o.Now w.answers.clock } :: post
              indexes := w.answers.client.indexes }
          clock := w.answers.clock + 1 }
      trace := w.trace ++ [Call.answerFindByKey k, Call.answerDelete d] }
    d datastore.DeleteEvent hev
  rw [← hw1b] at hi
  refine ⟨d, pre, post, hk, hst, hpre, hdocs, hdocs1, hi1, ht, hi, ?_⟩
  intro last hlast
  obtain ⟨-, hh⟩ := mongo_history_after_broadcast o
    { w with
      answers :=
        { client :=
            { docs := pre ++
                { d with DocumentStatus := DeletedDocumentStatus
                         DeletedAt := o.Now w.answers.clock } :: post
              indexes := w.answers.client.indexes }
          clock := w.answers.clock + 1 }
      trace := w.trace ++ [Call.answerFindByKey k, Call.answerDelete d] }
    d datastore.DeleteEvent last hlast hev
  rw [← hw1b, hk] at hh
  exact hh

/-- C22: history is keyed by the key. On the program's services, in a state
where the unique key index holds on the answers and the events have no unique
index, with a uid generator that never repeats: once `CreateAnswer(k, a)` and
`DeleteAnswer(k)` have succeeded, `CreateAnswer(k, b)` succeeds with an answer
of another uid, and `FindHistoryByKey(k)`, asked for one page that holds the
whole history, succeeds and returns the history of `k` from before together
with exactly the three events create `{k, a}`, delete `{k, a}` and create
`{k, b}`, newest first. -/
theorem C22_history_is_keyed_by_key (o : Oracle)
    (w w1 w2 : World mongo.AnswerRepo mongo.EventRepo) (k a b : String) (answer1 : Answer)
    (perPage : Int) (hidx : w.answers.Indexed) (hev : w.events.client.indexes = [])
    (huid : Function.Injective o.NewString)
    (h1 : (programAnswerService o).CreateAnswer o { Key := k, Value := a } w =
      (.ok answer1, w1))
    (h2 : (programAnswerService o).DeleteAnswer o k w1 = (none, w2))
    (hlen : ((w.events.history k).length : Int) + 3 ≤ perPage) :
    ∃ (answer3 : Answer) (w3 : World mongo.AnswerRepo mongo.EventRepo) (e1 e2 e3 : Event)
      (events : List Event) (pagination : PaginationData)
      (w4 : World mongo.AnswerRepo mongo.EventRepo),
      (programAnswerService o).CreateAnswer o { Key := k, Value := b } w2 =
        (.ok answer3, w3) ∧
      answer3.UID ≠ answer1.UID ∧
      e1.Type_ = datastore.CreateEvent ∧ e1.Data = { Key := k, Value := a } ∧
      e2.Type_ = datastore.DeleteEvent ∧ e2.Data = { Key := k, Value := a } ∧
      e3.Type_ = datastore.CreateEvent ∧ e3.Data = { Key := k, Value := b } ∧
      (programEventService o).FindHistoryByKey k ⟨1, perPage, -1⟩ w3 =
        ((events, pagination, none), w4) ∧
      events.Perm (w.events.history k ++ [e1, e2, e3]) ∧
      events.Sorted (fun x y => y.CreatedAt ≤ x.CreatedAt) ∧
      pagination.Total = (w.events.history k).length + 3 := by
  obtain ⟨ha1, hv1, hd1, hi1, ht1⟩ := mongo_CreateAnswer_ok_inv o _ w w1 _ _ h1
  obtain ⟨hev1, hh1⟩ := program_history_after_create o w w1 k a answer1 hev h1
  -- no answer of the key was Active before the first creation
  have hno : ∀ x ∈ w.answers.client.docs,
      ¬ (x.Key = k ∧ x.DocumentStatus = ActiveDocumentStatus) := by
    intro x hx hc
    rw [hidx.1, Bool.eq_false_iff] at hv1
    apply hv1
    rw [mongo.violatesUnique_keyIndex]
    refine ⟨x, hx, ?_, ?_⟩
    · rw [ha1]; exact hc.1
    · rw [ha1]; exact hc.2
  have hpw1 : w1.answers.client.docs.Pairwise
      (fun x y => ¬ (x.Key = y.Key ∧ x.DocumentStatus = y.DocumentStatus)) := by
    rw [hd1, List.pairwise_append]
    refine ⟨hidx.2, List.pairwise_singleton _ _, ?_⟩
    intro x hx y hy hc
    rw [List.mem_singleton] at hy
    subst hy
    rw [hidx.1, Bool.eq_false_iff] at hv1
    exact hv1 ((mongo.violatesUnique_keyIndex _ _).mpr ⟨x, hx, hc.1, hc.2⟩)
  obtain ⟨d, pre, post, hk, hst, hpre, hl, hd2, hi2, ht2, hev2, hh2⟩ :=
    program_history_after_delete o w1 w2 k hev1 h2
  -- the answer that was deleted is the one created first
  have hd : d = answer1 := by
    have hmem : d ∈ w.answers.client.docs ++ [answer1] := by
      rw [← hd1, hl]
      simp
    rcases List.mem_append.mp hmem with hm | hm
    · exact absurd ⟨hk, hst⟩ (hno d hm)
    · exact List.mem_singleton.mp hm
  have hlast : d.Values.getLast? = some { Value := a } := by
    rw [hd, ha1]
    rfl
  have hh2b := hh2 _ hlast
  have hno2 : w2.answers.NoActive k := by
    intro x hx
    rw [hd2] at hx
    rw [hl] at hpw1
    exact mongo_noActive_after_delete k pre post d _ hk hst rfl hpre hpw1 x hx
  have hidx2 : w2.answers.client.indexes = [mongo.keyIndex] := by
    rw [hi2, hi1]; exact hidx.1
  obtain ⟨w3, -, -, h3, -⟩ := services.CreateAnswer_ok_spec (programAnswerService o) o
    { Key := k, Value := b } w2 _ (mongo_Create_fresh o w2.answers w2.tick _ hidx2 hno2)
  obtain ⟨-, -, hd3, -, -⟩ := mongo_CreateAnswer_ok_inv o _ w2 w3 _ _ h3
  obtain ⟨-, hh3⟩ := program_history_after_create o w2 w3 k b _ hev2 h3
  have hhist : w3.events.history k = w.events.history k ++
      [createdEvent o (w.tick + 4) datastore.CreateEvent k a,
       createdEvent o w1.tick datastore.DeleteEvent k a,
       createdEvent o (w2.tick + 4) datastore.CreateEvent k b] := by
    rw [hh3, hh2b, hh1]
    simp
  have hact : ∃ x ∈ w3.answers.client.docs,
      x.Key = k ∧ x.DocumentStatus = ActiveDocumentStatus :=
    ⟨createdAnswer o w2.tick { Key := k, Value := b }, by rw [hd3]; simp, rfl, rfl⟩
  have hlen3 : ((w3.events.history k).length : Int) ≤ perPage := by
    rw [hhist]
    simp
    omega
  obtain ⟨w4, hq⟩ := programHistory_unpaged_eq o w3 k perPage hact hlen3
    (by have := Int.natCast_nonneg (w.events.history k).length; omega)
  refine ⟨createdAnswer o w2.tick { Key := k, Value := b }, w3,
    createdEvent o (w.tick + 4) datastore.CreateEvent k a,
    createdEvent o w1.tick datastore.DeleteEvent k a,
    createdEvent o (w2.tick + 4) datastore.CreateEvent k b, _, _, w4,
    h3, ?_, rfl, rfl, rfl, rfl, rfl, rfl, hq, ?_, ?_, ?_⟩
  · rw [ha1]
    intro hc
    have := huid hc
    omega
  · rw [← hhist]
    exact List.perm_insertionSort _ _
  · exact pager.insertionSort_newest_first _
  · rw [hhist]
    simp [pager.paginationData]

/-- C22 on an example: "k1" is created with "a", deleted, and created again
with "b" on the start-up database. -/
theorem C22_history_is_keyed_by_key_witness :
    exampleMongoWorld.answers.Indexed ∧
    ∃ (answer3 : Answer) (w3 : World mongo.AnswerRepo mongo.EventRepo) (e1 e2 e3 : Event)
      (events : List Event) (pagination : PaginationData)
      (w4 : World mongo.AnswerRepo mongo.EventRepo),
      (programAnswerService exampleOracle).CreateAnswer exampleOracle
          { Key := "k1", Value := "b" } exampleMongoDeleted = (.ok answer3, w3) ∧
      answer3.UID ≠ (createdAnswer exampleOracle 0 { Key := "k1", Value := "a" }).UID ∧
      e1.Type_ = datastore.CreateEvent ∧ e1.Data = { Key := "k1", Value := "a" } ∧
      e2.Type_ = datastore.DeleteEvent ∧ e2.Data = { Key := "k1", Value := "a" } ∧
      e3.Type_ = datastore.CreateEvent ∧ e3.Data = { Key := "k1", Value := "b" } ∧
      (programEventService exampleOracle).FindHistoryByKey "k1" ⟨1, 20, -1⟩ w3 =
        ((events, pagination, none), w4) ∧
      events.Perm (exampleMongoWorld.events.history "k1" ++ [e1, e2, e3]) ∧
      events.Sorted (fun x y => y.CreatedAt ≤ x.CreatedAt) ∧
      pagination.Total = (exampleMongoWorld.events.history "k1").length + 3 :=
  ⟨by decide,
    C22_history_is_keyed_by_key exampleOracle exampleMongoWorld exampleMongoAfterCreate
      exampleMongoDeleted "k1" "a" "b"
      (createdAnswer exampleOracle 0 { Key := "k1", Value := "a" }) 20 (by decide) (by rfl)
      exampleOracle_NewString_injective (by rfl) (by rfl) (by decide)⟩
